import Mathlib

/-!
# The GCP provider of nm-cloud-setup

A shallow embedding of `clients/cloud-setup/nmcs-provider-gcp.c`: the two
listing parsers, the four completion callbacks of `get_config`, the fan-in
gate `_get_config_maybe_task_return`, and the event loop that delivers the
completions of the outstanding GETs in any order.

Pointers are modelled by what they point to: a `GCPIfaceData *` is the index of
the allocation, an `NMCSProviderGetConfigIfaceData *` is the key of the record
in `result_dict`. Calls of the provider into its surroundings (a GET being
issued, the task being returned, a counter being decremented, a route pointer
being stored) are appended to a log, so that statements about what happened
during a run can be made.
-/

namespace NMCSGcp

/-! ## Constants -/

def HTTP_TIMEOUT_MS : Nat := 3000

def HTTP_REQ_MAX_DATA : Nat := 512 * 1024

def HTTP_POLL_TIMEOUT_MS : Nat := 10000

def HTTP_RATE_LIMIT_MS : Nat := 1000

def NM_GCP_HOST : String := "metadata.google.internal"

def NM_GCP_BASE : String := "http://" ++ NM_GCP_HOST

def NM_GCP_API_VERSION : String := "/v1"

def NM_GCP_METADATA_URL_BASE : String :=
  NM_GCP_BASE ++ "/computeMetadata" ++ NM_GCP_API_VERSION ++ "/instance"

def NM_GCP_METADATA_URL_NET : String := "/network-interfaces/"

def G_MAXINT64 : Int := 9223372036854775807

def AF_INET : Nat := 2

/-- The route attribute name NM_IP_ROUTE_ATTRIBUTE_TYPE. -/
def NM_IP_ROUTE_ATTRIBUTE_TYPE : String := "type"

/-! ## Errors and GET results -/

/-- A GError of glib, reduced to what the provider looks at: whether it is
G_IO_ERROR_CANCELLED, and its message. -/
structure GError where
  cancelled : Bool
  message : String
deriving DecidableEq, Repr

/-- Modelled from the spec: nm_utils_error_is_cancelled (nm-shared-utils.c) is not
among the sources. It tells the cancellation error, which the spec keeps apart
from ordinary failures; NULL is no cancellation. -/
def nm_utils_error_is_cancelled (error : Option GError) : Bool :=
  match error with
  | some e => e.cancelled
  | none => false

/-- Modelled from the spec: nm_utils_error_new (nm-shared-utils.c) is not among the
sources. The call nm_utils_error_new (NM_UTILS_ERROR_UNKNOWN, msg) gives an
ordinary failure with that message. -/
def nm_utils_error_new (msg : String) : GError :=
  { cancelled := false, message := msg }

/-- Modelled from the spec: nm_http_client_poll_get_finish (nm-http-client.c) is
not among the sources. By the interface of the poll client in the spec a
callback gets the return value, the response body and the error. -/
structure GetResult where
  success : Bool
  response : List Char
  error : Option GError
deriving DecidableEq, Repr

/-! ## C strings and the helpers of the parsers -/

/-- The bytes of a buffer read as a C string: up to the first NUL. -/
def c_str (buf : List Char) : List Char :=
  buf.takeWhile (fun c => c != '\x00')

/-- The library function memchr (s, c, n): the offset of the first `c` among the
first `n` bytes of the memory `s`. The list is the memory from the pointer on
as far as it is given; where `n` reaches past the end of the list, the search
finds nothing there. What memory a loop is given is said where the loop is
called: the body alone (`_get_net_ifaces_list_parse`,
`_get_config_ips_list_parse`), or the body and the bytes that follow it
(`_get_net_ifaces_list_parse_at`). -/
def memchr : List Char → Char → Nat → Option Nat
  | [], _, _ => none
  | _ :: _, _, 0 => none
  | x :: xs, c, n + 1 => if x = c then some 0 else (memchr xs c n).map (· + 1)

/-- The glib function g_string_overwrite_len (string, pos, val, len), with
`len = val.length`: the bytes at `pos ..< pos + len` are replaced, the string
grows when the end moves, and what lies behind `pos + len` stays. A zero
length returns the string as it is. -/
def g_string_overwrite_len (string : List Char) (pos : Nat) (val : List Char) :
    List Char :=
  if val.length = 0 then string
  else if string.length < pos then string
  else string.take pos ++ val ++ string.drop (pos + val.length)

/-- The glib function g_string_new_len (init, len), with `len = init.length`. -/
def g_string_new_len (init : List Char) : List Char := init

/-- The value of a run of decimal digits. -/
def digits_value (base : Nat) (ds : List Char) : Nat :=
  ds.foldl (fun v c => base * v + (c.toNat - 48)) 0

/-- Modelled from the spec: _nm_utils_ascii_str_to_int64 (nm-shared-utils.c) is
not among the sources. The spec has a record parsed as a decimal integer and
has malformed or negative ones skipped; the callers pass base 10, the range
0 .. G_MAXINT64 and the fallback -1. Taken as: an optional minus sign and a
non-empty run of decimal digits give the value when it lies in `min .. max`,
everything else gives `fallback`. -/
def _nm_utils_ascii_str_to_int64 (str : List Char) (base : Nat)
    (min max fallback : Int) : Int :=
  let neg := str.head? == some '-'
  let ds := if neg then str.drop 1 else str
  if ds.isEmpty || !(ds.all Char.isDigit) then fallback
  else
    let v : Int := if neg then - (digits_value base ds : Int) else (digits_value base ds : Int)
    if v > max || v < min then fallback else v

/-- The format "%" G_GINT64_FORMAT of printf. -/
def fmt_gint64 (v : Int) : String :=
  match v with
  | Int.ofNat n => Nat.repr n
  | Int.negSucc n => "-" ++ Nat.repr (n + 1)

/-- Modelled from the spec: nmcs_utils_uri_build_concat (nm-cloud-setup-utils.c)
is not among the sources. By the URL layout of the spec the components follow
the base, with a slash in between unless the first component brings one. -/
def nmcs_utils_uri_build_concat (base : String) (components : List String) : String :=
  let sep := if (components.head?.bind (fun c => c.data.head?)) == some '/' then "" else "/"
  components.foldl (fun u c => u ++ c) (base ++ sep)

def _gcp_uri_concat (components : List String) : String :=
  nmcs_utils_uri_build_concat NM_GCP_METADATA_URL_BASE components

def _gcp_uri_interfaces (components : List String) : String :=
  _gcp_uri_concat (NM_GCP_METADATA_URL_NET :: components)

/-! ## The listing parsers -/

/-- The while loop of _get_net_ifaces_list_cb. `line_start` is the memory from
the pointer of that name on, `line_end` and `token_end` are offsets from it.
After `line_start = line_end + 1` the difference `line_end - line_start` is -1,
so `response_len -= line_end - line_start` adds one (in gsize arithmetic). The
first argument bounds the number of iterations. -/
def _get_net_ifaces_list_loop :
    Nat → List Char → Nat → List Char → List Int → Option (List Char × List Int)
  | 0, _, _, _, _ => none
  | fuel + 1, line_start, response_len, gstr, ifaces_arr =>
    if 0 < response_len then
      match memchr line_start '\n' response_len with
      | none => some (gstr, ifaces_arr)
      | some line_end =>
        let token_start := line_start
        let token_end := memchr token_start '/' line_end
        let line_start' := line_start.drop (line_end + 1)
        let response_len' := (response_len + 1) % 2 ^ 64
        match token_end with
        | none => _get_net_ifaces_list_loop fuel line_start' response_len' gstr ifaces_arr
        | some token_end =>
          let gstr' := g_string_overwrite_len gstr 0 (token_start.take token_end)
          let iface_idx := _nm_utils_ascii_str_to_int64 (c_str gstr') 10 0 G_MAXINT64 (-1)
          if iface_idx < 0 then
            _get_net_ifaces_list_loop fuel line_start' response_len' gstr' ifaces_arr
          else
            _get_net_ifaces_list_loop fuel line_start' response_len' gstr'
              (ifaces_arr ++ [iface_idx])
    else some (gstr, ifaces_arr)

/-- The interface indices that _get_net_ifaces_list_cb collects in ifaces_arr
from a response body, when none of the bytes that the loop searches past the
end of the body is a newline (`_get_net_ifaces_list_parse_at` has the bytes
that follow). Every iteration consumes at least one byte, so
`response.length + 1` iterations are enough (`ifaces_loop_terminates`). -/
def _get_net_ifaces_list_parse (response : List Char) : List Int :=
  match _get_net_ifaces_list_loop (response.length + 1) response response.length [] [] with
  | some (_, ifaces_arr) => ifaces_arr
  | none => []

/-- The while loop of _get_config_ips_list_cb, which collects in uri_arr the
forwarded-IP indices (the path is printed from them afterwards). Here
`response_len -= line_end - line_start` comes before the pointer moves, and
takes the length of the line without its newline. -/
def _get_config_ips_list_loop :
    Nat → List Char → Nat → List Int → Option (List Int)
  | 0, _, _, _ => none
  | fuel + 1, line_start, response_len, uri_arr =>
    if 0 < response_len then
      match memchr line_start '\n' response_len with
      | none => some uri_arr
      | some line_end =>
        let gstr := g_string_new_len (line_start.take line_end)
        let fip_index := _nm_utils_ascii_str_to_int64 (c_str gstr) 10 0 G_MAXINT64 (-1)
        let response_len' := response_len - line_end
        let line_start' := line_start.drop (line_end + 1)
        if fip_index < 0 then
          _get_config_ips_list_loop fuel line_start' response_len' uri_arr
        else
          _get_config_ips_list_loop fuel line_start' response_len' (uri_arr ++ [fip_index])
    else some uri_arr

/-- The forwarded-IP indices that _get_config_ips_list_cb collects from a
response body, when none of the bytes that the loop searches past the end of
the body is a newline. -/
def _get_config_ips_list_parse (response : List Char) : List Int :=
  match _get_config_ips_list_loop (response.length + 1) response response.length [] with
  | some uri_arr => uri_arr
  | none => []

/-- The string that g_string_printf leaves in an element of uri_arr. -/
def fip_path (iface_idx fip_index : Int) : String :=
  fmt_gint64 iface_idx ++ "/forwarded-ips/" ++ fmt_gint64 fip_index

/-! ## Routes and the records of result_dict -/

/-- Splitting a byte string at every occurrence of a separator. -/
def split_on (sep : Char) : List Char → List (List Char)
  | [] => [[]]
  | c :: cs =>
    if c = sep then [] :: split_on sep cs
    else
      match split_on sep cs with
      | [] => [[c]]
      | h :: t => (c :: h) :: t

/-- Modelled from the spec: nm_utils_ipaddr_valid (nm-utils.c) is not among the
sources. The spec asks for a syntactically valid IPv4 literal; taken as four
dot-separated runs of one to three decimal digits, each at most 255. -/
def nm_utils_ipaddr_valid (family : Nat) (ip : List Char) : Bool :=
  family == AF_INET &&
  (split_on '.' ip).length == 4 &&
  (split_on '.' ip).all (fun o =>
    !o.isEmpty && decide (o.length ≤ 3) && o.all Char.isDigit && decide (digits_value 10 o ≤ 255))

/-- Modelled from the spec: NMIPRoute (nm-setting-ip-config.c) is not among the
sources. The route descriptor of the spec: destination, length, next hop,
metric, and the attributes that carry the local-route marker. -/
structure NMIPRoute where
  family : Nat
  dest : List Char
  plen : Nat
  next_hop : Option (List Char)
  metric : Int
  attributes : List (String × String)
deriving DecidableEq, Repr

/-- Modelled from the spec: nm_ip_route_attribute_validate (nm-setting-ip-config.c)
is not among the sources. The spec appends a route with the local-route marker
for every valid address, so the attribute "type" with the value "local" is
taken to validate (as does "unicast"); other attributes are not used here. -/
def nm_ip_route_attribute_validate (name value : String) (family : Nat) : Bool :=
  name == NM_IP_ROUTE_ATTRIBUTE_TYPE && family == AF_INET &&
  (value == "local" || value == "unicast")

/-- Modelled from the spec: nm_ip_route_new (nm-setting-ip-config.c) is not among
the sources. It builds the route descriptor of the spec from a destination
that is a valid address of the family and a length that fits the family; else
it returns NULL and sets the error. -/
def nm_ip_route_new (family : Nat) (dest : List Char) (plen : Nat)
    (next_hop : Option (List Char)) (metric : Int) : Option NMIPRoute × Option GError :=
  if nm_utils_ipaddr_valid family dest && decide (plen ≤ 32) &&
      (match next_hop with
       | none => true
       | some h => nm_utils_ipaddr_valid family h) then
    (some { family := family, dest := dest, plen := plen, next_hop := next_hop,
            metric := metric, attributes := [] }, none)
  else (none, some (nm_utils_error_new "Invalid IP address"))

/-- Modelled from the spec: nm_ip_route_set_attribute (nm-setting-ip-config.c) is
not among the sources. The call adds the marker to the attributes of the
route; a NULL route is left alone. -/
def nm_ip_route_set_attribute (route : Option NMIPRoute) (name value : String) :
    Option NMIPRoute :=
  route.map (fun r => { r with attributes := r.attributes ++ [(name, value)] })

/-- The memory that g_new0 (NMIPRoute *, n) returns: `slots` are the n zeroed
elements of the array. A store at an index past the last slot is a write to
the heap behind the allocation; such stores are noted in `behind`, each with
its index, so that they can be seen. They are no part of the array, and
nothing reads them. -/
structure NMIPRouteArr where
  slots : List (Option NMIPRoute)
  behind : List (Nat × Option NMIPRoute)
deriving DecidableEq, Repr

def g_new0 (n : Nat) : NMIPRouteArr :=
  { slots := List.replicate n none, behind := [] }

/-- The assignment routes_arr[i] = route. -/
def NMIPRouteArr.store (arr : NMIPRouteArr) (i : Nat) (route : Option NMIPRoute) :
    NMIPRouteArr :=
  if i < arr.slots.length then { arr with slots := arr.slots.set i route }
  else { arr with behind := (i, route) :: arr.behind }

/-- The element routes_arr[i] of the array, for `i` below the number of slots.
Behind the array there is no element: the value there is `none`, whatever was
written. -/
def NMIPRouteArr.get (arr : NMIPRouteArr) (i : Nat) : Option NMIPRoute :=
  (arr.slots.get? i).join

/-- Modelled from the spec: NMCSProviderGetConfigIfaceData (nmcs-provider.h) is not
among the sources. The interface-configuration record of the spec, with the
fields that the GCP provider touches: the interface index and the route
sequence, which is an array and a count. -/
structure NMCSProviderGetConfigIfaceData where
  iface_idx : Int
  iproutes_arr : Option NMIPRouteArr
  iproutes_len : Nat
deriving DecidableEq, Repr

/-- The hash table result_dict, from hardware address to record. -/
abbrev ResultDict := List (List Char × NMCSProviderGetConfigIfaceData)

/-- The call g_hash_table_lookup (result_dict, hwaddr). -/
def g_hash_table_lookup : ResultDict → List Char → Option NMCSProviderGetConfigIfaceData
  | [], _ => none
  | (k, v) :: rest, hwaddr => if k = hwaddr then some v else g_hash_table_lookup rest hwaddr

/-- A write through a pointer to the record that is stored under `hwaddr`. -/
def ResultDict.assign : ResultDict → List Char → NMCSProviderGetConfigIfaceData → ResultDict
  | [], _, _ => []
  | (k, v) :: rest, hwaddr, v' =>
    if k = hwaddr then (k, v') :: rest else (k, v) :: ResultDict.assign rest hwaddr v'

/-! ## The job and its pipelines -/

structure GCPData where
  n_ifaces_pending : Nat
  error : Option GError
  success : Bool
deriving DecidableEq, Repr

/-- The struct GCPIfaceData; the pointer iface_get_config is the key of the
record it points to, the pointer gcp_data is the one job of the state. -/
structure GCPIfaceData where
  iface_get_config : Option (List Char)
  iface_idx : Int
  n_fips_pending : Nat
deriving DecidableEq, Repr

/-- The decrement of a guint: it wraps at zero. -/
def guint_dec (n : Nat) : Nat := if n = 0 then 4294967295 else n - 1

/-- The four completion callbacks of get_config. -/
inductive Callback where
  | net_ifaces_list_cb
  | iface_cb
  | ips_list_cb
  | fip_cb
deriving DecidableEq, Repr

/-- A GET that nm_http_client_poll_get has been asked for. `user_data` is the
index of the GCPIfaceData allocation (for the listing callback, whose user data
is the job itself, it is 0). -/
structure Request where
  uri : String
  callback : Callback
  user_data : Nat
deriving DecidableEq, Repr

/-- What the provider does to its surroundings, in the order it happens. -/
inductive Action where
  | poll_get (req : Request)
  | maybe_task_return (error_take : Option GError)
  | task_return_error (error : Option GError)
  | task_return_pointer (result_dict : ResultDict)
  | ifaces_pending_dec (iface : Nat) (before : Nat)
  | fips_pending_dec (iface : Nat) (before : Nat)
  | route_store (hwaddr : List Char) (index : Nat) (route : Option NMIPRoute)
  | bad_pointer
deriving DecidableEq, Repr

/-- The state of a job: the heap objects of the provider, the GETs that are
outstanding, whether the cancellable of the task has been cancelled, and the
log of actions. A freed allocation is `none`. -/
structure State where
  result_dict : ResultDict
  gcp_data : Option GCPData
  iface_datas : List (Option GCPIfaceData)
  inflight : List Request
  cancelled : Bool
  log : List Action
deriving DecidableEq, Repr

/-- The allocation behind a GCPIfaceData pointer, if it is still there. -/
def State.iface_data (s : State) (p : Nat) : Option GCPIfaceData :=
  (s.iface_datas.get? p).join

/-- A callback reached through a pointer to freed memory. -/
def State.bad (s : State) : State :=
  { s with log := s.log ++ [Action.bad_pointer] }

/-- Modelled from the spec: nm_http_client_poll_get (nm-http-client.c) is not among
the sources. The call nm_http_client_poll_get (..., callback, user_data) suspends:
the GET is outstanding until the main loop delivers its completion to the
callback. -/
def nm_http_client_poll_get (s : State) (uri : String) (callback : Callback)
    (user_data : Nat) : State :=
  { s with
    inflight := s.inflight ++ [{ uri := uri, callback := callback, user_data := user_data }]
    log := s.log ++ [Action.poll_get { uri := uri, callback := callback, user_data := user_data }] }

/-- The fan-in gate _get_config_maybe_task_return: the error that comes in
replaces the stored one; with the counter at zero the task is returned, with
the error if success is unset and else with result_dict, and the job is
freed. -/
def _get_config_maybe_task_return (s : State) (error_take : Option GError) : State :=
  match s.gcp_data with
  | none => s.bad
  | some gcp_data =>
    let gcp_data : GCPData :=
      match error_take with
      | some e => { gcp_data with error := some e }
      | none => gcp_data
    let log := s.log ++ [Action.maybe_task_return error_take]
    if gcp_data.n_ifaces_pending ≠ 0 then
      { s with gcp_data := some gcp_data, log := log }
    else
      let gcp_error := gcp_data.error
      if !gcp_data.success then
        { s with gcp_data := none, log := log ++ [Action.task_return_error gcp_error] }
      else
        { s with gcp_data := none, log := log ++ [Action.task_return_pointer s.result_dict] }

/-- The three statements that end a pipeline, under the labels iface_error and
fips_error and in the last-completion branch of iface_done:
nm_g_slice_free (iface_data); --gcp_data->n_ifaces_pending;
_get_config_maybe_task_return (gcp_data, error). -/
def iface_pipeline_end (s : State) (user_data : Nat) (error : Option GError) : State :=
  match s.gcp_data with
  | none => s.bad
  | some gcp_data =>
    _get_config_maybe_task_return
      { s with
        iface_datas := s.iface_datas.set user_data none
        gcp_data := some { gcp_data with n_ifaces_pending := guint_dec gcp_data.n_ifaces_pending }
        log := s.log ++ [Action.ifaces_pending_dec user_data gcp_data.n_ifaces_pending] }
      error

/-- The label iface_done of _get_config_fip_cb. An error of a completion that is
not the last one of its interface is dropped. -/
def iface_done (s : State) (user_data : Nat) (error : Option GError) : State :=
  match s.iface_data user_data with
  | none => s.bad
  | some iface_data =>
    let n := guint_dec iface_data.n_fips_pending
    let s1 : State :=
      { s with
        iface_datas := s.iface_datas.set user_data (some { iface_data with n_fips_pending := n })
        log := s.log ++ [Action.fips_pending_dec user_data iface_data.n_fips_pending] }
    if n = 0 then iface_pipeline_end s1 user_data error else s1

/-- The callback _get_config_fip_cb. The test `if (error) goto iface_done` that
follows the read of iproutes_arr is left out: error is NULL at that point. A
NULL iface_get_config or iproutes_arr would be dereferenced by the store. -/
def _get_config_fip_cb (s : State) (user_data : Nat) (r : GetResult) : State :=
  match s.iface_data user_data, s.gcp_data with
  | some iface_data, some gcp_data =>
    if r.error.isSome || nm_utils_error_is_cancelled r.error then
      iface_done s user_data r.error
    else if !r.success then
      iface_done s user_data
        (some (nm_utils_error_new "error in server response while fetching forwarded ip"))
    else
      let fip_str := c_str r.response
      if !nm_utils_ipaddr_valid AF_INET fip_str then
        iface_done s user_data
          (some (nm_utils_error_new "forwarded-ip is not a valid ip address"))
      else
        match iface_data.iface_get_config with
        | none => s.bad
        | some hwaddr =>
          match g_hash_table_lookup s.result_dict hwaddr with
          | none => s.bad
          | some iface_get_config =>
            let iface_get_config := { iface_get_config with iface_idx := iface_data.iface_idx }
            let routes_arr := iface_get_config.iproutes_arr
            if !nm_ip_route_attribute_validate NM_IP_ROUTE_ATTRIBUTE_TYPE "local" AF_INET then
              iface_done { s with result_dict := s.result_dict.assign hwaddr iface_get_config }
                user_data
                (some (nm_utils_error_new
                  "This NetworkManager version does not support local routes"))
            else
              let route_new := (nm_ip_route_new AF_INET fip_str 32 none 100).1
              let error := (nm_ip_route_new AF_INET fip_str 32 none 100).2
              let route_new := nm_ip_route_set_attribute route_new NM_IP_ROUTE_ATTRIBUTE_TYPE "local"
              match routes_arr with
              | none => s.bad
              | some arr =>
                iface_done
                  { s with
                    result_dict := s.result_dict.assign hwaddr
                      { iface_get_config with
                        iproutes_arr := some (arr.store iface_get_config.iproutes_len route_new)
                        iproutes_len := iface_get_config.iproutes_len + 1 }
                    gcp_data := some { gcp_data with success := true }
                    log := s.log ++
                      [Action.route_store hwaddr iface_get_config.iproutes_len route_new] }
                  user_data error
  | _, _ => s.bad

/-- The loop of _get_config_ips_list_cb that issues one GET per element of
uri_arr. -/
def fips_poll_get (s : State) (user_data : Nat) : List String → State
  | [] => s
  | gstr :: rest =>
    fips_poll_get
      (nm_http_client_poll_get s (_gcp_uri_interfaces [gstr]) Callback.fip_cb user_data)
      user_data rest

/-- The callback _get_config_ips_list_cb. The array of the record is replaced by
a fresh one of n_fips_pending slots; iproutes_len is not touched. -/
def _get_config_ips_list_cb (s : State) (user_data : Nat) (r : GetResult) : State :=
  match s.iface_data user_data, s.gcp_data with
  | some iface_data, some _ =>
    if r.error.isSome || nm_utils_error_is_cancelled r.error then
      iface_pipeline_end s user_data r.error
    else if !r.success then
      iface_pipeline_end s user_data
        (some (nm_utils_error_new "error in server response while fetching forwarded ips list"))
    else
      let uri_arr := (_get_config_ips_list_parse r.response).map (fip_path iface_data.iface_idx)
      let iface_data := { iface_data with n_fips_pending := uri_arr.length }
      let s1 : State := { s with iface_datas := s.iface_datas.set user_data (some iface_data) }
      if iface_data.n_fips_pending = 0 then
        iface_pipeline_end s1 user_data (some (nm_utils_error_new "found no forwarded ip"))
      else
        match iface_data.iface_get_config with
        | none => s.bad
        | some hwaddr =>
          match g_hash_table_lookup s.result_dict hwaddr with
          | none => s.bad
          | some iface_get_config =>
            fips_poll_get
              { s1 with
                result_dict := s.result_dict.assign hwaddr
                  { iface_get_config with
                    iproutes_arr := some (g_new0 iface_data.n_fips_pending) } }
              user_data uri_arr
  | _, _ => s.bad

/-- The provider as a function of nmcs_utils_hwaddr_normalize (nm-cloud-setup-utils.c),
which is not among the sources and of which the spec says no more than that it
normalises; it returns NULL for what is no hardware address. -/
def _get_config_iface_cb (nmcs_utils_hwaddr_normalize : List Char → Option (List Char))
    (s : State) (user_data : Nat) (r : GetResult) : State :=
  match s.iface_data user_data, s.gcp_data with
  | some iface_data, some _ =>
    if r.error.isSome || nm_utils_error_is_cancelled r.error then
      iface_pipeline_end s user_data r.error
    else if !r.success then
      iface_pipeline_end s user_data
        (some (nm_utils_error_new "error in server response while fetching interface hwaddr"))
    else
      let hwaddr := nmcs_utils_hwaddr_normalize (c_str r.response)
      let iface_get_config : Option (List Char) :=
        hwaddr.bind (fun h => (g_hash_table_lookup s.result_dict h).map (fun _ => h))
      let s1 : State :=
        { s with
          iface_datas := s.iface_datas.set user_data
            (some { iface_data with iface_get_config := iface_get_config }) }
      if iface_get_config.isNone then
        iface_pipeline_end s1 user_data
          (some (nm_utils_error_new "no matching hwaddr found for GCP interface"))
      else
        nm_http_client_poll_get s1
          (_gcp_uri_interfaces [fmt_gint64 iface_data.iface_idx ++ "/forwarded-ips/"])
          Callback.ips_list_cb user_data
  | _, _ => s.bad

/-- The second loop of _get_net_ifaces_list_cb: one GET per element of
ifaces_arr; `p` is the allocation of the element. -/
def ifaces_poll_get (s : State) (p : Nat) : List Int → State
  | [] => s
  | iface_idx :: rest =>
    ifaces_poll_get
      (nm_http_client_poll_get s (_gcp_uri_interfaces [fmt_gint64 iface_idx ++ "/mac"])
        Callback.iface_cb p)
      (p + 1) rest

/-- The callback _get_net_ifaces_list_cb; the GCPIfaceData of the loop are the
allocations that follow those already there. -/
def _get_net_ifaces_list_cb (s : State) (r : GetResult) : State :=
  match s.gcp_data with
  | none => s.bad
  | some gcp_data =>
    if r.error.isSome || nm_utils_error_is_cancelled r.error then
      _get_config_maybe_task_return s r.error
    else if !r.success then
      _get_config_maybe_task_return s
        (some (nm_utils_error_new "error in server response while fetching interface  list"))
    else
      let ifaces_arr := _get_net_ifaces_list_parse r.response
      let s1 : State :=
        { s with
          iface_datas := s.iface_datas ++ ifaces_arr.map (fun iface_idx =>
            some { iface_get_config := none, iface_idx := iface_idx, n_fips_pending := 0 })
          gcp_data := some { gcp_data with n_ifaces_pending := ifaces_arr.length } }
      let s2 := ifaces_poll_get s1 s.iface_datas.length ifaces_arr
      if ifaces_arr.length = 0 then
        _get_config_maybe_task_return s2 (some (nm_utils_error_new "no GCP interfaces found"))
      else s2

/-- The entry point get_config: a fresh job and the GET of the interface
listing. -/
def get_config (result_dict : ResultDict) : State :=
  nm_http_client_poll_get
    { result_dict := result_dict
      gcp_data := some { n_ifaces_pending := 0, error := none, success := false }
      iface_datas := []
      inflight := []
      cancelled := false
      log := [] }
    (_gcp_uri_interfaces []) Callback.net_ifaces_list_cb 0

/-! ## The event loop -/

/-- What the main loop can do next: deliver the completion of an outstanding
GET, with any result, or see the cancellable of the task cancelled. -/
inductive Event where
  | complete (req : Request) (r : GetResult)
  | cancel
deriving DecidableEq, Repr

/-- One turn of the main loop: the completion of a GET that is outstanding goes to
its callback; anything else changes nothing. -/
def step (nmcs_utils_hwaddr_normalize : List Char → Option (List Char))
    (s : State) : Event → State
  | Event.cancel => { s with cancelled := true }
  | Event.complete req r =>
    if req ∈ s.inflight then
      let s1 : State := { s with inflight := s.inflight.erase req }
      match req.callback with
      | Callback.net_ifaces_list_cb => _get_net_ifaces_list_cb s1 r
      | Callback.iface_cb => _get_config_iface_cb nmcs_utils_hwaddr_normalize s1 req.user_data r
      | Callback.ips_list_cb => _get_config_ips_list_cb s1 req.user_data r
      | Callback.fip_cb => _get_config_fip_cb s1 req.user_data r
    else s

/-- A run: the events delivered to a state, one after the other. -/
def run (nmcs_utils_hwaddr_normalize : List Char → Option (List Char))
    (s : State) (events : List Event) : State :=
  events.foldl (step nmcs_utils_hwaddr_normalize) s

/-! ## Reading the log and the outstanding GETs -/

/-- Whether a request has the given callback and user data. -/
def Request.is_for (cb : Callback) (p : Nat) (q : Request) : Bool :=
  decide (q.callback = cb ∧ q.user_data = p)

/-- The number of outstanding GETs with the given callback and user data. -/
def State.pend (s : State) (cb : Callback) (p : Nat) : Nat :=
  s.inflight.countP (Request.is_for cb p)

/-- The number of GCPIfaceData allocations that have not been freed. -/
def State.live_count (s : State) : Nat :=
  s.iface_datas.countP Option.isSome

def Action.is_final : Action → Bool
  | Action.task_return_error _ => true
  | Action.task_return_pointer _ => true
  | _ => false

def Action.is_store : Action → Bool
  | Action.route_store _ _ _ => true
  | _ => false

def Action.is_poll_get : Action → Bool
  | Action.poll_get _ => true
  | _ => false

/-- The error that a call of _get_config_maybe_task_return carried, if the
action is such a call and carried one. -/
def Action.error_taken : Action → Option GError
  | Action.maybe_task_return e => e
  | _ => none

/-- Whether the action is the decrement of n_ifaces_pending by pipeline `p`. -/
def Action.is_dec_of (p : Nat) : Action → Bool
  | Action.ifaces_pending_dec q _ => q == p
  | _ => false

/-- Whether the action is a decrement of n_ifaces_pending from zero. -/
def Action.is_underflow : Action → Bool
  | Action.ifaces_pending_dec _ before => before == 0
  | _ => false

/-- The task returns of a log (g_task_return_error, g_task_return_pointer). -/
def finals (log : List Action) : List Action := log.filter Action.is_final

/-- Whether a forwarded-IP completion stored a route. -/
def has_store (log : List Action) : Bool := log.any Action.is_store

/-- The error of the latest call of _get_config_maybe_task_return that
carried one. -/
def last_error (log : List Action) : Option GError :=
  (log.filterMap Action.error_taken).getLast?

/-- How often pipeline `p` decremented n_ifaces_pending. -/
def dec_count (log : List Action) (p : Nat) : Nat := log.countP (Action.is_dec_of p)

/-- The GETs issued, in order. -/
def gets (log : List Action) : List Action := log.filter Action.is_poll_get

/-! ## The invariant of a job -/

/-- Pipeline `p` as the outstanding GETs see it: a freed or unallocated
GCPIfaceData has none; a live one waits for its hardware address, or for its
forwarded-IP listing, or for as many forwarded IPs as n_fips_pending says. -/
def Stage (s : State) (p : Nat) : Prop :=
  match s.iface_data p with
  | none =>
    s.pend Callback.iface_cb p = 0 ∧ s.pend Callback.ips_list_cb p = 0 ∧
      s.pend Callback.fip_cb p = 0
  | some d =>
    (d.iface_get_config = none ∧ s.pend Callback.iface_cb p = 1 ∧
      s.pend Callback.ips_list_cb p = 0 ∧ s.pend Callback.fip_cb p = 0) ∨
    (∃ hw, d.iface_get_config = some hw ∧
      (g_hash_table_lookup s.result_dict hw).isSome = true ∧
      s.pend Callback.iface_cb p = 0 ∧ s.pend Callback.ips_list_cb p = 1 ∧
      s.pend Callback.fip_cb p = 0) ∨
    (∃ hw cfg arr, d.iface_get_config = some hw ∧
      g_hash_table_lookup s.result_dict hw = some cfg ∧ cfg.iproutes_arr = some arr ∧
      s.pend Callback.iface_cb p = 0 ∧ s.pend Callback.ips_list_cb p = 0 ∧
      s.pend Callback.fip_cb p = d.n_fips_pending ∧ 0 < d.n_fips_pending)

/-- What the log of a job that has not been returned says about it. -/
structure LogOK (s : State) (g : GCPData) : Prop where
  no_bad : Action.bad_pointer ∉ s.log
  no_final : finals s.log = []
  success_iff : g.success = true ↔ has_store s.log = true
  error_eq : g.error = last_error s.log
  no_underflow : s.log.any Action.is_underflow = false
  decs : ∀ p, dec_count s.log p =
    if p < s.iface_datas.length ∧ s.iface_data p = none then 1 else 0

/-- The job between the completion of the listing and its return. -/
structure Running (s : State) (g : GCPData) : Prop where
  no_list : ∀ q ∈ s.inflight, q.callback ≠ Callback.net_ifaces_list_cb
  pending : g.n_ifaces_pending = s.live_count
  live_pos : 0 < s.live_count
  stage : ∀ p, Stage s p
  log_ok : LogOK s g

/-- The job after its return: nothing is outstanding, everything is freed, and
the task has been returned once, with the result mapping if a route was stored
and else with the error of the latest call that carried one. -/
structure Done (s : State) : Prop where
  freed : s.gcp_data = none
  idle : s.inflight = []
  ifaces_freed : ∀ p, s.iface_data p = none
  no_bad : Action.bad_pointer ∉ s.log
  no_underflow : s.log.any Action.is_underflow = false
  decs : ∀ p, dec_count s.log p = if p < s.iface_datas.length then 1 else 0
  returned :
    (finals s.log = [Action.task_return_pointer s.result_dict] ∧ has_store s.log = true) ∨
    (∃ e, finals s.log = [Action.task_return_error (some e)] ∧ has_store s.log = false ∧
      last_error s.log = some e)

/-- The job before the listing completes. -/
def Initial (s : State) : Prop :=
  ∃ result_dict c, s = { get_config result_dict with cancelled := c }

/-- The invariant of every state that a run of get_config goes through. -/
def Inv (s : State) : Prop :=
  Initial s ∨ (∃ g, s.gcp_data = some g ∧ Running s g) ∨ Done s

/-- A state in which pipeline `p` is about to end: it is live, none of its
GETs is outstanding, and the rest of the job is as `Running` has it. -/
structure PreExit (s : State) (g : GCPData) (p : Nat) : Prop where
  no_list : ∀ q ∈ s.inflight, q.callback ≠ Callback.net_ifaces_list_cb
  pending : g.n_ifaces_pending = s.live_count
  live : ∃ d, s.iface_data p = some d
  quiet : s.pend Callback.iface_cb p = 0 ∧ s.pend Callback.ips_list_cb p = 0 ∧
    s.pend Callback.fip_cb p = 0
  others : ∀ q, q ≠ p → Stage s q
  log_ok : LogOK s g

/-- The error slot of the job after a call that carried `e`. -/
def error_after (e old : Option GError) : Option GError :=
  match e with
  | some x => some x
  | none => old

/-! ## The loops that issue GETs, in closed form -/

/-- The requests that the second loop of _get_net_ifaces_list_cb issues. -/
def iface_reqs : Nat → List Int → List Request
  | _, [] => []
  | p, iface_idx :: rest =>
    { uri := _gcp_uri_interfaces [fmt_gint64 iface_idx ++ "/mac"],
      callback := Callback.iface_cb, user_data := p } :: iface_reqs (p + 1) rest

/-- The requests that the loop of _get_config_ips_list_cb issues. -/
def fip_reqs (p : Nat) (uri_arr : List String) : List Request :=
  uri_arr.map (fun gstr =>
    { uri := _gcp_uri_interfaces [gstr], callback := Callback.fip_cb, user_data := p })

/-! ## Actions that the invariant does not look at -/

def Action.is_neutral : Action → Bool
  | Action.poll_get _ => true
  | Action.fips_pending_dec _ _ => true
  | _ => false

/-- A state in which a forwarded-IP completion of pipeline `p` has reached the
label iface_done: the completion is no longer outstanding, the counter has not
been decremented yet. -/
structure PreDone (s : State) (g : GCPData) (p : Nat) : Prop where
  no_list : ∀ q ∈ s.inflight, q.callback ≠ Callback.net_ifaces_list_cb
  pending : g.n_ifaces_pending = s.live_count
  fip : ∃ d hw cfg arr, s.iface_data p = some d ∧ d.iface_get_config = some hw ∧
    g_hash_table_lookup s.result_dict hw = some cfg ∧ cfg.iproutes_arr = some arr ∧
    s.pend Callback.iface_cb p = 0 ∧ s.pend Callback.ips_list_cb p = 0 ∧
    s.pend Callback.fip_cb p + 1 = d.n_fips_pending
  others : ∀ q, q ≠ p → Stage s q
  log_ok : LogOK s g

/-- The GET of the interface listing. -/
def list_req : Request :=
  { uri := _gcp_uri_interfaces [], callback := Callback.net_ifaces_list_cb, user_data := 0 }

/-- A GCPIfaceData as _get_net_ifaces_list_cb initialises it. -/
def fresh_iface (iface_idx : Int) : Option GCPIfaceData :=
  some { iface_get_config := none, iface_idx := iface_idx, n_fips_pending := 0 }

/-! ## States and relations used in the proofs -/

/-- The state in which the completion of `req` is delivered to its callback. -/
def State.take (s : State) (req : Request) : State :=
  { s with inflight := s.inflight.erase req }

/-- The state `s'` comes from `s` by the tail of a callback (the finalize check,
the end of a pipeline, the label iface_done, or a bad pointer): the records are
untouched, nothing is issued, no route is stored, the success flag is not
changed, and the result mapping is returned only if the flag was set. -/
structure Tail (s s' : State) : Prop where
  dict : s'.result_dict = s.result_dict
  inflight : s'.inflight = s.inflight
  log : ∃ acts, s'.log = s.log ++ acts ∧
    ∀ a ∈ acts, a.is_store = false ∧ a.is_poll_get = false
  success : ∀ g', s'.gcp_data = some g' → ∃ g, s.gcp_data = some g ∧ g'.success = g.success
  pointer : ∀ d, Action.task_return_pointer d ∈ s'.log →
    Action.task_return_pointer d ∈ s.log ∨ ∃ g, s.gcp_data = some g ∧ g.success = true

/-- The route that _get_config_fip_cb builds for a forwarded IP. -/
def local_route (fip_str : List Char) : NMIPRoute :=
  { family := AF_INET, dest := fip_str, plen := 32, next_hop := none, metric := 100,
    attributes := [(NM_IP_ROUTE_ATTRIBUTE_TYPE, "local")] }

/-- What holds from the cancellation on, when every later completion carries a
cancellation error and no route had been stored: no route is stored, and a
task that has been returned was returned on a cancellation error. -/
def AfterCancel (s : State) : Prop :=
  Inv s ∧ has_store s.log = false ∧
    (s.gcp_data = none → ∃ e, last_error s.log = some e ∧ e.cancelled = true)

/-! ## The listings, record by record -/

/-- The index that a record gives when it is parsed on its own: none when
_nm_utils_ascii_str_to_int64 falls back to -1 (malformed, negative or too
large). -/
def index_of_record (str : List Char) : Option Int :=
  if _nm_utils_ascii_str_to_int64 (c_str str) 10 0 G_MAXINT64 (-1) < 0 then none
  else some (_nm_utils_ascii_str_to_int64 (c_str str) 10 0 G_MAXINT64 (-1))

/-- The lines of a body that end in a newline; what follows the last newline is
not among them. -/
def terminated_lines (response : List Char) : List (List Char) :=
  (split_on '\n' response).dropLast

/-- The forwarded-IP indices of a body, with the records obtained by splitting
the body at every newline (the words of the spec). -/
def ips_list_by_split (response : List Char) : List Int :=
  (split_on '\n' response).filterMap index_of_record

/-- The forwarded-IP indices of a body, with the newline-terminated lines as
records. -/
def ips_list_by_lines (response : List Char) : List Int :=
  (terminated_lines response).filterMap index_of_record

/-- The substring of an interface record up to its first slash. -/
def iface_token (record : List Char) : Option (List Char) :=
  (memchr record '/' record.length).map (fun k => record.take k)

/-- The interface indices of a body when every record is parsed on its own
(the words of the spec). -/
def ifaces_list_by_record (response : List Char) : List Int :=
  (terminated_lines response).filterMap (fun record => (iface_token record).bind index_of_record)

/-- The requests for the forwarded IPs with the given indices. -/
def fip_gets (iface_idx : Int) (user_data : Nat) (indices : List Int) : List Request :=
  indices.map (fun fip_index =>
    { uri := _gcp_uri_interfaces
        [fmt_gint64 iface_idx ++ "/forwarded-ips/" ++ fmt_gint64 fip_index],
      callback := Callback.fip_cb, user_data := user_data })

/-! ## Concrete inputs -/

/-- A stand-in for nmcs_utils_hwaddr_normalize that returns its argument. -/
def demo_normalize : List Char → Option (List Char) := fun hwaddr => some hwaddr

/-- A result_dict with one local interface, as nmcs-provider hands it over. -/
def demo_dict : ResultDict :=
  [("42:01:0a:00:00:02".data, { iface_idx := -1, iproutes_arr := none, iproutes_len := 0 })]

/-- A GET that completed with the given body. -/
def get_ok (body : String) : GetResult :=
  { success := true, response := body.data, error := none }

/-- A GET that failed with the given error. -/
def get_error (error : GError) : GetResult :=
  { success := false, response := [], error := some error }

/-- The request for a path below /network-interfaces/. -/
def net_req (path : String) (callback : Callback) (user_data : Nat) : Request :=
  { uri := _gcp_uri_interfaces [path], callback := callback, user_data := user_data }

/-- The error of a cancelled GET. -/
def cancelled_error : GError := { cancelled := true, message := "Operation was cancelled" }

/-- A transport error. -/
def timeout_error : GError := { cancelled := false, message := "timeout expired" }

/-- Two interfaces, the second without a local counterpart, one forwarded IP. -/
def demo_events : List Event :=
  [Event.complete list_req (get_ok "0/\n1/\n"),
   Event.complete (net_req "1/mac" Callback.iface_cb 1) (get_ok "42:01:0a:00:00:03"),
   Event.complete (net_req "0/mac" Callback.iface_cb 0) (get_ok "42:01:0a:00:00:02"),
   Event.complete (net_req "0/forwarded-ips/" Callback.ips_list_cb 0) (get_ok "3\n"),
   Event.complete (net_req "0/forwarded-ips/3" Callback.fip_cb 0) (get_ok "10.0.0.5")]

/-- One interface whose only forwarded IP is no address. -/
def demo_events_invalid : List Event :=
  [Event.complete list_req (get_ok "0/\n"),
   Event.complete (net_req "0/mac" Callback.iface_cb 0) (get_ok "42:01:0a:00:00:02"),
   Event.complete (net_req "0/forwarded-ips/" Callback.ips_list_cb 0) (get_ok "3\n"),
   Event.complete (net_req "0/forwarded-ips/3" Callback.fip_cb 0) (get_ok "not-an-ip")]

/-- One interface with two forwarded IPs, up to the completion of the listing
of the forwarded IPs. -/
def demo_events_two_fips : List Event :=
  [Event.complete list_req (get_ok "0/\n"),
   Event.complete (net_req "0/mac" Callback.iface_cb 0) (get_ok "42:01:0a:00:00:02"),
   Event.complete (net_req "0/forwarded-ips/" Callback.ips_list_cb 0) (get_ok "1\n2\n")]

/-- The completions of the two forwarded IPs, both cancelled. -/
def demo_events_cancelled : List Event :=
  [Event.complete (net_req "0/forwarded-ips/2" Callback.fip_cb 0) (get_error cancelled_error),
   Event.complete (net_req "0/forwarded-ips/1" Callback.fip_cb 0) (get_error cancelled_error)]

/-- A route is stored, then the cancellable is cancelled and the last
forwarded IP completes with the cancellation error. -/
def demo_events_stored_then_cancelled : List Event :=
  demo_events_two_fips ++
  [Event.complete (net_req "0/forwarded-ips/2" Callback.fip_cb 0) (get_ok "10.0.0.5"),
   Event.cancel,
   Event.complete (net_req "0/forwarded-ips/1" Callback.fip_cb 0) (get_error cancelled_error)]

/-- Two interfaces: the hardware address of the first completes with a
cancellation error, that of the second with a transport error. -/
def demo_events_cancelled_then_timeout : List Event :=
  [Event.complete list_req (get_ok "0/\n1/\n"),
   Event.complete (net_req "0/mac" Callback.iface_cb 0) (get_error cancelled_error),
   Event.complete (net_req "1/mac" Callback.iface_cb 1) (get_error timeout_error)]

/-! ## Detection -/

/-- What a GTask is returned with: g_task_return_error or g_task_return_boolean. -/
inductive TaskReturn where
  | error (e : Option GError)
  | boolean (b : Bool)
deriving DecidableEq, Repr

/-- The callback _detect_get_meta_data_done_cb, as the list of the returns of the
task that it makes. nm_utils_error_set (&error, NM_UTILS_ERROR_UNKNOWN, fmt, ...)
is nm_utils_error_new with the formatted message. -/
def _detect_get_meta_data_done_cb (r : GetResult) : List TaskReturn :=
  let success := r.success
  let get_error := r.error
  if nm_utils_error_is_cancelled get_error then
    [TaskReturn.error get_error]
  else
    match get_error with
    | some e =>
      [TaskReturn.error (some (nm_utils_error_new ("failure to get GCP metadata: " ++ e.message)))]
    | none =>
      if !success then
        [TaskReturn.error (some (nm_utils_error_new "failure to detect GCP metadata"))]
      else [TaskReturn.boolean true]

/-- What detect does: it returns the task with an error when the header cannot
be set, and else asks for one GET. -/
inductive DetectStart where
  | task_return_error (e : GError)
  | poll_get (uri : String)
deriving DecidableEq, Repr

/-- The entry point detect, as a function of what nm_http_client_add_header
returns. -/
def detect (nm_http_client_add_header : Bool) : DetectStart :=
  if !nm_http_client_add_header then
    DetectStart.task_return_error (nm_utils_error_new "failure in setting GCP metadata-flavor")
  else DetectStart.poll_get (_gcp_uri_concat ["id"])

/-! ## The searches for the newline -/

/-- The control flow of the loop of _get_config_ips_list_cb once more (the same
condition, the same two updates of line_start and response_len), noting at
every evaluation of `memchr (line_start, '\n', response_len)` what is left of
the body from line_start on, and response_len. -/
def _get_config_ips_list_searches : Nat → List Char → Nat → List (List Char × Nat)
  | 0, _, _ => []
  | fuel + 1, line_start, response_len =>
    if 0 < response_len then
      (line_start, response_len) ::
        match memchr line_start '\n' response_len with
        | none => []
        | some line_end =>
          _get_config_ips_list_searches fuel (line_start.drop (line_end + 1))
            (response_len - line_end)
    else []

/-- The control flow of the loop of _get_net_ifaces_list_cb once more, noting at
every evaluation of `memchr (line_start, '\n', response_len)` what is left of
the body from line_start on, and response_len. -/
def _get_net_ifaces_list_searches : Nat → List Char → Nat → List (List Char × Nat)
  | 0, _, _ => []
  | fuel + 1, line_start, response_len =>
    if 0 < response_len then
      (line_start, response_len) ::
        match memchr line_start '\n' response_len with
        | none => []
        | some line_end =>
          _get_net_ifaces_list_searches fuel (line_start.drop (line_end + 1))
            ((response_len + 1) % 2 ^ 64)
    else []

/-- The body of the loop of _get_config_ips_list_cb at one search: what it adds
to uri_arr. -/
def _get_config_ips_list_line (uri_arr : List Int) (search : List Char × Nat) : List Int :=
  match memchr search.1 '\n' search.2 with
  | none => uri_arr
  | some line_end =>
    let fip_index :=
      _nm_utils_ascii_str_to_int64 (c_str (g_string_new_len (search.1.take line_end)))
        10 0 G_MAXINT64 (-1)
    if fip_index < 0 then uri_arr else uri_arr ++ [fip_index]

/-- The body of the loop of _get_net_ifaces_list_cb at one search: what it does
to gstr and ifaces_arr. -/
def _get_net_ifaces_list_line (st : List Char × List Int) (search : List Char × Nat) :
    List Char × List Int :=
  match memchr search.1 '\n' search.2 with
  | none => st
  | some line_end =>
    match memchr search.1 '/' line_end with
    | none => st
    | some token_end =>
      let gstr := g_string_overwrite_len st.1 0 (search.1.take token_end)
      let iface_idx := _nm_utils_ascii_str_to_int64 (c_str gstr) 10 0 G_MAXINT64 (-1)
      if iface_idx < 0 then (gstr, st.2) else (gstr, st.2 ++ [iface_idx])

/-- The bytes left and response_len, search by search. -/
def search_lengths (searches : List (List Char × Nat)) : List (Nat × Nat) :=
  searches.map (fun search => (search.1.length, search.2))

/-! ## Two interfaces with one hardware address -/

/-- Both interfaces of the listing report the hardware address of the one local
interface; interface 0 has got its forwarded-IP listing and its forwarded IP,
and the forwarded-IP listing of interface 1 is outstanding. -/
def shared_events_first_done : List Event :=
  [Event.complete list_req (get_ok "0/\n1/\n"),
   Event.complete (net_req "0/mac" Callback.iface_cb 0) (get_ok "42:01:0a:00:00:02"),
   Event.complete (net_req "1/mac" Callback.iface_cb 1) (get_ok "42:01:0a:00:00:02"),
   Event.complete (net_req "0/forwarded-ips/" Callback.ips_list_cb 0) (get_ok "1\n"),
   Event.complete (net_req "0/forwarded-ips/1" Callback.fip_cb 0) (get_ok "10.0.0.5")]

/-- The completion of the forwarded-IP listing of interface 1. -/
def shared_list_second : Event :=
  Event.complete (net_req "1/forwarded-ips/" Callback.ips_list_cb 1) (get_ok "1\n")

/-- The completion of the forwarded IP of interface 1. -/
def shared_fip_second : Event :=
  Event.complete (net_req "1/forwarded-ips/1" Callback.fip_cb 1) (get_ok "10.0.0.6")

/-- The routes of a record as its consumer reads them: the elements
iproutes_arr[0 .. iproutes_len - 1]. -/
def routes_of (cfg : NMCSProviderGetConfigIfaceData) : List (Option NMIPRoute) :=
  match cfg.iproutes_arr with
  | none => []
  | some arr => (List.range cfg.iproutes_len).map arr.get

/-- The routes of the record that is stored under a hardware address. -/
def routes_under (s : State) (hwaddr : String) : List (Option NMIPRoute) :=
  match g_hash_table_lookup s.result_dict hwaddr.data with
  | none => []
  | some cfg => routes_of cfg

/-! ## Runs against one state of the metadata service -/

/-- The completion of a GET as a metadata service in state `service` answers it:
the result depends on the URL alone. -/
def served (service : String → GetResult) (req : Request) : Event :=
  Event.complete req (service req.uri)

/-- A state of the metadata service: two interfaces that both report the hardware
address of the one local interface; interface 0 has one forwarded IP, interface
1 has two, of which the second is no address. -/
def shared_service (uri : String) : GetResult :=
  if uri = _gcp_uri_interfaces [] then get_ok "0/\n1/\n"
  else if uri = _gcp_uri_interfaces ["0/mac"] then get_ok "42:01:0a:00:00:02"
  else if uri = _gcp_uri_interfaces ["1/mac"] then get_ok "42:01:0a:00:00:02"
  else if uri = _gcp_uri_interfaces ["0/forwarded-ips/"] then get_ok "1\n"
  else if uri = _gcp_uri_interfaces ["1/forwarded-ips/"] then get_ok "1\n2\n"
  else if uri = _gcp_uri_interfaces ["0/forwarded-ips/1"] then get_ok "10.0.0.5"
  else if uri = _gcp_uri_interfaces ["1/forwarded-ips/1"] then get_ok "10.0.0.6"
  else get_ok "x"

/-- A completion order: interface 0 gets its forwarded IP before interface 1 gets
its forwarded-IP listing. -/
def shared_order_early : List Request :=
  [list_req,
   net_req "0/mac" Callback.iface_cb 0,
   net_req "1/mac" Callback.iface_cb 1,
   net_req "0/forwarded-ips/" Callback.ips_list_cb 0,
   net_req "0/forwarded-ips/1" Callback.fip_cb 0,
   net_req "1/forwarded-ips/" Callback.ips_list_cb 1,
   net_req "1/forwarded-ips/1" Callback.fip_cb 1,
   net_req "1/forwarded-ips/2" Callback.fip_cb 1]

/-- Another completion order of the same GETs: interface 0 gets its forwarded IP
after interface 1 got its forwarded-IP listing. -/
def shared_order_late : List Request :=
  [list_req,
   net_req "0/mac" Callback.iface_cb 0,
   net_req "1/mac" Callback.iface_cb 1,
   net_req "0/forwarded-ips/" Callback.ips_list_cb 0,
   net_req "1/forwarded-ips/" Callback.ips_list_cb 1,
   net_req "0/forwarded-ips/1" Callback.fip_cb 0,
   net_req "1/forwarded-ips/1" Callback.fip_cb 1,
   net_req "1/forwarded-ips/2" Callback.fip_cb 1]

/-! ## The scenario of one matching interface -/

/-- The local mapping of the scenario: the interface that the metadata service
knows as interface 0, and one that it does not know. -/
def scenario_dict : ResultDict :=
  [("42:01:0a:00:00:02".data, { iface_idx := -1, iproutes_arr := none, iproutes_len := 0 }),
   ("42:01:0a:00:00:09".data, { iface_idx := -1, iproutes_arr := none, iproutes_len := 0 })]

/-- The metadata service of the scenario: the listing "0/\n1/\n", a hardware
address of interface 0 that is in the local mapping, one of interface 1 that is
not, the forwarded-IP listing "3\n" and the forwarded IP "10.0.0.5". -/
def scenario_service (uri : String) : GetResult :=
  if uri = _gcp_uri_interfaces [] then get_ok "0/\n1/\n"
  else if uri = _gcp_uri_interfaces ["0/mac"] then get_ok "42:01:0a:00:00:02"
  else if uri = _gcp_uri_interfaces ["1/mac"] then get_ok "42:01:0a:00:00:03"
  else if uri = _gcp_uri_interfaces ["0/forwarded-ips/"] then get_ok "3\n"
  else if uri = _gcp_uri_interfaces ["0/forwarded-ips/3"] then get_ok "10.0.0.5"
  else get_error { cancelled := false, message := "404" }

/-- One completion order of the scenario. -/
def scenario_order : List Request :=
  [list_req,
   net_req "1/mac" Callback.iface_cb 1,
   net_req "0/mac" Callback.iface_cb 0,
   net_req "0/forwarded-ips/" Callback.ips_list_cb 0,
   net_req "0/forwarded-ips/3" Callback.fip_cb 0]

/-- The states that the completion of one outstanding GET of the scenario leads
to. -/
def scenario_successors (s : State) : List State :=
  s.inflight.map (fun req => step demo_normalize s (served scenario_service req))

/-- The states of the scenario after `n` completions, in any order. -/
def scenario_level : Nat → List State
  | 0 => [get_config scenario_dict]
  | n + 1 => (scenario_level n).flatMap scenario_successors

/-- What the scenario promises of a state: no error has been delivered, and once
no GET is outstanding the task has been returned with the result, in which the
record of interface 0 has the one route and the other record is as it was. -/
abbrev scenario_ok (s : State) : Prop :=
  (finals s.log = [] ∨ finals s.log = [Action.task_return_pointer s.result_dict]) ∧
  (s.inflight = [] →
    finals s.log = [Action.task_return_pointer s.result_dict] ∧
    s.result_dict =
      [("42:01:0a:00:00:02".data,
        { iface_idx := 0,
          iproutes_arr := some
            { slots := [some { family := AF_INET, dest := "10.0.0.5".data, plen := 32,
                               next_hop := none, metric := 100,
                               attributes := [(NM_IP_ROUTE_ATTRIBUTE_TYPE, "local")] }],
              behind := [] },
          iproutes_len := 1 }),
       ("42:01:0a:00:00:09".data,
        { iface_idx := -1, iproutes_arr := none, iproutes_len := 0 })])

/-! ## The listing in memory -/

/-- The interface indices that the loop of _get_net_ifaces_list_cb collects when
the response body is followed in memory by the bytes `beyond`: the loop starts
at the body with response_len the length of the body, and its searches go
through the body and on into `beyond`. -/
def _get_net_ifaces_list_parse_at (response beyond : List Char) : List Int :=
  match _get_net_ifaces_list_loop ((response ++ beyond).length + 1) (response ++ beyond)
      response.length [] [] with
  | some (_, ifaces_arr) => ifaces_arr
  | none => []

/-- The statements of _get_net_ifaces_list_cb that follow the loop, for the
ifaces_arr that the loop left: n_ifaces_pending, one GCPIfaceData and one GET
per element, and the finalize check when there is none. -/
def _get_net_ifaces_list_start (s : State) (ifaces_arr : List Int) : State :=
  match s.gcp_data with
  | none => s.bad
  | some gcp_data =>
    let s1 : State :=
      { s with
        iface_datas := s.iface_datas ++ ifaces_arr.map (fun iface_idx =>
          some { iface_get_config := none, iface_idx := iface_idx, n_fips_pending := 0 })
        gcp_data := some { gcp_data with n_ifaces_pending := ifaces_arr.length } }
    let s2 := ifaces_poll_get s1 s.iface_datas.length ifaces_arr
    if ifaces_arr.length = 0 then
      _get_config_maybe_task_return s2 (some (nm_utils_error_new "no GCP interfaces found"))
    else s2

/-- The bytes that follow the listing body of the scenario in memory, in the
evaluation below: the terminating NUL, a stale line "0/", and NUL bytes. -/
def scenario_beyond : List Char :=
  "\x00\n0/\n\x00\x00\x00\x00\x00\x00\x00\x00\x00\x00".data

/-- A completion order of the GETs that follow the listing when the loop has
collected the indices 0, 1, 0. -/
def scenario_order_three : List Request :=
  [net_req "1/mac" Callback.iface_cb 1,
   net_req "0/mac" Callback.iface_cb 0,
   net_req "0/mac" Callback.iface_cb 2,
   net_req "0/forwarded-ips/" Callback.ips_list_cb 0,
   net_req "0/forwarded-ips/3" Callback.fip_cb 0,
   net_req "0/forwarded-ips/" Callback.ips_list_cb 2,
   net_req "0/forwarded-ips/3" Callback.fip_cb 2]

/-! ## The fan-in gate, in closed form -/

/-- The job after a call of _get_config_maybe_task_return that carried `e`: it
stays, with the error replaced, while interfaces are pending; else it is
freed. -/
def gate_job (g : GCPData) (e : Option GError) : Option GCPData :=
  if g.n_ifaces_pending ≠ 0 then some { g with error := error_after e g.error } else none

/-- The task return of a call of _get_config_maybe_task_return that carried `e`:
none while interfaces are pending, else the result mapping if the success flag
is set, else the error. -/
def gate_return (g : GCPData) (result_dict : ResultDict) (e : Option GError) : List Action :=
  if g.n_ifaces_pending ≠ 0 then []
  else if g.success = true then [Action.task_return_pointer result_dict]
  else [Action.task_return_error (error_after e g.error)]

/-- The job with n_ifaces_pending decremented. -/
def GCPData.dec (g : GCPData) : GCPData :=
  { g with n_ifaces_pending := guint_dec g.n_ifaces_pending }

/-- Whether the action is a decrement of n_fips_pending. -/
def Action.is_fips_dec : Action → Bool
  | Action.fips_pending_dec _ _ => true
  | _ => false

/-- Whether the action is a call of _get_config_maybe_task_return. -/
def Action.is_gate_call : Action → Bool
  | Action.maybe_task_return _ => true
  | _ => false

/-- Whether the action is a decrement of n_ifaces_pending. -/
def Action.is_ifaces_dec : Action → Bool
  | Action.ifaces_pending_dec _ _ => true
  | _ => false

/-- The completion of the interface listing with two interfaces. -/
def demo_events_listed : List Event :=
  [Event.complete list_req (get_ok "0/\n1/\n")]

/-- The completions of the listing, the hardware address and the forwarded-IP
listing "1\n2\n" of one interface. -/
def demo_events_fanned_out : List Event :=
  [Event.complete list_req (get_ok "0/\n"),
   Event.complete (net_req "0/mac" Callback.iface_cb 0) (get_ok "42:01:0a:00:00:02"),
   Event.complete (net_req "0/forwarded-ips/" Callback.ips_list_cb 0) (get_ok "1\n2\n")]

/-! ## The URL layout of the spec -/

/-- The fixed base of the metadata service, in the words of the spec. -/
def documented_base : String := "http://metadata.google.internal/computeMetadata/v1/instance"

/-- The URL of the detection, in the words of the spec. -/
def documented_id_url : String := documented_base ++ "/id"

/-- The URL of the interface listing, in the words of the spec. -/
def documented_list_url : String := documented_base ++ "/network-interfaces/"

/-- The URL of the hardware address of interface `idx`, in the words of the
spec, with the index in decimal. -/
def documented_mac_url (idx : Nat) : String :=
  documented_base ++ "/network-interfaces/" ++ Nat.repr idx ++ "/mac"

/-- The URL of the forwarded-IP listing of interface `idx`, in the words of the
spec. -/
def documented_fips_url (idx : Nat) : String :=
  documented_base ++ "/network-interfaces/" ++ Nat.repr idx ++ "/forwarded-ips/"

/-- The URL of forwarded IP `fip_idx` of interface `idx`, in the words of the
spec. -/
def documented_fip_url (idx fip_idx : Nat) : String :=
  documented_base ++ "/network-interfaces/" ++ Nat.repr idx ++ "/forwarded-ips/" ++
    Nat.repr fip_idx

/-- A GET of get_config that goes, with its callback, to the URL that the spec
documents for it: the listing, or the hardware address, the forwarded-IP
listing or a forwarded IP of the interface whose index `index p` is that of
the pipeline `p` (the user data) that the GET belongs to; the indices are in
the range of a non-negative gint64. -/
def Documented (index : Nat → Nat) (req : Request) : Prop :=
  (req.callback = Callback.net_ifaces_list_cb ∧ req.uri = documented_list_url) ∨
  (req.callback = Callback.iface_cb ∧ index req.user_data < 2 ^ 63 ∧
    req.uri = documented_mac_url (index req.user_data)) ∨
  (req.callback = Callback.ips_list_cb ∧ index req.user_data < 2 ^ 63 ∧
    req.uri = documented_fips_url (index req.user_data)) ∨
  (req.callback = Callback.fip_cb ∧ index req.user_data < 2 ^ 63 ∧
    ∃ fip_idx : Nat, fip_idx < 2 ^ 63 ∧
      req.uri = documented_fip_url (index req.user_data) fip_idx)

/-- The interface index of every live pipeline `p` is `index p`, in the range of
a non-negative gint64, and every GET issued so far is the documented one for
the index of its pipeline. -/
structure UriOK (index : Nat → Nat) (s : State) : Prop where
  idx : ∀ q d, s.iface_data q = some d →
    d.iface_idx = Int.ofNat (index q) ∧ index q < 2 ^ 63
  gets : ∀ req, Action.poll_get req ∈ s.log → Documented index req

/-- The GETs for the forwarded IPs with the given indices of the interface
`idx`, on behalf of pipeline `p`, at the URLs that the spec documents. -/
def documented_fip_gets (idx : Nat) (p : Nat) (indices : List Int) : List Action :=
  indices.map (fun fip_index =>
    Action.poll_get
      { uri := documented_fip_url idx fip_index.toNat, callback := Callback.fip_cb,
        user_data := p })

/-- The GETs for the hardware addresses of the interfaces with the given
indices, on behalf of the pipelines `p`, `p + 1`, ..., at the URLs that the spec
documents. -/
def documented_mac_gets : Nat → List Int → List Action
  | _, [] => []
  | p, iface_idx :: rest =>
    Action.poll_get
      { uri := documented_mac_url iface_idx.toNat, callback := Callback.iface_cb,
        user_data := p } :: documented_mac_gets (p + 1) rest

/-! ## Lemmas on the data structures -/

theorem countP_erase_mem (l : List Request) (a : Request) (h : a ∈ l) (P : Request → Bool) :
    l.countP P = (l.erase a).countP P + (if P a = true then 1 else 0) := by
  rw [(List.perm_cons_erase h).countP_eq P, List.countP_cons]

theorem countP_set_none (l : List (Option GCPIfaceData)) (p : Nat) (d : GCPIfaceData)
    (h : (l.get? p).join = some d) :
    (l.set p none).countP Option.isSome + 1 = l.countP Option.isSome := by
  induction l generalizing p with
  | nil => simp at h
  | cons x xs ih =>
    cases p with
    | zero =>
      simp at h
      subst h
      simp [List.countP_cons]
    | succ n =>
      simp at h
      have := ih n (by simpa using h)
      simp [List.countP_cons]
      omega

theorem countP_set_some (l : List (Option GCPIfaceData)) (p : Nat) (d d' : GCPIfaceData)
    (h : (l.get? p).join = some d) :
    (l.set p (some d')).countP Option.isSome = l.countP Option.isSome := by
  induction l generalizing p with
  | nil => simp at h
  | cons x xs ih =>
    cases p with
    | zero =>
      simp at h
      subst h
      simp [List.countP_cons]
    | succ n =>
      simp at h
      have := ih n (by simpa using h)
      simp [List.countP_cons]
      omega

theorem get_set_self (l : List (Option GCPIfaceData)) (p : Nat) (x : Option GCPIfaceData)
    (h : p < l.length) : ((l.set p x).get? p).join = x := by
  simp [List.getElem?_set, h]

theorem get_set_ne (l : List (Option GCPIfaceData)) (p q : Nat) (x : Option GCPIfaceData)
    (h : p ≠ q) : ((l.set p x).get? q).join = (l.get? q).join := by
  simp [List.getElem?_set, h]

theorem lt_of_get_some (l : List (Option GCPIfaceData)) (p : Nat) (d : GCPIfaceData)
    (h : (l.get? p).join = some d) : p < l.length := by
  by_contra hc
  have hn : l[p]? = none := by simp; omega
  simp [hn] at h

theorem lookup_assign (d : ResultDict) (hw k : List Char) (v : NMCSProviderGetConfigIfaceData) :
    g_hash_table_lookup (d.assign hw v) k =
      if k = hw then (g_hash_table_lookup d hw).map (fun _ => v)
      else g_hash_table_lookup d k := by
  induction d with
  | nil => simp [ResultDict.assign, g_hash_table_lookup]
  | cons x xs ih =>
    obtain ⟨k0, v0⟩ := x
    by_cases h0 : k0 = hw
    · subst h0
      by_cases hk : k = k0
      · subst hk
        simp [ResultDict.assign, g_hash_table_lookup]
      · have hk' : ¬ k0 = k := fun e => hk e.symm
        simp [ResultDict.assign, g_hash_table_lookup, hk, hk']
    · by_cases hk : k = hw
      · subst hk
        simp [ResultDict.assign, g_hash_table_lookup, h0, ih]
      · by_cases hk0 : k0 = k
        · simp [ResultDict.assign, g_hash_table_lookup, h0, hk, hk0]
        · simp [ResultDict.assign, g_hash_table_lookup, h0, hk, hk0, ih]

/-! ## Lemmas on the log -/

theorem join_none_of_countP_zero (l : List (Option GCPIfaceData))
    (h : l.countP Option.isSome = 0) (q : Nat) : (l.get? q).join = none := by
  induction l generalizing q with
  | nil => simp
  | cons x xs ih =>
    cases x with
    | some d => simp [List.countP_cons] at h
    | none =>
      cases q with
      | zero => simp
      | succ n =>
        have := ih (by simpa [List.countP_cons] using h) n
        simpa using this

theorem finals_snoc (l : List Action) (a : Action) :
    finals (l ++ [a]) = finals l ++ (if a.is_final then [a] else []) := by
  simp only [finals, List.filter_append]
  cases h : a.is_final <;> simp [List.filter, h]

theorem has_store_snoc (l : List Action) (a : Action) :
    has_store (l ++ [a]) = (has_store l || a.is_store) := by
  simp [has_store]

theorem gets_snoc (l : List Action) (a : Action) :
    gets (l ++ [a]) = gets l ++ (if a.is_poll_get then [a] else []) := by
  simp only [gets, List.filter_append]
  cases h : a.is_poll_get <;> simp [List.filter, h]

theorem last_error_snoc (l : List Action) (a : Action) :
    last_error (l ++ [a]) =
      match a.error_taken with
      | some e => some e
      | none => last_error l := by
  simp only [last_error, List.filterMap_append]
  cases h : a.error_taken <;> simp [List.filterMap, h]

theorem dec_count_snoc (l : List Action) (a : Action) (p : Nat) :
    dec_count (l ++ [a]) p = dec_count l p + (if a.is_dec_of p then 1 else 0) := by
  simp only [dec_count, List.countP_append]
  cases h : a.is_dec_of p <;> simp [List.countP_cons, h]

/-! ## Every step keeps the invariant -/

theorem pend_pos_of_mem (s : State) (q : Request) (h : q ∈ s.inflight) :
    0 < s.pend q.callback q.user_data := by
  unfold State.pend
  apply List.countP_pos_iff.mpr
  exact ⟨q, h, by simp [Request.is_for]⟩

theorem inflight_nil_of_quiet (s : State)
    (hl : ∀ q ∈ s.inflight, q.callback ≠ Callback.net_ifaces_list_cb)
    (hq : ∀ p, s.pend Callback.iface_cb p = 0 ∧ s.pend Callback.ips_list_cb p = 0 ∧
      s.pend Callback.fip_cb p = 0) : s.inflight = [] := by
  cases hi : s.inflight with
  | nil => rfl
  | cons q rest =>
    exfalso
    have hm : q ∈ s.inflight := by simp [hi]
    have hpos := pend_pos_of_mem s q hm
    have hnl := hl q hm
    have h3 := hq q.user_data
    cases hc : q.callback <;> simp [hc] at hpos hnl <;> omega

theorem maybe_task_return_eq (s : State) (g : GCPData) (e : Option GError)
    (hg : s.gcp_data = some g) :
    _get_config_maybe_task_return s e =
      if g.n_ifaces_pending ≠ 0 then
        { s with gcp_data := some { g with error := error_after e g.error }
                 log := s.log ++ [Action.maybe_task_return e] }
      else if g.success = true then
        { s with gcp_data := none
                 log := s.log ++ [Action.maybe_task_return e] ++
                   [Action.task_return_pointer s.result_dict] }
      else
        { s with gcp_data := none
                 log := s.log ++ [Action.maybe_task_return e] ++
                   [Action.task_return_error (error_after e g.error)] } := by
  obtain ⟨n, er, su⟩ := g
  unfold _get_config_maybe_task_return
  simp only [hg]
  cases e <;> cases su <;> by_cases hn : n = 0 <;> simp [error_after, hn]

theorem last_error_mtr (l : List Action) (e : Option GError) :
    last_error (l ++ [Action.maybe_task_return e]) = error_after e (last_error l) := by
  rw [last_error_snoc]
  cases e <;> simp [Action.error_taken, error_after]

theorem stage_congr (s s' : State) (q : Nat)
    (h1 : s'.iface_data q = s.iface_data q)
    (h2 : ∀ cb, s'.pend cb q = s.pend cb q)
    (h3 : s'.result_dict = s.result_dict)
    (h : Stage s q) : Stage s' q := by
  unfold Stage at h ⊢
  rw [h1, h2, h2, h2, h3]
  exact h

theorem iface_pipeline_end_inv (s : State) (g : GCPData) (p : Nat) (e : Option GError)
    (hg : s.gcp_data = some g) (h : PreExit s g p)
    (he : e.isSome = true ∨ g.success = true) :
    Inv (iface_pipeline_end s p e) := by
  obtain ⟨d, hd⟩ := h.live
  have hd' : (s.iface_datas.get? p).join = some d := hd
  have hcnt := countP_set_none s.iface_datas p d hd'
  have hlen := lt_of_get_some s.iface_datas p d hd'
  have hgn : g.n_ifaces_pending = s.iface_datas.countP Option.isSome := h.pending
  have hdec : guint_dec g.n_ifaces_pending =
      (s.iface_datas.set p none).countP Option.isSome := by
    unfold guint_dec
    split <;> omega
  have hnz : g.n_ifaces_pending ≠ 0 := by omega
  have hL := h.log_ok
  unfold iface_pipeline_end
  simp only [hg]
  rw [maybe_task_return_eq _ { g with n_ifaces_pending := guint_dec g.n_ifaces_pending } e rfl]
  simp only []
  by_cases hz : guint_dec g.n_ifaces_pending = 0
  · -- the last pipeline: the task is returned
    have hall : ∀ q, ((s.iface_datas.set p none).get? q).join = none :=
      join_none_of_countP_zero _ (by omega)
    have hquiet : ∀ q, s.pend Callback.iface_cb q = 0 ∧ s.pend Callback.ips_list_cb q = 0 ∧
        s.pend Callback.fip_cb q = 0 := by
      intro q
      by_cases hq : q = p
      · subst hq; exact h.quiet
      · have hs := h.others q hq
        have hn : s.iface_data q = none := by
          have := hall q
          rw [get_set_ne _ _ _ _ (fun e => hq e.symm)] at this
          exact this
        unfold Stage at hs
        rw [hn] at hs
        exact hs
    have hidle := inflight_nil_of_quiet s h.no_list hquiet
    have hdecs : ∀ q, dec_count (s.log ++ [Action.ifaces_pending_dec p g.n_ifaces_pending]) q =
        if q < (s.iface_datas.set p none).length then 1 else 0 := by
      intro q
      rw [dec_count_snoc, hL.decs q]
      by_cases hq : q = p
      · subst hq
        simp [Action.is_dec_of, hd, hlen]
      · have hn : s.iface_data q = none := by
          have := hall q
          rw [get_set_ne _ _ _ _ (fun e => hq e.symm)] at this
          exact this
        have hpq : ¬ p = q := fun e => hq e.symm
        simp [Action.is_dec_of, hn, hpq]
    have hunder : (s.log ++ [Action.ifaces_pending_dec p g.n_ifaces_pending]).any
        Action.is_underflow = false := by
      simp only [List.any_append, hL.no_underflow]
      simp [Action.is_underflow, hnz]
    simp only [hz, ne_eq, not_true_eq_false, ↓reduceIte]
    right; right
    cases hsucc : g.success with
    | true =>
      simp only [↓reduceIte]
      refine ⟨rfl, hidle, hall, ?_, ?_, ?_, ?_⟩
      · simp [hL.no_bad]
      · simp only [List.any_append, hunder]
        simp [Action.is_underflow]
      · intro q
        simp only [dec_count_snoc, hdecs q]
        simp [Action.is_dec_of]
      · left
        simp only [finals_snoc, has_store_snoc, hL.no_final]
        simp [Action.is_final, Action.is_store, hL.success_iff.mp hsucc]
    | false =>
      simp only [Bool.false_eq_true, ↓reduceIte]
      have hsome : e.isSome = true := by
        rcases he with he | he
        · exact he
        · rw [hsucc] at he; exact absurd he (by decide)
      obtain ⟨x, hx⟩ := Option.isSome_iff_exists.mp hsome
      subst hx
      refine ⟨rfl, hidle, hall, ?_, ?_, ?_, ?_⟩
      · simp [hL.no_bad]
      · simp only [List.any_append, hunder]
        simp [Action.is_underflow]
      · intro q
        simp only [dec_count_snoc, hdecs q]
        simp [Action.is_dec_of]
      · right
        refine ⟨x, ?_, ?_, ?_⟩
        · simp only [finals_snoc, hL.no_final]
          simp [Action.is_final, error_after]
        · simp only [has_store_snoc]
          have : has_store s.log = false := by
            cases hh : has_store s.log
            · rfl
            · have := hL.success_iff.mpr hh
              rw [hsucc] at this
              exact absurd this (by decide)
          simp [this, Action.is_store]
        · rw [last_error_snoc]
          simp only [Action.error_taken]
          rw [last_error_mtr]
          simp [error_after]
  · -- other pipelines are still live
    simp only [hz, ne_eq, not_false_eq_true, ↓reduceIte]
    right; left
    refine ⟨_, rfl, ?_⟩
    refine ⟨h.no_list, ?_, ?_, ?_, ?_⟩
    · exact hdec
    · show 0 < (s.iface_datas.set p none).countP Option.isSome
      omega
    · intro q
      by_cases hq : q = p
      · subst hq
        unfold Stage
        have : State.iface_data
            { s with
              iface_datas := s.iface_datas.set q none
              gcp_data := some { n_ifaces_pending := guint_dec g.n_ifaces_pending,
                                 error := error_after e g.error, success := g.success }
              log := s.log ++ [Action.ifaces_pending_dec q g.n_ifaces_pending] ++
                [Action.maybe_task_return e] } q = none :=
          get_set_self _ _ _ hlen
        rw [this]
        exact h.quiet
      · exact stage_congr s _ q (get_set_ne _ _ _ _ (fun e => hq e.symm)) (fun _ => rfl) rfl
          (h.others q hq)
    · refine ⟨?_, ?_, ?_, ?_, ?_, ?_⟩
      · simp [hL.no_bad]
      · simp only [finals_snoc, hL.no_final]
        simp [Action.is_final]
      · simp only [has_store_snoc]
        simp [Action.is_store, hL.success_iff]
      · show error_after e g.error = _
        rw [last_error_mtr, last_error_snoc]
        simp [Action.error_taken, hL.error_eq]
      · simp only [List.any_append, hL.no_underflow]
        simp [Action.is_underflow, hnz]
      · intro q
        simp only [dec_count_snoc, hL.decs q]
        by_cases hq : q = p
        · subst hq
          have h1 : ((s.iface_datas.set q none).get? q).join = none :=
            get_set_self _ _ _ hlen
          simp only [State.iface_data, h1, hd']
          simp [Action.is_dec_of, hlen]
        · have hpq : ¬ p = q := fun e => hq e.symm
          have h1 : ((s.iface_datas.set p none).get? q).join = (s.iface_datas.get? q).join :=
            get_set_ne _ _ _ _ hpq
          simp only [State.iface_data, h1]
          simp [Action.is_dec_of, hpq]

theorem ifaces_poll_get_eq (s : State) (p : Nat) (idxs : List Int) :
    ifaces_poll_get s p idxs =
      { s with inflight := s.inflight ++ iface_reqs p idxs
               log := s.log ++ (iface_reqs p idxs).map Action.poll_get } := by
  induction idxs generalizing s p with
  | nil => simp [ifaces_poll_get, iface_reqs]
  | cons x xs ih =>
    simp [ifaces_poll_get, iface_reqs, ih, nm_http_client_poll_get]

theorem fips_poll_get_eq (s : State) (p : Nat) (uri_arr : List String) :
    fips_poll_get s p uri_arr =
      { s with inflight := s.inflight ++ fip_reqs p uri_arr
               log := s.log ++ (fip_reqs p uri_arr).map Action.poll_get } := by
  induction uri_arr generalizing s with
  | nil => simp [fips_poll_get, fip_reqs]
  | cons x xs ih =>
    simp [fips_poll_get, fip_reqs, ih, nm_http_client_poll_get] at ih ⊢

theorem count_iface_reqs (p : Nat) (idxs : List Int) (cb : Callback) (q : Nat) :
    (iface_reqs p idxs).countP (Request.is_for cb q) =
      if cb = Callback.iface_cb ∧ p ≤ q ∧ q < p + idxs.length then 1 else 0 := by
  induction idxs generalizing p with
  | nil =>
    simp only [iface_reqs, List.countP_nil, List.length_nil]
    rw [if_neg]
    intro ⟨_, h1, h2⟩
    omega
  | cons x xs ih =>
    simp only [iface_reqs, List.countP_cons, ih, Request.is_for, List.length_cons]
    by_cases hc : cb = Callback.iface_cb
    · subst hc
      by_cases hq : p = q
      · subst hq; simp
      · have : ¬ (p ≤ q ∧ q < p + (xs.length + 1)) ↔ ¬ (p + 1 ≤ q ∧ q < p + 1 + xs.length) := by
          omega
        by_cases h1 : p + 1 ≤ q ∧ q < p + 1 + xs.length
        · have h2 : p ≤ q ∧ q < p + (xs.length + 1) := by omega
          simp [h1, h2, hq]
        · have h2 : ¬ (p ≤ q ∧ q < p + (xs.length + 1)) := by omega
          simp [h1, h2, hq]
    · have hc' : ¬ Callback.iface_cb = cb := fun e => hc e.symm
      simp [hc, hc']

theorem count_fip_reqs (p : Nat) (uri_arr : List String) (cb : Callback) (q : Nat) :
    (fip_reqs p uri_arr).countP (Request.is_for cb q) =
      if cb = Callback.fip_cb ∧ p = q then uri_arr.length else 0 := by
  induction uri_arr with
  | nil => simp [fip_reqs]
  | cons x xs ih =>
    simp only [fip_reqs, List.map_cons, List.countP_cons, Request.is_for,
      List.length_cons] at ih ⊢
    rw [ih]
    by_cases hc : cb = Callback.fip_cb
    · subst hc
      by_cases hq : p = q
      · subst hq; simp
      · simp [hq]
    · have hc' : ¬ Callback.fip_cb = cb := fun e => hc e.symm
      simp [hc, hc']

theorem finals_neutral (l acts : List Action) (h : ∀ a ∈ acts, a.is_neutral = true) :
    finals (l ++ acts) = finals l := by
  induction acts using List.reverseRecOn with
  | nil => simp
  | append_singleton xs a ih =>
    rw [← List.append_assoc, finals_snoc, ih (fun b hb => h b (by simp [hb]))]
    have := h a (by simp)
    cases a <;> simp [Action.is_neutral] at this <;> simp [Action.is_final]

theorem has_store_neutral (l acts : List Action) (h : ∀ a ∈ acts, a.is_neutral = true) :
    has_store (l ++ acts) = has_store l := by
  induction acts using List.reverseRecOn with
  | nil => simp
  | append_singleton xs a ih =>
    rw [← List.append_assoc, has_store_snoc, ih (fun b hb => h b (by simp [hb]))]
    have := h a (by simp)
    cases a <;> simp [Action.is_neutral] at this <;> simp [Action.is_store]

theorem last_error_neutral (l acts : List Action) (h : ∀ a ∈ acts, a.is_neutral = true) :
    last_error (l ++ acts) = last_error l := by
  induction acts using List.reverseRecOn with
  | nil => simp
  | append_singleton xs a ih =>
    rw [← List.append_assoc, last_error_snoc, ih (fun b hb => h b (by simp [hb]))]
    have := h a (by simp)
    cases a <;> simp [Action.is_neutral] at this <;> simp [Action.error_taken]

theorem dec_count_neutral (l acts : List Action) (p : Nat)
    (h : ∀ a ∈ acts, a.is_neutral = true) :
    dec_count (l ++ acts) p = dec_count l p := by
  induction acts using List.reverseRecOn with
  | nil => simp
  | append_singleton xs a ih =>
    rw [← List.append_assoc, dec_count_snoc, ih (fun b hb => h b (by simp [hb]))]
    have := h a (by simp)
    cases a <;> simp [Action.is_neutral] at this <;> simp [Action.is_dec_of]

theorem underflow_neutral (l acts : List Action) (h : ∀ a ∈ acts, a.is_neutral = true) :
    (l ++ acts).any Action.is_underflow = l.any Action.is_underflow := by
  have : acts.any Action.is_underflow = false := by
    rw [List.any_eq_false]
    intro a ha
    have := h a ha
    cases a <;> simp [Action.is_neutral] at this <;> simp [Action.is_underflow]
  simp [List.any_append, this]

theorem bad_neutral (l acts : List Action) (h : ∀ a ∈ acts, a.is_neutral = true)
    (hb : Action.bad_pointer ∉ l) : Action.bad_pointer ∉ l ++ acts := by
  intro hm
  rcases List.mem_append.mp hm with h1 | h1
  · exact hb h1
  · have := h _ h1
    simp [Action.is_neutral] at this

/-- LogOK carries over to a state whose log has grown by neutral actions and
whose allocations are freed or not as before. -/
theorem LogOK.carry {s s' : State} {g : GCPData} (acts : List Action)
    (hlog : s'.log = s.log ++ acts) (hn : ∀ a ∈ acts, a.is_neutral = true)
    (hlen : s'.iface_datas.length = s.iface_datas.length)
    (hnone : ∀ q, s'.iface_data q = none ↔ s.iface_data q = none)
    (h : LogOK s g) : LogOK s' g where
  no_bad := by rw [hlog]; exact bad_neutral _ _ hn h.no_bad
  no_final := by rw [hlog, finals_neutral _ _ hn]; exact h.no_final
  success_iff := by rw [hlog, has_store_neutral _ _ hn]; exact h.success_iff
  error_eq := by rw [hlog, last_error_neutral _ _ hn]; exact h.error_eq
  no_underflow := by rw [hlog, underflow_neutral _ _ hn]; exact h.no_underflow
  decs := by
    intro q
    rw [hlog, dec_count_neutral _ _ _ hn, h.decs q, hlen]
    simp only [hnone q]

theorem neutral_poll_gets (reqs : List Request) :
    ∀ a ∈ reqs.map Action.poll_get, a.is_neutral = true := by
  intro a ha
  obtain ⟨r, _, rfl⟩ := List.mem_map.mp ha
  rfl

/-- Stage carries over to a state in which the pipeline has the same data and
the same outstanding GETs, and in which the records that were there, and their
arrays, are still there. -/
theorem stage_carry (s s' : State) (q : Nat)
    (h1 : s'.iface_data q = s.iface_data q)
    (h2 : ∀ cb, s'.pend cb q = s.pend cb q)
    (h3 : ∀ k, (g_hash_table_lookup s.result_dict k).isSome = true →
      (g_hash_table_lookup s'.result_dict k).isSome = true)
    (h4 : ∀ k cfg arr, g_hash_table_lookup s.result_dict k = some cfg →
      cfg.iproutes_arr = some arr →
      ∃ cfg' arr', g_hash_table_lookup s'.result_dict k = some cfg' ∧
        cfg'.iproutes_arr = some arr')
    (h : Stage s q) : Stage s' q := by
  unfold Stage at h ⊢
  rw [h1, h2, h2, h2]
  cases hd : s.iface_data q with
  | none => rw [hd] at h; exact h
  | some d =>
    rw [hd] at h
    rcases h with h | ⟨hw, ha, hb, hc⟩ | ⟨hw, cfg, arr, ha, hb, hc, hd⟩
    · exact Or.inl h
    · exact Or.inr (Or.inl ⟨hw, ha, h3 hw hb, hc⟩)
    · obtain ⟨cfg', arr', e1, e2⟩ := h4 hw cfg arr hb hc
      exact Or.inr (Or.inr ⟨hw, cfg', arr', ha, e1, e2, hd⟩)

theorem assign_keeps_some (d : ResultDict) (hw : List Char)
    (v : NMCSProviderGetConfigIfaceData) (k : List Char)
    (h : (g_hash_table_lookup d k).isSome = true) :
    (g_hash_table_lookup (d.assign hw v) k).isSome = true := by
  rw [lookup_assign]
  by_cases hk : k = hw
  · subst hk; simp [h]
  · simp [hk, h]

theorem assign_keeps_arr (d : ResultDict) (hw : List Char)
    (v : NMCSProviderGetConfigIfaceData) (a : NMIPRouteArr) (hv : v.iproutes_arr = some a)
    (k : List Char) (cfg : NMCSProviderGetConfigIfaceData) (arr : NMIPRouteArr)
    (h : g_hash_table_lookup d k = some cfg) (harr : cfg.iproutes_arr = some arr) :
    ∃ cfg' arr', g_hash_table_lookup (d.assign hw v) k = some cfg' ∧
      cfg'.iproutes_arr = some arr' := by
  rw [lookup_assign]
  by_cases hk : k = hw
  · subst hk
    exact ⟨v, a, by simp [h], hv⟩
  · exact ⟨cfg, arr, by simp [hk, h], harr⟩

theorem pend_erase (s : State) (req : Request) (h : req ∈ s.inflight) (cb : Callback) (q : Nat) :
    s.pend cb q =
      State.pend { s with inflight := s.inflight.erase req } cb q +
        (if req.callback = cb ∧ req.user_data = q then 1 else 0) := by
  unfold State.pend
  rw [countP_erase_mem s.inflight req h]
  simp [Request.is_for]

theorem err_cond (r : GetResult) :
    (r.error.isSome || nm_utils_error_is_cancelled r.error) = r.error.isSome := by
  cases h : r.error <;> simp [nm_utils_error_is_cancelled]

theorem iface_data_set_self (s s' : State) (p : Nat) (x : Option GCPIfaceData)
    (h : p < s.iface_datas.length) (hs : s'.iface_datas = s.iface_datas.set p x) :
    s'.iface_data p = x := by
  unfold State.iface_data
  rw [hs]
  exact get_set_self _ _ _ h

theorem iface_data_set_ne (s s' : State) (p q : Nat) (x : Option GCPIfaceData)
    (h : p ≠ q) (hs : s'.iface_datas = s.iface_datas.set p x) :
    s'.iface_data q = s.iface_data q := by
  unfold State.iface_data
  rw [hs]
  exact get_set_ne _ _ _ _ h

theorem iface_data_set_none_iff (s s' : State) (p q : Nat) (d d' : GCPIfaceData)
    (hd : s.iface_data p = some d) (hs : s'.iface_datas = s.iface_datas.set p (some d')) :
    s'.iface_data q = none ↔ s.iface_data q = none := by
  by_cases hq : p = q
  · subst hq
    rw [iface_data_set_self s s' p _ (lt_of_get_some _ _ _ hd) hs, hd]
    simp
  · rw [iface_data_set_ne s s' p q _ hq hs]

theorem live_count_set_some (s s' : State) (p : Nat) (d d' : GCPIfaceData)
    (hd : s.iface_data p = some d) (hs : s'.iface_datas = s.iface_datas.set p (some d')) :
    s'.live_count = s.live_count := by
  unfold State.live_count
  rw [hs]
  exact countP_set_some _ _ _ _ hd

theorem iface_done_inv (s : State) (g : GCPData) (p : Nat) (e : Option GError)
    (hg : s.gcp_data = some g) (h : PreDone s g p)
    (he : e.isSome = true ∨ g.success = true) :
    Inv (iface_done s p e) := by
  obtain ⟨d, hw, cfg, arr, hd, hhw, hcfg, harr, hp1, hp2, hp3⟩ := h.fip
  have hlen := lt_of_get_some _ _ _ hd
  have hn : guint_dec d.n_fips_pending = s.pend Callback.fip_cb p := by
    unfold guint_dec
    split <;> omega
  unfold iface_done
  simp only [hd]
  have hlog : LogOK
      { s with
        iface_datas := s.iface_datas.set p
          (some { d with n_fips_pending := guint_dec d.n_fips_pending })
        log := s.log ++ [Action.fips_pending_dec p d.n_fips_pending] } g :=
    LogOK.carry [Action.fips_pending_dec p d.n_fips_pending] rfl
      (by intro a ha; simp at ha; subst ha; rfl)
      (by simp)
      (fun q => iface_data_set_none_iff s _ p q d _ hd rfl)
      h.log_ok
  have hothers : ∀ q, q ≠ p → Stage
      { s with
        iface_datas := s.iface_datas.set p
          (some { d with n_fips_pending := guint_dec d.n_fips_pending })
        log := s.log ++ [Action.fips_pending_dec p d.n_fips_pending] } q := by
    intro q hq
    exact stage_congr s _ q (iface_data_set_ne s _ p q _ (fun e => hq e.symm) rfl)
      (fun _ => rfl) rfl (h.others q hq)
  have hself := iface_data_set_self s
      { s with
        iface_datas := s.iface_datas.set p
          (some { d with n_fips_pending := guint_dec d.n_fips_pending })
        log := s.log ++ [Action.fips_pending_dec p d.n_fips_pending] } p _ hlen rfl
  have hlive := live_count_set_some s
      { s with
        iface_datas := s.iface_datas.set p
          (some { d with n_fips_pending := guint_dec d.n_fips_pending })
        log := s.log ++ [Action.fips_pending_dec p d.n_fips_pending] } p d _ hd rfl
  by_cases hz : guint_dec d.n_fips_pending = 0
  · simp only [hz, ↓reduceIte]
    rw [hz] at hlog hothers hself hlive
    refine iface_pipeline_end_inv _ g p e ?_ ?_ he
    · exact hg
    · refine ⟨h.no_list, ?_, ⟨_, hself⟩, ⟨hp1, hp2, ?_⟩, hothers, hlog⟩
      · rw [hlive]; exact h.pending
      · show s.pend Callback.fip_cb p = 0
        omega
  · simp only [hz, ↓reduceIte]
    right; left
    refine ⟨g, hg, h.no_list, ?_, ?_, ?_, hlog⟩
    · rw [hlive]; exact h.pending
    · rw [hlive]
      have := countP_set_none s.iface_datas p d hd
      unfold State.live_count
      omega
    · intro q
      by_cases hq : q = p
      · subst hq
        unfold Stage
        rw [hself]
        right; right
        refine ⟨hw, cfg, arr, hhw, hcfg, harr, hp1, hp2, ?_, ?_⟩
        · show s.pend Callback.fip_cb q = guint_dec d.n_fips_pending
          omega
        · show 0 < guint_dec d.n_fips_pending
          omega
      · exact hothers q hq

/-- PreExit carries over when the data of the pipeline itself is rewritten. -/
theorem PreExit.set_self {s : State} {g : GCPData} {p : Nat} (h : PreExit s g p)
    (d' : GCPIfaceData) :
    PreExit { s with iface_datas := s.iface_datas.set p (some d') } g p := by
  obtain ⟨d, hd⟩ := h.live
  have hlen := lt_of_get_some _ _ _ hd
  refine ⟨h.no_list, ?_, ⟨d', ?_⟩, h.quiet, ?_, ?_⟩
  · rw [live_count_set_some s _ p d d' hd rfl]; exact h.pending
  · exact iface_data_set_self s _ p _ hlen rfl
  · intro q hq
    exact stage_congr s _ q (iface_data_set_ne s _ p q _ (fun e => hq e.symm) rfl)
      (fun _ => rfl) rfl (h.others q hq)
  · exact LogOK.carry [] (by simp) (by simp) (by simp)
      (fun q => iface_data_set_none_iff s _ p q d _ hd rfl) h.log_ok

theorem iface_cb_inv (norm : List Char → Option (List Char)) (s : State) (g : GCPData)
    (p : Nat) (r : GetResult) (hg : s.gcp_data = some g) (h : PreExit s g p) :
    Inv (_get_config_iface_cb norm s p r) := by
  obtain ⟨dict, gd, ifs, infl, c, lg⟩ := s
  simp only at hg
  subst hg
  obtain ⟨d, hd⟩ := h.live
  have hlen := lt_of_get_some _ _ _ hd
  have hg : (State.mk dict (some g) ifs infl c lg).gcp_data = some g := rfl
  unfold _get_config_iface_cb
  simp only [hd, err_cond]
  cases he : r.error.isSome with
  | true =>
    simp only [↓reduceIte]
    exact iface_pipeline_end_inv _ g p _ hg h (Or.inl he)
  | false =>
    simp only [Bool.false_eq_true, ↓reduceIte]
    cases hs : r.success with
    | false =>
      simp only [Bool.not_false, ↓reduceIte]
      exact iface_pipeline_end_inv _ g p _ hg h (Or.inl rfl)
    | true =>
      simp only [Bool.not_true, Bool.false_eq_true, ↓reduceIte]
      cases hm : (norm (c_str r.response)).bind
          (fun h => (g_hash_table_lookup dict h).map (fun _ => h)) with
      | none =>
        simp only [Option.isNone_none, ↓reduceIte]
        exact iface_pipeline_end_inv _ g p _ rfl (h.set_self _) (Or.inl rfl)
      | some hw =>
        simp only [Option.isNone_some, Bool.false_eq_true, ↓reduceIte]
        have hsome : (g_hash_table_lookup dict hw).isSome = true := by
          cases hn : norm (c_str r.response) with
          | none => rw [hn] at hm; simp at hm
          | some x =>
            rw [hn] at hm
            simp only [Option.some_bind] at hm
            cases hl : g_hash_table_lookup dict x with
            | none => rw [hl] at hm; simp at hm
            | some v =>
              rw [hl] at hm
              simp at hm
              subst hm
              simp [hl]
        have hP := h.set_self { d with iface_get_config := some hw }
        right; left
        refine ⟨g, rfl, ?_, hP.pending, ?_, ?_, ?_⟩
        · intro q hq
          simp only [nm_http_client_poll_get, List.mem_append, List.mem_singleton] at hq
          rcases hq with hq | hq
          · exact h.no_list q hq
          · subst hq; simp
        · have := countP_set_none ifs p d hd
          have h2 := hP.pending
          have h3 := h.pending
          show 0 < State.live_count
            (State.mk dict (some g) (ifs.set p (some { d with iface_get_config := some hw }))
              infl c lg)
          rw [← h2, h3]
          unfold State.live_count
          simp only
          omega
        · intro q
          by_cases hq : q = p
          · subst hq
            unfold Stage
            have h1 : State.iface_data (nm_http_client_poll_get
                (State.mk dict (some g) (ifs.set q (some { d with iface_get_config := some hw }))
                  infl c lg)
                (_gcp_uri_interfaces [fmt_gint64 d.iface_idx ++ "/forwarded-ips/"])
                Callback.ips_list_cb q) q = some { d with iface_get_config := some hw } :=
              get_set_self _ _ _ hlen
            rw [h1]
            right; left
            refine ⟨hw, rfl, hsome, ?_, ?_, ?_⟩
            · show (infl ++ [_]).countP _ = 0
              rw [List.countP_append]
              have := h.quiet.1
              unfold State.pend at this
              simp only at this
              simp [this, Request.is_for]
            · show (infl ++ [_]).countP _ = 1
              rw [List.countP_append]
              have := h.quiet.2.1
              unfold State.pend at this
              simp only at this
              simp [this, Request.is_for]
            · show (infl ++ [_]).countP _ = 0
              rw [List.countP_append]
              have := h.quiet.2.2
              unfold State.pend at this
              simp only at this
              simp [this, Request.is_for]
          · have hs := hP.others q hq
            refine stage_congr (State.mk dict (some g)
              (ifs.set p (some { d with iface_get_config := some hw })) infl c lg)
              _ q rfl ?_ rfl hs
            intro cb
            show (infl ++ [_]).countP _ = infl.countP _
            rw [List.countP_append]
            have hpq : ¬ p = q := fun e => hq e.symm
            simp [Request.is_for, hpq]
        · exact LogOK.carry [Action.poll_get _] rfl (by intro a ha; simp at ha; subst ha; rfl)
            rfl (fun q => Iff.rfl) hP.log_ok

theorem ips_list_cb_inv (s : State) (g : GCPData) (p : Nat) (r : GetResult)
    (hg : s.gcp_data = some g) (h : PreExit s g p)
    (hm : ∃ d hw, s.iface_data p = some d ∧ d.iface_get_config = some hw ∧
      (g_hash_table_lookup s.result_dict hw).isSome = true) :
    Inv (_get_config_ips_list_cb s p r) := by
  obtain ⟨dict, gd, ifs, infl, c, lg⟩ := s
  simp only at hg
  subst hg
  obtain ⟨d, hw, hd, hhw, hsome⟩ := hm
  obtain ⟨igc, idx, nf⟩ := d
  simp only at hhw
  subst hhw
  generalize hdd : GCPIfaceData.mk (some hw) idx nf = d at hd
  have hdi : d.iface_get_config = some hw := by subst hdd; rfl
  have hlen := lt_of_get_some _ _ _ hd
  unfold _get_config_ips_list_cb
  simp only [hd, err_cond]
  cases he : r.error.isSome with
  | true =>
    simp only [↓reduceIte]
    exact iface_pipeline_end_inv _ g p _ rfl h (Or.inl he)
  | false =>
    simp only [Bool.false_eq_true, ↓reduceIte]
    cases hs : r.success with
    | false =>
      simp only [Bool.not_false, ↓reduceIte]
      exact iface_pipeline_end_inv _ g p _ rfl h (Or.inl rfl)
    | true =>
      simp only [Bool.not_true, Bool.false_eq_true, ↓reduceIte]
      by_cases hz : ((_get_config_ips_list_parse r.response).map (fip_path d.iface_idx)).length = 0
      · simp only [hz, ↓reduceIte]
        exact iface_pipeline_end_inv _ g p _ rfl (h.set_self _) (Or.inl rfl)
      · simp only [hz, ↓reduceIte]
        subst hdd
        simp only
        obtain ⟨cfg, hcfg⟩ := Option.isSome_iff_exists.mp hsome
        simp only at hcfg
        simp only [hcfg]
        rw [fips_poll_get_eq]
        generalize hu : (_get_config_ips_list_parse r.response).map (fip_path idx) = uri_arr
          at hz ⊢
        have hP := h.set_self (GCPIfaceData.mk (some hw) idx uri_arr.length)
        right; left
        refine ⟨g, rfl, ?_, hP.pending, ?_, ?_, ?_⟩
        · intro q hq
          simp only [List.mem_append] at hq
          rcases hq with hq | hq
          · exact h.no_list q hq
          · obtain ⟨u, _, rfl⟩ := List.mem_map.mp hq
            simp
        · have := countP_set_none ifs p _ hd
          have h2 := hP.pending
          have h3 := h.pending
          show 0 < State.live_count
            (State.mk dict (some g) (ifs.set p (some (GCPIfaceData.mk (some hw) idx uri_arr.length)))
              infl c lg)
          rw [← h2, h3]
          unfold State.live_count
          simp only
          omega
        · intro q
          by_cases hq : q = p
          · subst hq
            unfold Stage
            have h1 : State.iface_data
                (State.mk
                  (dict.assign hw { cfg with iproutes_arr := some (g_new0 uri_arr.length) })
                  (some g) (ifs.set q (some (GCPIfaceData.mk (some hw) idx uri_arr.length)))
                  (infl ++ fip_reqs q uri_arr) c
                  (lg ++ (fip_reqs q uri_arr).map Action.poll_get)) q =
                some (GCPIfaceData.mk (some hw) idx uri_arr.length) :=
              get_set_self _ _ _ hlen
            rw [h1]
            right; right
            refine ⟨hw, { cfg with iproutes_arr := some (g_new0 uri_arr.length) }, _, rfl, ?_,
              rfl, ?_, ?_, ?_, ?_⟩
            · show g_hash_table_lookup (dict.assign hw _) hw = _
              rw [lookup_assign]
              simp [hcfg]
            · show (infl ++ _).countP _ = 0
              rw [List.countP_append, count_fip_reqs]
              have := h.quiet.1
              unfold State.pend at this
              simp only at this
              simp [this]
            · show (infl ++ _).countP _ = 0
              rw [List.countP_append, count_fip_reqs]
              have := h.quiet.2.1
              unfold State.pend at this
              simp only at this
              simp [this]
            · show (infl ++ _).countP _ = uri_arr.length
              rw [List.countP_append, count_fip_reqs]
              have := h.quiet.2.2
              unfold State.pend at this
              simp only at this
              simp [this]
            · show 0 < uri_arr.length
              omega
          · have hs := hP.others q hq
            refine stage_carry (State.mk dict (some g)
              (ifs.set p (some (GCPIfaceData.mk (some hw) idx uri_arr.length))) infl c lg)
              _ q rfl ?_ ?_ ?_ hs
            · intro cb
              show (infl ++ _).countP _ = infl.countP _
              rw [List.countP_append, count_fip_reqs]
              have hpq : ¬ p = q := fun e => hq e.symm
              simp [hpq]
            · intro k hk
              exact assign_keeps_some dict hw _ k hk
            · intro k cfg0 arr0 hk harr
              exact assign_keeps_arr dict hw _ (g_new0 uri_arr.length) rfl k cfg0 arr0 hk harr
        · exact @LogOK.carry (State.mk dict (some g)
              (ifs.set p (some (GCPIfaceData.mk (some hw) idx uri_arr.length))) infl c lg) _ g
              ((fip_reqs p uri_arr).map Action.poll_get) rfl
              (neutral_poll_gets _) rfl (fun q => Iff.rfl) hP.log_ok

theorem validate_local :
    nm_ip_route_attribute_validate NM_IP_ROUTE_ATTRIBUTE_TYPE "local" AF_INET = true := by
  decide

theorem fip_cb_inv (s : State) (g : GCPData) (p : Nat) (r : GetResult)
    (hg : s.gcp_data = some g) (h : PreDone s g p) :
    Inv (_get_config_fip_cb s p r) := by
  obtain ⟨dict, gd, ifs, infl, c, lg⟩ := s
  simp only at hg
  subst hg
  obtain ⟨d, hw, cfg, arr, hd, hhw, hcfg, harr, hp1, hp2, hp3⟩ := h.fip
  obtain ⟨igc, idx, nf⟩ := d
  simp only at hhw
  subst hhw
  obtain ⟨cidx, carr, clen⟩ := cfg
  simp only at harr
  subst harr
  simp only at hcfg hp3
  unfold _get_config_fip_cb
  simp only [hd, err_cond]
  cases he : r.error.isSome with
  | true =>
    simp only [↓reduceIte]
    exact iface_done_inv _ g p _ rfl h (Or.inl he)
  | false =>
    simp only [Bool.false_eq_true, ↓reduceIte]
    cases hs : r.success with
    | false =>
      simp only [Bool.not_false, ↓reduceIte]
      exact iface_done_inv _ g p _ rfl h (Or.inl rfl)
    | true =>
      simp only [Bool.not_true, Bool.false_eq_true, ↓reduceIte]
      cases hv : nm_utils_ipaddr_valid AF_INET (c_str r.response) with
      | false =>
        simp only [Bool.not_false, ↓reduceIte]
        exact iface_done_inv _ g p _ rfl h (Or.inl rfl)
      | true =>
        simp only [Bool.not_true, Bool.false_eq_true, ↓reduceIte, hcfg, validate_local]
        refine iface_done_inv _ { g with success := true } p _ rfl ?_ (Or.inr rfl)
        have hL := h.log_ok
        refine ⟨h.no_list, h.pending, ?_, ?_, ?_⟩
        · refine ⟨_, hw,
            NMCSProviderGetConfigIfaceData.mk idx
              (some (arr.store clen (nm_ip_route_set_attribute
                (nm_ip_route_new AF_INET (c_str r.response) 32 none 100).1
                NM_IP_ROUTE_ATTRIBUTE_TYPE "local")))
              (clen + 1), _, hd, rfl, ?_, rfl, hp1, hp2, hp3⟩
          show g_hash_table_lookup (dict.assign hw _) hw = _
          rw [lookup_assign]
          simp [hcfg]
        · intro q hq
          refine stage_carry (State.mk dict (some g) ifs infl c lg) _ q rfl (fun _ => rfl) ?_ ?_
            (h.others q hq)
          · intro k hk
            exact assign_keeps_some dict hw _ k hk
          · intro k cfg0 arr0 hk harr
            exact assign_keeps_arr dict hw _ _ rfl k cfg0 arr0 hk harr
        · refine ⟨?_, ?_, ?_, ?_, ?_, ?_⟩
          · have := hL.no_bad
            simp only at this
            simp [this]
          · have := hL.no_final
            simp only at this
            simp only [finals_snoc, this]
            simp [Action.is_final]
          · simp only [has_store_snoc]
            simp [Action.is_store]
          · have := hL.error_eq
            simp only at this
            simp only [last_error_snoc, Action.error_taken]
            exact this
          · have := hL.no_underflow
            simp only at this
            simp only [List.any_append, this]
            simp [Action.is_underflow]
          · intro q
            have := hL.decs q
            simp only at this
            simp only [dec_count_snoc, this]
            simp only [Action.is_dec_of, Bool.false_eq_true, ↓reduceIte, Nat.add_zero]
            rfl

theorem mem_iface_reqs (p : Nat) (idxs : List Int) (q : Request) (h : q ∈ iface_reqs p idxs) :
    q.callback = Callback.iface_cb := by
  induction idxs generalizing p with
  | nil => simp [iface_reqs] at h
  | cons x xs ih =>
    simp only [iface_reqs, List.mem_cons] at h
    rcases h with h | h
    · subst h; rfl
    · exact ih (p + 1) h

theorem countP_map_fresh (idxs : List Int) :
    (idxs.map fresh_iface).countP Option.isSome = idxs.length := by
  induction idxs with
  | nil => rfl
  | cons x xs ih => simp [List.countP_cons, fresh_iface, ih]

theorem get_map_fresh_lt (idxs : List Int) (q : Nat) (h : q < idxs.length) :
    ∃ i, ((idxs.map fresh_iface).get? q).join =
      some { iface_get_config := none, iface_idx := i, n_fips_pending := 0 } := by
  refine ⟨idxs.get ⟨q, h⟩, ?_⟩
  simp [h, fresh_iface]

theorem get_map_fresh_ge (idxs : List Int) (q : Nat) (h : idxs.length ≤ q) :
    ((idxs.map fresh_iface).get? q).join = none := by
  have : (idxs.map fresh_iface).get? q = none := by
    apply List.get?_eq_none.mpr
    simpa using h
  rw [this]
  rfl

theorem list_cb_inv (result_dict : ResultDict) (c : Bool) (r : GetResult) :
    Inv (_get_net_ifaces_list_cb
      { result_dict := result_dict
        gcp_data := some { n_ifaces_pending := 0, error := none, success := false }
        iface_datas := []
        inflight := []
        cancelled := c
        log := [Action.poll_get list_req] } r) := by
  have hdone : ∀ x : GError, Inv (_get_config_maybe_task_return
      { result_dict := result_dict
        gcp_data := some { n_ifaces_pending := 0, error := none, success := false }
        iface_datas := []
        inflight := []
        cancelled := c
        log := [Action.poll_get list_req] } (some x)) := by
    intro x
    rw [maybe_task_return_eq _ { n_ifaces_pending := 0, error := none, success := false } _ rfl]
    simp only [ne_eq, not_true_eq_false, ↓reduceIte, Bool.false_eq_true]
    right; right
    refine ⟨rfl, rfl, ?_, ?_, ?_, ?_, ?_⟩
    · intro p; simp [State.iface_data]
    · simp
    · simp [Action.is_underflow]
    · intro p; simp [dec_count, Action.is_dec_of]
    · right
      exact ⟨x, by simp [finals, Action.is_final, error_after, List.filter],
        by simp [has_store, Action.is_store],
        by simp [last_error, Action.error_taken, List.filterMap]⟩
  unfold _get_net_ifaces_list_cb
  simp only [err_cond]
  cases he : r.error.isSome with
  | true =>
    simp only [↓reduceIte]
    obtain ⟨x, hx⟩ := Option.isSome_iff_exists.mp he
    rw [hx]
    exact hdone x
  | false =>
    simp only [Bool.false_eq_true, ↓reduceIte]
    cases hs : r.success with
    | false =>
      simp only [Bool.not_false, ↓reduceIte]
      exact hdone _
    | true =>
      simp only [Bool.not_true, Bool.false_eq_true, ↓reduceIte, List.length_nil, List.nil_append]
      rw [ifaces_poll_get_eq]
      generalize _get_net_ifaces_list_parse r.response = idxs
      cases idxs with
      | nil =>
        simp only [List.length_nil, ↓reduceIte, iface_reqs, List.map_nil, List.append_nil]
        exact hdone _
      | cons i0 rest =>
        simp only [List.length_cons, Nat.add_one_ne_zero, ↓reduceIte]
        generalize hI : i0 :: rest = idxs
        have hlenI : idxs.length = rest.length + 1 := by subst hI; rfl
        right; left
        refine ⟨_, rfl, ?_, ?_, ?_, ?_, ?_⟩
        · intro q hq
          simp only [List.nil_append] at hq
          rw [mem_iface_reqs 0 idxs q hq]
          simp
        · show rest.length + 1 = (List.map _ idxs).countP Option.isSome
          have := countP_map_fresh idxs
          unfold fresh_iface at this
          rw [this, hlenI]
        · show 0 < (List.map _ idxs).countP Option.isSome
          have := countP_map_fresh idxs
          unfold fresh_iface at this
          rw [this, hlenI]
          omega
        · intro q
          unfold Stage
          have hc : ∀ cb, State.pend
              { result_dict := result_dict
                gcp_data := some { n_ifaces_pending := rest.length + 1, error := none,
                                   success := false }
                iface_datas := idxs.map fun iface_idx =>
                  some { iface_get_config := none, iface_idx := iface_idx, n_fips_pending := 0 }
                inflight := [] ++ iface_reqs 0 idxs
                cancelled := c
                log := [Action.poll_get list_req] ++ (iface_reqs 0 idxs).map Action.poll_get }
              cb q = if cb = Callback.iface_cb ∧ 0 ≤ q ∧ q < 0 + idxs.length then 1 else 0 := by
            intro cb
            show ([] ++ iface_reqs 0 idxs).countP _ = _
            rw [List.nil_append, count_iface_reqs]
          rw [hc, hc, hc]
          by_cases hq : q < idxs.length
          · obtain ⟨i, hi⟩ := get_map_fresh_lt idxs q hq
            have hget : State.iface_data
                { result_dict := result_dict
                  gcp_data := some { n_ifaces_pending := rest.length + 1, error := none,
                                     success := false }
                  iface_datas := idxs.map fun iface_idx =>
                    some { iface_get_config := none, iface_idx := iface_idx, n_fips_pending := 0 }
                  inflight := [] ++ iface_reqs 0 idxs
                  cancelled := c
                  log := [Action.poll_get list_req] ++ (iface_reqs 0 idxs).map Action.poll_get } q =
                some { iface_get_config := none, iface_idx := i, n_fips_pending := 0 } := hi
            rw [hget]
            left
            simp [hq]
          · have hget : State.iface_data
                { result_dict := result_dict
                  gcp_data := some { n_ifaces_pending := rest.length + 1, error := none,
                                     success := false }
                  iface_datas := idxs.map fun iface_idx =>
                    some { iface_get_config := none, iface_idx := iface_idx, n_fips_pending := 0 }
                  inflight := [] ++ iface_reqs 0 idxs
                  cancelled := c
                  log := [Action.poll_get list_req] ++ (iface_reqs 0 idxs).map Action.poll_get } q =
                none := get_map_fresh_ge idxs q (by omega)
            rw [hget]
            have : ¬ (0 ≤ q ∧ q < 0 + idxs.length) := by omega
            simp only [this, and_false, ↓reduceIte, and_self]
        · have hn := neutral_poll_gets (list_req :: iface_reqs 0 idxs)
          simp only [List.map_cons] at hn
          refine ⟨?_, ?_, ?_, ?_, ?_, ?_⟩
          · exact bad_neutral [] _ hn (by simp)
          · exact finals_neutral [] _ hn
          · show false = true ↔ _
            have := has_store_neutral [] _ hn
            simp only [List.nil_append] at this
            simp only [List.singleton_append, this]
            simp [has_store]
          · show none = _
            have := last_error_neutral [] _ hn
            simp only [List.nil_append] at this
            simp only [List.singleton_append, this]
            simp [last_error]
          · have := underflow_neutral [] _ hn
            simp only [List.nil_append] at this
            simp only [List.singleton_append, this]
            simp
          · intro q
            have := dec_count_neutral [] _ q hn
            simp only [List.nil_append] at this
            simp only [List.singleton_append, this]
            by_cases hq : q < idxs.length
            · obtain ⟨i, hi⟩ := get_map_fresh_lt idxs q hq
              rw [if_neg]
              · simp [dec_count]
              · rintro ⟨_, h2⟩
                exact absurd (hi.symm.trans h2) (by simp)
            · simp [hq, dec_count]

theorem take_others (s : State) (g : GCPData) (req : Request) (hrun : Running s g)
    (hmem : req ∈ s.inflight) :
    (∀ q ∈ (s.take req).inflight, q.callback ≠ Callback.net_ifaces_list_cb) ∧
    (∀ q, q ≠ req.user_data → Stage (s.take req) q) ∧ LogOK (s.take req) g := by
  refine ⟨?_, ?_, ?_⟩
  · intro q hq
    exact hrun.no_list q (List.mem_of_mem_erase hq)
  · intro q hq
    refine stage_congr s _ q rfl ?_ rfl (hrun.stage q)
    intro cb
    have := pend_erase s req hmem cb q
    have hne : ¬ (req.callback = cb ∧ req.user_data = q) := fun h => hq h.2.symm
    simp only [hne, ↓reduceIte, Nat.add_zero] at this
    exact this.symm
  · exact @LogOK.carry s (s.take req) g [] (by simp [State.take]) (by simp) rfl
      (fun q => Iff.rfl) hrun.log_ok

theorem take_pend (s : State) (req : Request) (hmem : req ∈ s.inflight) (cb : Callback) :
    s.pend cb req.user_data =
      (s.take req).pend cb req.user_data + (if req.callback = cb then 1 else 0) := by
  have := pend_erase s req hmem cb req.user_data
  simpa using this

theorem running_take_iface (s : State) (g : GCPData) (req : Request) (hrun : Running s g)
    (hmem : req ∈ s.inflight) (hcb : req.callback = Callback.iface_cb) :
    PreExit (s.take req) g req.user_data := by
  obtain ⟨h1, h2, h3⟩ := take_others s g req hrun hmem
  have hst := hrun.stage req.user_data
  have ha := take_pend s req hmem Callback.iface_cb
  have hb := take_pend s req hmem Callback.ips_list_cb
  have hc := take_pend s req hmem Callback.fip_cb
  simp only [hcb, ↓reduceIte] at ha hb hc
  simp only [reduceCtorEq, ↓reduceIte, Nat.add_zero] at hb hc
  unfold Stage at hst
  cases hd : s.iface_data req.user_data with
  | none =>
    rw [hd] at hst
    omega
  | some d =>
    rw [hd] at hst
    refine ⟨h1, hrun.pending, ⟨d, hd⟩, ?_, h2, h3⟩
    rcases hst with ⟨_, x, y, z⟩ | ⟨_, _, _, x, y, z⟩ | ⟨_, _, _, _, _, _, x, y, z, _⟩ <;>
      omega

theorem running_take_ips (s : State) (g : GCPData) (req : Request) (hrun : Running s g)
    (hmem : req ∈ s.inflight) (hcb : req.callback = Callback.ips_list_cb) :
    PreExit (s.take req) g req.user_data ∧
    ∃ d hw, (s.take req).iface_data req.user_data = some d ∧ d.iface_get_config = some hw ∧
      (g_hash_table_lookup (s.take req).result_dict hw).isSome = true := by
  obtain ⟨h1, h2, h3⟩ := take_others s g req hrun hmem
  have hst := hrun.stage req.user_data
  have ha := take_pend s req hmem Callback.iface_cb
  have hb := take_pend s req hmem Callback.ips_list_cb
  have hc := take_pend s req hmem Callback.fip_cb
  simp only [hcb, ↓reduceIte] at ha hb hc
  simp only [reduceCtorEq, ↓reduceIte, Nat.add_zero] at ha hc
  unfold Stage at hst
  cases hd : s.iface_data req.user_data with
  | none =>
    rw [hd] at hst
    omega
  | some d =>
    rw [hd] at hst
    rcases hst with ⟨_, x, y, z⟩ | ⟨hw, e1, e2, x, y, z⟩ | ⟨_, _, _, _, _, _, x, y, z, _⟩
    · omega
    · exact ⟨⟨h1, hrun.pending, ⟨d, hd⟩, by omega, h2, h3⟩, d, hw, hd, e1, e2⟩
    · omega

theorem running_take_fip (s : State) (g : GCPData) (req : Request) (hrun : Running s g)
    (hmem : req ∈ s.inflight) (hcb : req.callback = Callback.fip_cb) :
    PreDone (s.take req) g req.user_data := by
  obtain ⟨h1, h2, h3⟩ := take_others s g req hrun hmem
  have hst := hrun.stage req.user_data
  have ha := take_pend s req hmem Callback.iface_cb
  have hb := take_pend s req hmem Callback.ips_list_cb
  have hc := take_pend s req hmem Callback.fip_cb
  simp only [hcb, ↓reduceIte] at ha hb hc
  simp only [reduceCtorEq, ↓reduceIte, Nat.add_zero] at ha hb
  unfold Stage at hst
  cases hd : s.iface_data req.user_data with
  | none =>
    rw [hd] at hst
    omega
  | some d =>
    rw [hd] at hst
    rcases hst with ⟨_, x, y, z⟩ | ⟨hw, e1, e2, x, y, z⟩ | ⟨hw, cfg, arr, e1, e2, e3, x, y, z, _⟩
    · omega
    · omega
    · exact ⟨h1, hrun.pending, ⟨d, hw, cfg, arr, hd, e1, e2, e3, by omega, by omega, by omega⟩,
        h2, h3⟩

theorem inv_get_config (result_dict : ResultDict) : Inv (get_config result_dict) :=
  Or.inl ⟨result_dict, false, rfl⟩

theorem step_inv (norm : List Char → Option (List Char)) (s : State) (ev : Event)
    (h : Inv s) : Inv (step norm s ev) := by
  cases ev with
  | cancel =>
    rcases h with ⟨d, c, hs⟩ | ⟨g, hg, hrun⟩ | hdone
    · left
      exact ⟨d, true, by subst hs; rfl⟩
    · right; left
      exact ⟨g, hg, ⟨hrun.no_list, hrun.pending, hrun.live_pos, hrun.stage,
        ⟨hrun.log_ok.no_bad, hrun.log_ok.no_final, hrun.log_ok.success_iff,
          hrun.log_ok.error_eq, hrun.log_ok.no_underflow, hrun.log_ok.decs⟩⟩⟩
    · right; right
      exact ⟨hdone.freed, hdone.idle, hdone.ifaces_freed, hdone.no_bad, hdone.no_underflow,
        hdone.decs, hdone.returned⟩
  | complete req r =>
    unfold step
    by_cases hmem : req ∈ s.inflight
    · simp only [hmem, ↓reduceIte]
      rcases h with ⟨d, c, hs⟩ | ⟨g, hg, hrun⟩ | hdone
      · subst hs
        have hreq : req = list_req := by
          simpa [get_config, nm_http_client_poll_get, list_req] using hmem
        subst hreq
        have := list_cb_inv d c r
        simpa [get_config, nm_http_client_poll_get, list_req] using this
      · cases hcb : req.callback with
        | net_ifaces_list_cb => exact absurd hcb (hrun.no_list req hmem)
        | iface_cb =>
          exact iface_cb_inv norm (s.take req) g req.user_data r hg
            (running_take_iface s g req hrun hmem hcb)
        | ips_list_cb =>
          obtain ⟨hp, hm⟩ := running_take_ips s g req hrun hmem hcb
          exact ips_list_cb_inv (s.take req) g req.user_data r hg hp hm
        | fip_cb =>
          exact fip_cb_inv (s.take req) g req.user_data r hg
            (running_take_fip s g req hrun hmem hcb)
      · have := hdone.idle
        rw [this] at hmem
        simp at hmem
    · simp only [hmem, ↓reduceIte]
      exact h

theorem run_inv (norm : List Char → Option (List Char)) (s : State) (events : List Event)
    (h : Inv s) : Inv (run norm s events) := by
  induction events generalizing s with
  | nil => exact h
  | cons ev rest ih => exact ih (step norm s ev) (step_inv norm s ev h)

theorem exists_live_of_countP_pos (l : List (Option GCPIfaceData))
    (h : 0 < l.countP Option.isSome) : ∃ p d, (l.get? p).join = some d := by
  induction l with
  | nil => simp at h
  | cons x xs ih =>
    cases x with
    | some d => exact ⟨0, d, by simp⟩
    | none =>
      obtain ⟨p, d, hp⟩ := ih (by simpa [List.countP_cons] using h)
      exact ⟨p + 1, d, by simpa using hp⟩

/-- While the job is running, a GET is outstanding. -/
theorem running_inflight (s : State) (g : GCPData) (h : Running s g) : s.inflight ≠ [] := by
  obtain ⟨p, d, hd⟩ := exists_live_of_countP_pos s.iface_datas h.live_pos
  have hst := h.stage p
  unfold Stage at hst
  have hd' : s.iface_data p = some d := hd
  rw [hd'] at hst
  intro hnil
  have hz : ∀ cb, s.pend cb p = 0 := by
    intro cb
    unfold State.pend
    rw [hnil]
    rfl
  rcases hst with ⟨_, x, _, _⟩ | ⟨_, _, _, _, x, _⟩ | ⟨_, _, _, _, _, _, _, _, x, y⟩
  · rw [hz] at x; omega
  · rw [hz] at x; omega
  · rw [hz] at x; omega

/-- A run that has nothing outstanding has returned the task. -/
theorem done_of_idle (s : State) (h : Inv s) (hidle : s.inflight = []) : Done s := by
  rcases h with ⟨d, c, hs⟩ | ⟨g, _, hrun⟩ | hdone
  · subst hs
    simp [get_config, nm_http_client_poll_get] at hidle
  · exact absurd hidle (running_inflight s g hrun)
  · exact hdone

/-! ## What the tail of a callback leaves alone -/

theorem tail_bad (s : State) : Tail s s.bad := by
  refine ⟨rfl, rfl, ⟨[Action.bad_pointer], rfl, ?_⟩, ?_, ?_⟩
  · intro a ha
    simp at ha
    subst ha
    exact ⟨rfl, rfl⟩
  · intro g' hg'
    exact ⟨g', hg', rfl⟩
  · intro d hd
    simp only [State.bad, List.mem_append, List.mem_singleton] at hd
    rcases hd with hd | hd
    · exact Or.inl hd
    · simp at hd

theorem tail_maybe_task_return (s : State) (e : Option GError) :
    Tail s (_get_config_maybe_task_return s e) := by
  cases hg : s.gcp_data with
  | none =>
    have : _get_config_maybe_task_return s e = s.bad := by
      unfold _get_config_maybe_task_return
      simp [hg]
    rw [this]
    exact tail_bad s
  | some g =>
    rw [maybe_task_return_eq s g e hg]
    by_cases hn : g.n_ifaces_pending = 0
    · cases hs : g.success with
      | true =>
        simp only [hn, ne_eq, not_true_eq_false, ↓reduceIte]
        refine ⟨rfl, rfl, ⟨[Action.maybe_task_return e, Action.task_return_pointer s.result_dict],
          by simp, ?_⟩, ?_, ?_⟩
        · intro a ha
          simp at ha
          rcases ha with ha | ha <;> subst ha <;> exact ⟨rfl, rfl⟩
        · intro g' hg'
          simp at hg'
        · intro d _
          exact Or.inr ⟨g, hg, hs⟩
      | false =>
        simp only [hn, ne_eq, not_true_eq_false, ↓reduceIte, Bool.false_eq_true]
        refine ⟨rfl, rfl, ⟨[Action.maybe_task_return e,
          Action.task_return_error (error_after e g.error)], by simp, ?_⟩, ?_, ?_⟩
        · intro a ha
          simp at ha
          rcases ha with ha | ha <;> subst ha <;> exact ⟨rfl, rfl⟩
        · intro g' hg'
          simp at hg'
        · intro d hd
          simp only [List.mem_append, List.mem_singleton] at hd
          rcases hd with (hd | hd) | hd
          · exact Or.inl hd
          · simp at hd
          · simp at hd
    · simp only [ne_eq, hn, not_false_eq_true, ↓reduceIte]
      refine ⟨rfl, rfl, ⟨[Action.maybe_task_return e], rfl, ?_⟩, ?_, ?_⟩
      · intro a ha
        simp at ha
        subst ha
        exact ⟨rfl, rfl⟩
      · intro g' hg'
        simp only [Option.some.injEq] at hg'
        subst hg'
        exact ⟨g, hg, rfl⟩
      · intro d hd
        simp only [List.mem_append, List.mem_singleton] at hd
        rcases hd with hd | hd
        · exact Or.inl hd
        · simp at hd

/-- A tail that follows a few statements which store no route, issue no GET,
return no task and keep the success flag. -/
theorem Tail.after {s s' : State} (s1 : State) (acts : List Action)
    (hdict : s1.result_dict = s.result_dict) (hin : s1.inflight = s.inflight)
    (hlog : s1.log = s.log ++ acts)
    (hacts : ∀ a ∈ acts, a.is_store = false ∧ a.is_poll_get = false ∧ a.is_final = false)
    (hsucc : ∀ g1, s1.gcp_data = some g1 → ∃ g, s.gcp_data = some g ∧ g1.success = g.success)
    (h : Tail s1 s') : Tail s s' := by
  obtain ⟨acts', hl, ha⟩ := h.log
  refine ⟨h.dict.trans hdict, h.inflight.trans hin, ⟨acts ++ acts', ?_, ?_⟩, ?_, ?_⟩
  · rw [hl, hlog, List.append_assoc]
  · intro a hm
    rcases List.mem_append.mp hm with hm | hm
    · exact ⟨(hacts a hm).1, (hacts a hm).2.1⟩
    · exact ha a hm
  · intro g' hg'
    obtain ⟨g1, hg1, e1⟩ := h.success g' hg'
    obtain ⟨g, hg, e2⟩ := hsucc g1 hg1
    exact ⟨g, hg, e1.trans e2⟩
  · intro d hd
    rcases h.pointer d hd with h1 | ⟨g1, hg1, hs1⟩
    · rw [hlog] at h1
      rcases List.mem_append.mp h1 with h2 | h2
      · exact Or.inl h2
      · have := (hacts _ h2).2.2
        simp [Action.is_final] at this
    · obtain ⟨g, hg, e2⟩ := hsucc g1 hg1
      exact Or.inr ⟨g, hg, by rw [← e2]; exact hs1⟩

theorem tail_iface_pipeline_end (s : State) (p : Nat) (e : Option GError) :
    Tail s (iface_pipeline_end s p e) := by
  cases hg : s.gcp_data with
  | none =>
    have : iface_pipeline_end s p e = s.bad := by
      unfold iface_pipeline_end
      simp [hg]
    rw [this]
    exact tail_bad s
  | some g =>
    have : iface_pipeline_end s p e = _get_config_maybe_task_return
        { s with
          iface_datas := s.iface_datas.set p none
          gcp_data := some { g with n_ifaces_pending := guint_dec g.n_ifaces_pending }
          log := s.log ++ [Action.ifaces_pending_dec p g.n_ifaces_pending] } e := by
      unfold iface_pipeline_end
      simp [hg]
    rw [this]
    refine Tail.after
      { s with
        iface_datas := s.iface_datas.set p none
        gcp_data := some { g with n_ifaces_pending := guint_dec g.n_ifaces_pending }
        log := s.log ++ [Action.ifaces_pending_dec p g.n_ifaces_pending] }
      [Action.ifaces_pending_dec p g.n_ifaces_pending] rfl rfl rfl ?_ ?_
      (tail_maybe_task_return _ e)
    · intro a ha
      simp at ha
      subst ha
      exact ⟨rfl, rfl, rfl⟩
    · intro g1 hg1
      simp only [Option.some.injEq] at hg1
      subst hg1
      exact ⟨g, hg, rfl⟩

theorem tail_iface_done (s : State) (p : Nat) (e : Option GError) :
    Tail s (iface_done s p e) := by
  unfold iface_done
  cases hd : s.iface_data p with
  | none => exact tail_bad s
  | some d =>
    simp only
    split
    · refine Tail.after
        { s with
          iface_datas := s.iface_datas.set p
            (some { d with n_fips_pending := guint_dec d.n_fips_pending })
          log := s.log ++ [Action.fips_pending_dec p d.n_fips_pending] }
        [Action.fips_pending_dec p d.n_fips_pending] rfl rfl rfl ?_ ?_
        (tail_iface_pipeline_end _ p e)
      · intro a ha
        simp at ha
        subst ha
        exact ⟨rfl, rfl, rfl⟩
      · intro g1 hg1
        exact ⟨g1, hg1, rfl⟩
    · refine ⟨rfl, rfl, ⟨[Action.fips_pending_dec p d.n_fips_pending], rfl, ?_⟩, ?_, ?_⟩
      · intro a ha
        simp at ha
        subst ha
        exact ⟨rfl, rfl⟩
      · intro g' hg'
        exact ⟨g', hg', rfl⟩
      · intro x hx
        simp only [List.mem_append, List.mem_singleton] at hx
        rcases hx with hx | hx
        · exact Or.inl hx
        · simp at hx

theorem filter_store_tail (l acts : List Action)
    (h : ∀ a ∈ acts, a.is_store = false ∧ a.is_poll_get = false) :
    (l ++ acts).filter Action.is_store = l.filter Action.is_store := by
  rw [List.filter_append]
  have : acts.filter Action.is_store = [] := by
    rw [List.filter_eq_nil_iff]
    intro a ha
    simp [(h a ha).1]
  rw [this, List.append_nil]

theorem filter_get_tail (l acts : List Action)
    (h : ∀ a ∈ acts, a.is_store = false ∧ a.is_poll_get = false) :
    gets (l ++ acts) = gets l := by
  unfold gets
  rw [List.filter_append]
  have : acts.filter Action.is_poll_get = [] := by
    rw [List.filter_eq_nil_iff]
    intro a ha
    simp [(h a ha).2]
  rw [this, List.append_nil]

/-- A forwarded-IP completion that failed only runs the tail iface_done. -/
theorem fip_cb_fail_tail (s : State) (p : Nat) (r : GetResult)
    (hfail : r.error.isSome = true ∨ r.success = false ∨
      nm_utils_ipaddr_valid AF_INET (c_str r.response) = false) :
    Tail s (_get_config_fip_cb s p r) := by
  unfold _get_config_fip_cb
  split
  · simp only [err_cond]
    cases he : r.error.isSome with
    | true =>
      simp only [↓reduceIte]
      exact tail_iface_done _ _ _
    | false =>
      simp only [Bool.false_eq_true, ↓reduceIte]
      cases hs : r.success with
      | false =>
        simp only [Bool.not_false, ↓reduceIte]
        exact tail_iface_done _ _ _
      | true =>
        simp only [Bool.not_true, Bool.false_eq_true, ↓reduceIte]
        cases hv : nm_utils_ipaddr_valid AF_INET (c_str r.response) with
        | false =>
          simp only [Bool.not_false, ↓reduceIte]
          exact tail_iface_done _ _ _
        | true =>
          rcases hfail with h | h | h
          · rw [he] at h; exact absurd h (by decide)
          · rw [hs] at h; exact absurd h (by decide)
          · rw [hv] at h; exact absurd h (by decide)
  · exact tail_bad s

theorem step_not_mem (norm : List Char → Option (List Char)) (s : State) (req : Request)
    (r : GetResult) (h : req ∉ s.inflight) : step norm s (Event.complete req r) = s := by
  simp only [step, h, ↓reduceIte]

theorem step_fip (norm : List Char → Option (List Char)) (s : State) (req : Request)
    (r : GetResult) (h : req ∈ s.inflight) (hcb : req.callback = Callback.fip_cb) :
    step norm s (Event.complete req r) = _get_config_fip_cb (s.take req) req.user_data r := by
  simp only [step, h, ↓reduceIte, hcb, State.take]

theorem step_ips_list (norm : List Char → Option (List Char)) (s : State) (req : Request)
    (r : GetResult) (h : req ∈ s.inflight) (hcb : req.callback = Callback.ips_list_cb) :
    step norm s (Event.complete req r) =
      _get_config_ips_list_cb (s.take req) req.user_data r := by
  simp only [step, h, ↓reduceIte, hcb, State.take]

theorem step_iface (norm : List Char → Option (List Char)) (s : State) (req : Request)
    (r : GetResult) (h : req ∈ s.inflight) (hcb : req.callback = Callback.iface_cb) :
    step norm s (Event.complete req r) =
      _get_config_iface_cb norm (s.take req) req.user_data r := by
  simp only [step, h, ↓reduceIte, hcb, State.take]

theorem step_list (norm : List Char → Option (List Char)) (s : State) (req : Request)
    (r : GetResult) (h : req ∈ s.inflight) (hcb : req.callback = Callback.net_ifaces_list_cb) :
    step norm s (Event.complete req r) = _get_net_ifaces_list_cb (s.take req) r := by
  simp only [step, h, ↓reduceIte, hcb, State.take]

/-! ## The route of a forwarded IP -/

theorem route_new_valid (fip_str : List Char)
    (h : nm_utils_ipaddr_valid AF_INET fip_str = true) :
    nm_ip_route_set_attribute (nm_ip_route_new AF_INET fip_str 32 none 100).1
      NM_IP_ROUTE_ATTRIBUTE_TYPE "local" = some (local_route fip_str) := by
  simp [nm_ip_route_new, h, nm_ip_route_set_attribute, local_route]

theorem store_get_self (arr : NMIPRouteArr) (i : Nat) (route : Option NMIPRoute)
    (h : i < arr.slots.length) : (arr.store i route).get i = route := by
  unfold NMIPRouteArr.store NMIPRouteArr.get
  simp [h]

theorem store_get_ne (arr : NMIPRouteArr) (i j : Nat) (route : Option NMIPRoute)
    (h : j ≠ i) : (arr.store i route).get j = arr.get j := by
  unfold NMIPRouteArr.store NMIPRouteArr.get
  by_cases hi : i < arr.slots.length
  · have hij : ¬ i = j := fun e => h e.symm
    simp [hi, List.getElem?_set, hij]
  · simp [hi]

/-- A forwarded-IP completion with a valid address, on a pipeline that has its
record and its array: the route is stored, the count and the flag are set, and
the tail iface_done runs. -/
theorem fip_cb_valid_eq (s : State) (g : GCPData) (p : Nat) (r : GetResult)
    (d : GCPIfaceData) (hw : List Char) (cfg : NMCSProviderGetConfigIfaceData)
    (arr : NMIPRouteArr) (hg : s.gcp_data = some g) (hd : s.iface_data p = some d)
    (hhw : d.iface_get_config = some hw)
    (hcfg : g_hash_table_lookup s.result_dict hw = some cfg)
    (harr : cfg.iproutes_arr = some arr)
    (herr : r.error = none) (hsucc : r.success = true)
    (hvalid : nm_utils_ipaddr_valid AF_INET (c_str r.response) = true) :
    _get_config_fip_cb s p r =
      iface_done
        { s with
          result_dict := s.result_dict.assign hw
            { iface_idx := d.iface_idx
              iproutes_arr := some (arr.store cfg.iproutes_len
                (some (local_route (c_str r.response))))
              iproutes_len := cfg.iproutes_len + 1 }
          gcp_data := some { g with success := true }
          log := s.log ++ [Action.route_store hw cfg.iproutes_len
            (some (local_route (c_str r.response)))] }
        p (nm_ip_route_new AF_INET (c_str r.response) 32 none 100).2 := by
  unfold _get_config_fip_cb
  simp only [hd, hg, herr, hsucc, hvalid, hhw, hcfg, harr, validate_local,
    route_new_valid _ hvalid, nm_utils_error_is_cancelled, Option.isSome_none,
    Bool.or_self, Bool.false_eq_true, ↓reduceIte, Bool.not_true]

/-! ## A completion that carries an error -/

theorem mtr_final_error (s : State) (g : GCPData) (e : GError) (hg : s.gcp_data = some g)
    (hnone : (_get_config_maybe_task_return s (some e)).gcp_data = none) :
    last_error (_get_config_maybe_task_return s (some e)).log = some e := by
  rw [maybe_task_return_eq s g (some e) hg] at hnone ⊢
  by_cases hn : g.n_ifaces_pending = 0
  · cases hs : g.success with
    | true =>
      simp only [hn, ne_eq, not_true_eq_false, ↓reduceIte]
      rw [last_error_snoc, last_error_mtr]
      rfl
    | false =>
      simp only [hn, ne_eq, not_true_eq_false, ↓reduceIte, Bool.false_eq_true]
      rw [last_error_snoc, last_error_mtr]
      rfl
  · simp [hn] at hnone

theorem pipeline_end_final_error (s : State) (g : GCPData) (p : Nat) (e : GError)
    (hg : s.gcp_data = some g)
    (hnone : (iface_pipeline_end s p (some e)).gcp_data = none) :
    last_error (iface_pipeline_end s p (some e)).log = some e := by
  have heq : iface_pipeline_end s p (some e) = _get_config_maybe_task_return
      { s with
        iface_datas := s.iface_datas.set p none
        gcp_data := some { g with n_ifaces_pending := guint_dec g.n_ifaces_pending }
        log := s.log ++ [Action.ifaces_pending_dec p g.n_ifaces_pending] } (some e) := by
    unfold iface_pipeline_end
    simp [hg]
  rw [heq] at hnone ⊢
  exact mtr_final_error _ _ e rfl hnone

theorem iface_done_final_error (s : State) (g : GCPData) (p : Nat) (e : GError)
    (hg : s.gcp_data = some g)
    (hnone : (iface_done s p (some e)).gcp_data = none) :
    last_error (iface_done s p (some e)).log = some e := by
  unfold iface_done at hnone ⊢
  cases hd : s.iface_data p with
  | none =>
    simp only [hd, State.bad, hg] at hnone
    exact absurd hnone (by simp)
  | some d =>
    simp only [hd] at hnone ⊢
    split at hnone
    · rename_i hz
      simp only [hz, ↓reduceIte]
      rw [hz] at hnone
      exact pipeline_end_final_error _ g p e hg hnone
    · simp only [hg] at hnone
      exact absurd hnone (by simp)

/-- A completion that carries an error stores no route, and if it is the one on
which the task is returned, the error of the latest call of the finalize check
is the error it carried. -/
theorem step_error (norm : List Char → Option (List Char)) (s : State) (req : Request)
    (r : GetResult) (e : GError) (g : GCPData) (hr : r.error = some e)
    (hg : s.gcp_data = some g) :
    has_store (step norm s (Event.complete req r)).log = has_store s.log ∧
    ((step norm s (Event.complete req r)).gcp_data = none →
      last_error (step norm s (Event.complete req r)).log = some e) := by
  have hstore : ∀ s' : State, Tail (s.take req) s' → has_store s'.log = has_store s.log := by
    intro s' ht
    obtain ⟨acts, hl, ha⟩ := ht.log
    rw [hl]
    unfold has_store
    rw [List.any_append]
    have : acts.any Action.is_store = false := by
      rw [List.any_eq_false]
      intro a h
      simp [(ha a h).1]
    rw [this, Bool.or_false]
    rfl
  have hg' : (s.take req).gcp_data = some g := hg
  have hcond : (r.error.isSome || nm_utils_error_is_cancelled r.error) = true := by
    rw [err_cond, hr]
    rfl
  by_cases hmem : req ∈ s.inflight
  · cases hcb : req.callback with
    | net_ifaces_list_cb =>
      rw [step_list norm s req r hmem hcb]
      have heq : _get_net_ifaces_list_cb (s.take req) r =
          _get_config_maybe_task_return (s.take req) (some e) := by
        unfold _get_net_ifaces_list_cb
        simp only [hg', hr, Option.isSome_some, Bool.true_or, ↓reduceIte]
      rw [heq]
      exact ⟨hstore _ (tail_maybe_task_return _ _), mtr_final_error _ g e hg'⟩
    | iface_cb =>
      rw [step_iface norm s req r hmem hcb]
      cases hd : (s.take req).iface_data req.user_data with
      | none =>
        have heq : _get_config_iface_cb norm (s.take req) req.user_data r = (s.take req).bad := by
          unfold _get_config_iface_cb
          simp only [hd]
        rw [heq]
        refine ⟨hstore _ (tail_bad _), fun h => ?_⟩
        simp only [State.bad, hg'] at h
        exact absurd h (by simp)
      | some d =>
        have heq : _get_config_iface_cb norm (s.take req) req.user_data r =
            iface_pipeline_end (s.take req) req.user_data (some e) := by
          unfold _get_config_iface_cb
          simp only [hd, hg', hr, Option.isSome_some, Bool.true_or, ↓reduceIte]
        rw [heq]
        exact ⟨hstore _ (tail_iface_pipeline_end _ _ _), pipeline_end_final_error _ g _ e hg'⟩
    | ips_list_cb =>
      rw [step_ips_list norm s req r hmem hcb]
      cases hd : (s.take req).iface_data req.user_data with
      | none =>
        have heq : _get_config_ips_list_cb (s.take req) req.user_data r = (s.take req).bad := by
          unfold _get_config_ips_list_cb
          simp only [hd]
        rw [heq]
        refine ⟨hstore _ (tail_bad _), fun h => ?_⟩
        simp only [State.bad, hg'] at h
        exact absurd h (by simp)
      | some d =>
        have heq : _get_config_ips_list_cb (s.take req) req.user_data r =
            iface_pipeline_end (s.take req) req.user_data (some e) := by
          unfold _get_config_ips_list_cb
          simp only [hd, hg', hr, Option.isSome_some, Bool.true_or, ↓reduceIte]
        rw [heq]
        exact ⟨hstore _ (tail_iface_pipeline_end _ _ _), pipeline_end_final_error _ g _ e hg'⟩
    | fip_cb =>
      rw [step_fip norm s req r hmem hcb]
      cases hd : (s.take req).iface_data req.user_data with
      | none =>
        have heq : _get_config_fip_cb (s.take req) req.user_data r = (s.take req).bad := by
          unfold _get_config_fip_cb
          simp only [hd]
        rw [heq]
        refine ⟨hstore _ (tail_bad _), fun h => ?_⟩
        simp only [State.bad, hg'] at h
        exact absurd h (by simp)
      | some d =>
        have heq : _get_config_fip_cb (s.take req) req.user_data r =
            iface_done (s.take req) req.user_data (some e) := by
          unfold _get_config_fip_cb
          simp only [hd, hg', hr, Option.isSome_some, Bool.true_or, ↓reduceIte]
        rw [heq]
        exact ⟨hstore _ (tail_iface_done _ _ _), iface_done_final_error _ g _ e hg'⟩
  · rw [step_not_mem norm s req r hmem]
    refine ⟨rfl, fun h => ?_⟩
    rw [hg] at h
    exact absurd h (by simp)

theorem after_cancel_run (norm : List Char → Option (List Char)) (s : State)
    (events : List Event) (h : AfterCancel s)
    (hcancel : ∀ req r, Event.complete req r ∈ events →
      nm_utils_error_is_cancelled r.error = true) :
    AfterCancel (run norm s events) := by
  induction events generalizing s with
  | nil => exact h
  | cons ev rest ih =>
    apply ih (step norm s ev)
    · obtain ⟨hinv, hstore, hfin⟩ := h
      refine ⟨step_inv norm s ev hinv, ?_, ?_⟩
      · cases ev with
        | cancel => exact hstore
        | complete req r =>
          have hc := hcancel req r (by simp)
          cases hr : r.error with
          | none => rw [hr] at hc; simp [nm_utils_error_is_cancelled] at hc
          | some e =>
            cases hg : s.gcp_data with
            | none =>
              rcases hinv with ⟨d, c, hs⟩ | ⟨g, hg', _⟩ | hdone
              · subst hs; simp [get_config, nm_http_client_poll_get] at hg
              · rw [hg] at hg'; simp at hg'
              · rw [step_not_mem norm s req r (by rw [hdone.idle]; simp)]
                exact hstore
            | some g =>
              rw [(step_error norm s req r e g hr hg).1]
              exact hstore
      · cases ev with
        | cancel => exact hfin
        | complete req r =>
          have hc := hcancel req r (by simp)
          cases hr : r.error with
          | none => rw [hr] at hc; simp [nm_utils_error_is_cancelled] at hc
          | some e =>
            rw [hr] at hc
            cases hg : s.gcp_data with
            | none =>
              rcases hinv with ⟨d, c, hs⟩ | ⟨g, hg', _⟩ | hdone
              · subst hs; simp [get_config, nm_http_client_poll_get] at hg
              · rw [hg] at hg'; simp at hg'
              · rw [step_not_mem norm s req r (by rw [hdone.idle]; simp)]
                exact hfin
            | some g =>
              intro hnone
              exact ⟨e, (step_error norm s req r e g hr hg).2 hnone, hc⟩
    · intro req r hm
      exact hcancel req r (by simp [hm])

/-! ## The listing parsers, line by line -/

theorem memchr_none (l : List Char) (c : Char) (n : Nat) (hn : l.length ≤ n)
    (h : memchr l c n = none) : c ∉ l := by
  induction l generalizing n with
  | nil => simp
  | cons x xs ih =>
    cases n with
    | zero => simp at hn
    | succ m =>
      simp only [memchr] at h
      by_cases hx : x = c
      · simp [hx] at h
      · simp only [hx, ↓reduceIte, Option.map_eq_none'] at h
        have := ih m (by simpa using hn) h
        simp only [List.mem_cons, not_or]
        exact ⟨fun e => hx e.symm, this⟩

theorem memchr_some (l : List Char) (c : Char) (n k : Nat) (h : memchr l c n = some k) :
    k < n ∧ c ∉ l.take k ∧ l = l.take k ++ c :: l.drop (k + 1) := by
  induction l generalizing n k with
  | nil => simp [memchr] at h
  | cons x xs ih =>
    cases n with
    | zero => simp [memchr] at h
    | succ m =>
      simp only [memchr] at h
      by_cases hx : x = c
      · simp only [hx, ↓reduceIte, Option.some.injEq] at h
        subst h
        subst hx
        simp
      · simp only [hx, ↓reduceIte, Option.map_eq_some'] at h
        obtain ⟨j, hj, rfl⟩ := h
        obtain ⟨h1, h2, h3⟩ := ih m j hj
        refine ⟨by omega, ?_, ?_⟩
        · simp only [List.take_succ_cons, List.mem_cons, not_or]
          exact ⟨fun e => hx e.symm, h2⟩
        · simp only [List.take_succ_cons, List.drop_succ_cons, List.cons_append]
          rw [← h3]

theorem split_on_ne_nil (c : Char) (l : List Char) : split_on c l ≠ [] := by
  cases l with
  | nil => simp [split_on]
  | cons x xs =>
    simp only [split_on]
    split
    · simp
    · split <;> simp

theorem split_on_not_mem (c : Char) (l : List Char) (h : c ∉ l) : split_on c l = [l] := by
  induction l with
  | nil => rfl
  | cons x xs ih =>
    simp only [List.mem_cons, not_or] at h
    have hx : ¬ x = c := fun e => h.1 e.symm
    simp [split_on, hx, ih h.2]

theorem split_on_append (c : Char) (a b : List Char) (h : c ∉ a) :
    split_on c (a ++ c :: b) = a :: split_on c b := by
  induction a with
  | nil => simp [split_on]
  | cons x xs ih =>
    simp only [List.mem_cons, not_or] at h
    have hx : ¬ x = c := fun e => h.1 e.symm
    simp [split_on, hx, ih h.2]

theorem terminated_lines_not_mem (l : List Char) (h : '\n' ∉ l) : terminated_lines l = [] := by
  simp [terminated_lines, split_on_not_mem _ _ h]

theorem terminated_lines_append (a b : List Char) (h : '\n' ∉ a) :
    terminated_lines (a ++ '\n' :: b) = a :: terminated_lines b := by
  unfold terminated_lines
  rw [split_on_append _ _ _ h]
  exact List.dropLast_cons_of_ne_nil (split_on_ne_nil _ _)

/-- The loop of _get_config_ips_list_cb leaves its condition by itself, and
collects the indices of the newline-terminated lines. -/
theorem ips_list_loop_eq (fuel : Nat) (line_start : List Char) (response_len : Nat)
    (uri_arr : List Int) (hfuel : line_start.length < fuel)
    (hlen : line_start.length ≤ response_len) :
    _get_config_ips_list_loop fuel line_start response_len uri_arr =
      some (uri_arr ++ ips_list_by_lines line_start) := by
  induction fuel generalizing line_start response_len uri_arr with
  | zero => omega
  | succ n ih =>
    unfold _get_config_ips_list_loop
    by_cases hpos : 0 < response_len
    · simp only [hpos, ↓reduceIte]
      cases hm : memchr line_start '\n' response_len with
      | none =>
        have := memchr_none _ _ _ hlen hm
        simp [ips_list_by_lines, terminated_lines_not_mem _ this]
      | some k =>
        obtain ⟨hk, hnot, hsplit⟩ := memchr_some _ _ _ _ hm
        have hlk : k < line_start.length := by
          have := congrArg List.length hsplit
          simp at this
          omega
        have hdrop : (line_start.drop (k + 1)).length = line_start.length - (k + 1) := by simp
        have hrec : ips_list_by_lines line_start =
            (index_of_record (line_start.take k)).toList ++
              ips_list_by_lines (line_start.drop (k + 1)) := by
          unfold ips_list_by_lines
          conv_lhs => rw [hsplit]
          rw [terminated_lines_append _ _ hnot, List.filterMap_cons]
          cases index_of_record (List.take k line_start) <;> simp
        simp only [g_string_new_len]
        rw [hrec]
        unfold index_of_record
        by_cases hneg : _nm_utils_ascii_str_to_int64 (c_str (List.take k line_start)) 10 0
            G_MAXINT64 (-1) < 0
        · simp only [hneg, ↓reduceIte]
          rw [ih _ _ _ (by omega) (by omega)]
          simp
        · simp only [hneg, ↓reduceIte]
          rw [ih _ _ _ (by omega) (by omega)]
          simp
    · have h0 : line_start = [] := by
        have : line_start.length = 0 := by omega
        exact List.length_eq_zero.mp this
      subst h0
      simp [hpos, ips_list_by_lines, terminated_lines, split_on]

theorem ips_list_parse_eq (response : List Char) :
    _get_config_ips_list_parse response = ips_list_by_lines response := by
  unfold _get_config_ips_list_parse
  rw [ips_list_loop_eq _ _ _ _ (by omega) (by omega)]
  simp

/-- The loop of _get_net_ifaces_list_cb leaves its condition by itself: every
iteration moves line_start forward. -/
theorem ifaces_loop_terminates (fuel : Nat) (line_start : List Char) (response_len : Nat)
    (gstr : List Char) (ifaces_arr : List Int) (hfuel : line_start.length < fuel) :
    (_get_net_ifaces_list_loop fuel line_start response_len gstr ifaces_arr).isSome = true := by
  induction fuel generalizing line_start response_len gstr ifaces_arr with
  | zero => omega
  | succ n ih =>
    unfold _get_net_ifaces_list_loop
    by_cases hpos : 0 < response_len
    · simp only [hpos, ↓reduceIte]
      cases hm : memchr line_start '\n' response_len with
      | none => rfl
      | some k =>
        obtain ⟨_, _, hsplit⟩ := memchr_some _ _ _ _ hm
        have hlk : k < line_start.length := by
          have := congrArg List.length hsplit
          simp at this
          omega
        have hdrop : (line_start.drop (k + 1)).length < n := by
          simp
          omega
        simp only
        split
        · exact ih _ _ _ _ hdrop
        · split
          · exact ih _ _ _ _ hdrop
          · exact ih _ _ _ _ hdrop
    · simp [hpos]

theorem fip_reqs_eq (iface_idx : Int) (p : Nat) (indices : List Int) :
    fip_reqs p (indices.map (fip_path iface_idx)) = fip_gets iface_idx p indices := by
  simp [fip_reqs, fip_gets, fip_path]

theorem gets_poll_gets (l : List Action) (reqs : List Request) :
    gets (l ++ reqs.map Action.poll_get) = gets l ++ reqs.map Action.poll_get := by
  unfold gets
  rw [List.filter_append]
  congr 1
  rw [List.filter_eq_self]
  intro a ha
  obtain ⟨q, _, rfl⟩ := List.mem_map.mp ha
  rfl

/-- What _get_config_ips_list_cb does with a listing that was fetched: the GETs
it issues and the counter it sets, in terms of the indices it parsed. -/
theorem ips_list_cb_ok (s : State) (g : GCPData) (p : Nat) (r : GetResult)
    (d : GCPIfaceData) (hw : List Char) (hg : s.gcp_data = some g)
    (hd : s.iface_data p = some d) (hhw : d.iface_get_config = some hw)
    (hsome : (g_hash_table_lookup s.result_dict hw).isSome = true)
    (herr : r.error = none) (hsucc : r.success = true) :
    gets (_get_config_ips_list_cb s p r).log =
      gets s.log ++ (fip_gets d.iface_idx p (_get_config_ips_list_parse r.response)).map
        Action.poll_get ∧
    (_get_config_ips_list_cb s p r).inflight =
      s.inflight ++ fip_gets d.iface_idx p (_get_config_ips_list_parse r.response) ∧
    (_get_config_ips_list_parse r.response ≠ [] →
      (_get_config_ips_list_cb s p r).iface_data p =
        some { d with n_fips_pending := (_get_config_ips_list_parse r.response).length }) := by
  obtain ⟨dict, gd, ifs, infl, c, lg⟩ := s
  simp only at hg
  subst hg
  obtain ⟨cfg, hcfg⟩ := Option.isSome_iff_exists.mp hsome
  simp only at hcfg
  have hlen := lt_of_get_some _ _ _ hd
  unfold _get_config_ips_list_cb
  simp only [hd, herr, hsucc, nm_utils_error_is_cancelled, Option.isSome_none,
    Bool.or_self, Bool.false_eq_true, ↓reduceIte, Bool.not_true, List.length_map]
  generalize _get_config_ips_list_parse r.response = indices
  cases indices with
  | nil =>
    simp only [List.length_nil, ↓reduceIte, fip_gets, List.map_nil, List.append_nil, ne_eq,
      not_true_eq_false, false_implies, and_true]
    have ht := tail_iface_pipeline_end
      (State.mk dict (some g) (ifs.set p (some { d with n_fips_pending := 0 })) infl c lg) p
      (some (nm_utils_error_new "found no forwarded ip"))
    obtain ⟨acts, hl, ha⟩ := ht.log
    refine ⟨?_, ht.inflight⟩
    rw [hl]
    exact filter_get_tail _ _ ha
  | cons i0 rest =>
    simp only [List.length_cons, Nat.add_one_ne_zero, ↓reduceIte, hhw, hcfg]
    rw [fips_poll_get_eq, fip_reqs_eq]
    refine ⟨gets_poll_gets _ _, rfl, fun _ => ?_⟩
    exact get_set_self _ _ _ hlen

/-! ## The claims -/

/-- C1: in every complete run of get_config (any listing, any responses, any
order of completion) the task is returned with the result mapping if and only
if a forwarded-IP completion stored a route during the run; in every other
complete run it is returned with an error. -/
theorem get_config_success_iff_route_stored (norm : List Char → Option (List Char))
    (result_dict : ResultDict) (events : List Event)
    (hidle : (run norm (get_config result_dict) events).inflight = []) :
    (finals (run norm (get_config result_dict) events).log =
        [Action.task_return_pointer (run norm (get_config result_dict) events).result_dict] ↔
      has_store (run norm (get_config result_dict) events).log = true) ∧
    (has_store (run norm (get_config result_dict) events).log = false →
      ∃ e, finals (run norm (get_config result_dict) events).log =
        [Action.task_return_error (some e)]) := by
  have hdone := done_of_idle _ (run_inv norm _ events (inv_get_config result_dict)) hidle
  rcases hdone.returned with ⟨hf, hs⟩ | ⟨e, hf, hs, _⟩
  · exact ⟨⟨fun _ => hs, fun _ => hf⟩, fun h => by rw [hs] at h; exact absurd h (by decide)⟩
  · refine ⟨⟨fun h => ?_, fun h => ?_⟩, fun _ => ⟨e, hf⟩⟩
    · rw [hf] at h
      simp at h
    · rw [hs] at h
      exact absurd h (by decide)

theorem get_config_success_iff_route_stored_witness :
    (run demo_normalize (get_config demo_dict) demo_events).inflight = [] ∧
    ((finals (run demo_normalize (get_config demo_dict) demo_events).log =
        [Action.task_return_pointer
          (run demo_normalize (get_config demo_dict) demo_events).result_dict] ↔
      has_store (run demo_normalize (get_config demo_dict) demo_events).log = true) ∧
    (has_store (run demo_normalize (get_config demo_dict) demo_events).log = false →
      ∃ e, finals (run demo_normalize (get_config demo_dict) demo_events).log =
        [Action.task_return_error (some e)])) :=
  ⟨by decide, get_config_success_iff_route_stored demo_normalize demo_dict demo_events (by decide)⟩

/-- C2: in every run of get_config n_ifaces_pending is never decremented from
zero, the task is returned at most once, and no pipeline decrements the counter
twice; when nothing is outstanding any more the task has been returned exactly
once and every pipeline that was started has decremented the counter exactly
once. The finalize check returns the task only with the counter at zero, a
failed or empty interface listing returns it at once, without any decrement,
and no callback ever runs on a job or a pipeline that has been freed. -/
theorem get_config_returns_once (norm : List Char → Option (List Char))
    (result_dict : ResultDict) (events : List Event) :
    (run norm (get_config result_dict) events).log.any Action.is_underflow = false ∧
    (finals (run norm (get_config result_dict) events).log).length ≤ 1 ∧
    (∀ p, dec_count (run norm (get_config result_dict) events).log p ≤ 1) ∧
    ((run norm (get_config result_dict) events).inflight = [] →
      (finals (run norm (get_config result_dict) events).log).length = 1 ∧
      ∀ p, p < (run norm (get_config result_dict) events).iface_datas.length →
        dec_count (run norm (get_config result_dict) events).log p = 1) ∧
    (∀ (s : State) (g : GCPData) (e : Option GError), s.gcp_data = some g →
      ((_get_config_maybe_task_return s e).gcp_data = none ↔ g.n_ifaces_pending = 0)) ∧
    (∀ r : GetResult,
      r.error.isSome = true ∨ r.success = false ∨ _get_net_ifaces_list_parse r.response = [] →
      (finals (step norm (get_config result_dict) (Event.complete list_req r)).log).length = 1 ∧
      (step norm (get_config result_dict) (Event.complete list_req r)).iface_datas = [] ∧
      ∀ p, dec_count (step norm (get_config result_dict)
        (Event.complete list_req r)).log p = 0) ∧
    Action.bad_pointer ∉ (run norm (get_config result_dict) events).log := by
  have hinv := run_inv norm _ events (inv_get_config result_dict)
  refine ⟨?_, ?_, ?_, ?_, ?_, ?_, ?_⟩
  · rcases hinv with ⟨d, c, hs⟩ | ⟨g, _, hrun⟩ | hdone
    · rw [hs]; simp [get_config, nm_http_client_poll_get, Action.is_underflow]
    · exact hrun.log_ok.no_underflow
    · exact hdone.no_underflow
  · rcases hinv with ⟨d, c, hs⟩ | ⟨g, _, hrun⟩ | hdone
    · rw [hs]; simp [get_config, nm_http_client_poll_get, finals, Action.is_final, List.filter]
    · rw [hrun.log_ok.no_final]; simp
    · rcases hdone.returned with ⟨hf, _⟩ | ⟨e, hf, _, _⟩ <;> rw [hf] <;> simp
  · intro p
    rcases hinv with ⟨d, c, hs⟩ | ⟨g, _, hrun⟩ | hdone
    · rw [hs]; simp [get_config, nm_http_client_poll_get, dec_count, Action.is_dec_of]
    · rw [hrun.log_ok.decs p]; split <;> omega
    · rw [hdone.decs p]; split <;> omega
  · intro hidle
    have hdone := done_of_idle _ hinv hidle
    refine ⟨?_, ?_⟩
    · rcases hdone.returned with ⟨hf, _⟩ | ⟨e, hf, _, _⟩ <;> rw [hf] <;> simp
    · intro p hp
      rw [hdone.decs p]
      simp [hp]
  · intro s g e hg
    rw [maybe_task_return_eq s g e hg]
    by_cases hn : g.n_ifaces_pending = 0
    · cases hs : g.success <;> simp [hn]
    · simp [hn]
  · intro r hr
    have hfail : ∀ x : GError,
        (finals (_get_config_maybe_task_return
          { result_dict := result_dict
            gcp_data := some { n_ifaces_pending := 0, error := none, success := false }
            iface_datas := []
            inflight := []
            cancelled := false
            log := [Action.poll_get list_req] } (some x)).log).length = 1 ∧
        (_get_config_maybe_task_return
          { result_dict := result_dict
            gcp_data := some { n_ifaces_pending := 0, error := none, success := false }
            iface_datas := []
            inflight := []
            cancelled := false
            log := [Action.poll_get list_req] } (some x)).iface_datas = [] ∧
        ∀ p, dec_count (_get_config_maybe_task_return
          { result_dict := result_dict
            gcp_data := some { n_ifaces_pending := 0, error := none, success := false }
            iface_datas := []
            inflight := []
            cancelled := false
            log := [Action.poll_get list_req] } (some x)).log p = 0 := by
      intro x
      rw [maybe_task_return_eq _ { n_ifaces_pending := 0, error := none, success := false } _ rfl]
      simp [finals, Action.is_final, List.filter, dec_count, Action.is_dec_of]
    have hstep : step norm (get_config result_dict) (Event.complete list_req r) =
        _get_net_ifaces_list_cb
          { result_dict := result_dict
            gcp_data := some { n_ifaces_pending := 0, error := none, success := false }
            iface_datas := []
            inflight := []
            cancelled := false
            log := [Action.poll_get list_req] } r := by
      simp [step, get_config, nm_http_client_poll_get, list_req]
    rw [hstep]
    unfold _get_net_ifaces_list_cb
    simp only [err_cond]
    cases he : r.error.isSome with
    | true =>
      simp only [↓reduceIte]
      obtain ⟨x, hx⟩ := Option.isSome_iff_exists.mp he
      rw [hx]
      exact hfail x
    | false =>
      simp only [Bool.false_eq_true, ↓reduceIte]
      cases hs : r.success with
      | false =>
        simp only [Bool.not_false, ↓reduceIte]
        exact hfail _
      | true =>
        have hp : _get_net_ifaces_list_parse r.response = [] := by
          rcases hr with h | h | h
          · rw [he] at h; exact absurd h (by decide)
          · rw [hs] at h; exact absurd h (by decide)
          · exact h
        simp only [Bool.not_true, Bool.false_eq_true, ↓reduceIte, hp, List.length_nil,
          List.map_nil, List.append_nil, ifaces_poll_get]
        exact hfail _
  · rcases hinv with ⟨d, c, hs⟩ | ⟨g, _, hrun⟩ | hdone
    · rw [hs]; simp [get_config, nm_http_client_poll_get]
    · exact hrun.log_ok.no_bad
    · exact hdone.no_bad

theorem get_config_returns_once_witness :
    (run demo_normalize (get_config demo_dict) demo_events).inflight = [] ∧
    (finals (run demo_normalize (get_config demo_dict) demo_events).log).length = 1 ∧
    (∀ p, p < (run demo_normalize (get_config demo_dict) demo_events).iface_datas.length →
      dec_count (run demo_normalize (get_config demo_dict) demo_events).log p = 1) ∧
    (finals (step demo_normalize (get_config demo_dict)
      (Event.complete list_req (get_ok "\n"))).log).length = 1 :=
  ⟨by decide,
   ((get_config_returns_once demo_normalize demo_dict demo_events).2.2.2.1 (by decide)).1,
   ((get_config_returns_once demo_normalize demo_dict demo_events).2.2.2.1 (by decide)).2,
   ((get_config_returns_once demo_normalize demo_dict demo_events).2.2.2.2.2.1 (get_ok "\n")
      (Or.inr (Or.inr (by decide)))).1⟩

/-- C7: in every complete run of get_config in which no forwarded IP validates
(no route is stored) the task is returned with an error, and that error is the
one carried by the latest call of _get_config_maybe_task_return that carried
one. -/
theorem get_config_failure_last_error (norm : List Char → Option (List Char))
    (result_dict : ResultDict) (events : List Event)
    (hidle : (run norm (get_config result_dict) events).inflight = [])
    (hnone : has_store (run norm (get_config result_dict) events).log = false) :
    ∃ e, finals (run norm (get_config result_dict) events).log =
        [Action.task_return_error (some e)] ∧
      last_error (run norm (get_config result_dict) events).log = some e := by
  have hdone := done_of_idle _ (run_inv norm _ events (inv_get_config result_dict)) hidle
  rcases hdone.returned with ⟨_, hs⟩ | ⟨e, hf, _, hl⟩
  · rw [hs] at hnone
    exact absurd hnone (by decide)
  · exact ⟨e, hf, hl⟩

theorem get_config_failure_last_error_witness :
    (run demo_normalize (get_config demo_dict) demo_events_invalid).inflight = [] ∧
    has_store (run demo_normalize (get_config demo_dict) demo_events_invalid).log = false ∧
    ∃ e, finals (run demo_normalize (get_config demo_dict) demo_events_invalid).log =
        [Action.task_return_error (some e)] ∧
      last_error (run demo_normalize (get_config demo_dict) demo_events_invalid).log = some e :=
  ⟨by decide, by decide,
   get_config_failure_last_error demo_normalize demo_dict demo_events_invalid
     (by decide) (by decide)⟩

/-- C6: a forwarded-IP completion that carries an error (a transport error or a
cancellation), or reports success = false, or brings a body that is no valid
IPv4 literal, leaves every record of result_dict (route array, route count and
all) as it was, stores no route, and leaves the success flag of the job as it
was: a job that is still there has the flag it had, and the result mapping is
not returned unless the flag was set before. -/
theorem fip_cb_failure_frame (norm : List Char → Option (List Char)) (s : State)
    (req : Request) (r : GetResult) (hcb : req.callback = Callback.fip_cb)
    (hfail : r.error.isSome = true ∨ r.success = false ∨
      nm_utils_ipaddr_valid AF_INET (c_str r.response) = false) :
    (step norm s (Event.complete req r)).result_dict = s.result_dict ∧
    (step norm s (Event.complete req r)).log.filter Action.is_store =
      s.log.filter Action.is_store ∧
    (∀ g', (step norm s (Event.complete req r)).gcp_data = some g' →
      ∃ g, s.gcp_data = some g ∧ g'.success = g.success) ∧
    (∀ d, Action.task_return_pointer d ∈ (step norm s (Event.complete req r)).log →
      Action.task_return_pointer d ∈ s.log ∨ ∃ g, s.gcp_data = some g ∧ g.success = true) := by
  by_cases hmem : req ∈ s.inflight
  · rw [step_fip norm s req r hmem hcb]
    have ht := fip_cb_fail_tail (s.take req) req.user_data r hfail
    obtain ⟨acts, hl, ha⟩ := ht.log
    refine ⟨ht.dict, ?_, ht.success, ht.pointer⟩
    rw [hl]
    exact filter_store_tail _ _ ha
  · rw [step_not_mem norm s req r hmem]
    exact ⟨rfl, rfl, fun g' hg' => ⟨g', hg', rfl⟩, fun d hd => Or.inl hd⟩

theorem fip_cb_failure_frame_witness :
    (net_req "0/forwarded-ips/1" Callback.fip_cb 0).callback = Callback.fip_cb ∧
    (get_ok "not-an-ip").success = true ∧
    nm_utils_ipaddr_valid AF_INET (c_str (get_ok "not-an-ip").response) = false ∧
    net_req "0/forwarded-ips/1" Callback.fip_cb 0 ∈
      (run demo_normalize (get_config demo_dict) demo_events_two_fips).inflight ∧
    (step demo_normalize (run demo_normalize (get_config demo_dict) demo_events_two_fips)
      (Event.complete (net_req "0/forwarded-ips/1" Callback.fip_cb 0)
        (get_ok "not-an-ip"))).result_dict =
      (run demo_normalize (get_config demo_dict) demo_events_two_fips).result_dict :=
  ⟨by decide, by decide, by decide, by decide,
   (fip_cb_failure_frame demo_normalize
      (run demo_normalize (get_config demo_dict) demo_events_two_fips)
      (net_req "0/forwarded-ips/1" Callback.fip_cb 0) (get_ok "not-an-ip") rfl
      (Or.inr (Or.inr (by decide)))).1⟩

/-- What the completion of an outstanding forwarded-IP GET that succeeded with a
body that is a valid IPv4 literal `a` does in a state that a run of get_config
reaches: the statement routes_arr[iproutes_len] = route with the route to
`a`/32 without next hop, with metric 100 and the attribute type = "local", and the
increment of iproutes_len. When iproutes_len is below the number of slots of
the array, the route is the new element and the other elements are as they
were; when it is not, the array is as it was and the store went behind it.
The other records stay as they were, the record gets the interface index of
the pipeline, and the success flag of the job is set. -/
theorem fip_cb_stores_route (norm : List Char → Option (List Char))
    (result_dict : ResultDict) (events : List Event) (req : Request) (r : GetResult)
    (hmem : req ∈ (run norm (get_config result_dict) events).inflight)
    (hcb : req.callback = Callback.fip_cb)
    (herr : r.error = none) (hsucc : r.success = true)
    (hvalid : nm_utils_ipaddr_valid AF_INET (c_str r.response) = true) :
    ∃ d hw cfg arr cfg' arr',
      (run norm (get_config result_dict) events).iface_data req.user_data = some d ∧
      d.iface_get_config = some hw ∧
      g_hash_table_lookup (run norm (get_config result_dict) events).result_dict hw = some cfg ∧
      cfg.iproutes_arr = some arr ∧
      g_hash_table_lookup
        (step norm (run norm (get_config result_dict) events)
          (Event.complete req r)).result_dict hw = some cfg' ∧
      cfg'.iproutes_arr = some arr' ∧
      cfg'.iproutes_len = cfg.iproutes_len + 1 ∧
      arr' = arr.store cfg.iproutes_len (some
        { family := AF_INET, dest := c_str r.response, plen := 32, next_hop := none,
          metric := 100, attributes := [("type", "local")] }) ∧
      (cfg.iproutes_len < arr.slots.length →
        arr'.get cfg.iproutes_len = some
          { family := AF_INET, dest := c_str r.response, plen := 32, next_hop := none,
            metric := 100, attributes := [("type", "local")] }) ∧
      (arr.slots.length ≤ cfg.iproutes_len → arr'.slots = arr.slots) ∧
      (∀ i, i ≠ cfg.iproutes_len → arr'.get i = arr.get i) ∧
      cfg'.iface_idx = d.iface_idx ∧
      (∀ k, k ≠ hw →
        g_hash_table_lookup
          (step norm (run norm (get_config result_dict) events)
            (Event.complete req r)).result_dict k =
        g_hash_table_lookup (run norm (get_config result_dict) events).result_dict k) ∧
      (step norm (run norm (get_config result_dict) events)
          (Event.complete req r)).log.filter Action.is_store =
        (run norm (get_config result_dict) events).log.filter Action.is_store ++
          [Action.route_store hw cfg.iproutes_len (some
            { family := AF_INET, dest := c_str r.response, plen := 32, next_hop := none,
              metric := 100, attributes := [("type", "local")] })] ∧
      ((∃ g', (step norm (run norm (get_config result_dict) events)
            (Event.complete req r)).gcp_data = some g' ∧ g'.success = true) ∨
        finals (step norm (run norm (get_config result_dict) events)
            (Event.complete req r)).log =
          [Action.task_return_pointer
            (step norm (run norm (get_config result_dict) events)
              (Event.complete req r)).result_dict]) := by
  have hinv := run_inv norm _ events (inv_get_config result_dict)
  have hinv' := step_inv norm _ (Event.complete req r) hinv
  generalize run norm (get_config result_dict) events = s at hmem hinv hinv' ⊢
  rcases hinv with ⟨d0, c, hs⟩ | ⟨g, hg, hrun⟩ | hdone
  · subst hs
    have hreq : req = list_req := by
      simpa [get_config, nm_http_client_poll_get, list_req] using hmem
    rw [hreq] at hcb
    simp [list_req] at hcb
  · obtain ⟨d, hw, cfg, arr, hd, hhw, hcfg, harr, _, _, _⟩ :=
      (running_take_fip s g req hrun hmem hcb).fip
    have heq := fip_cb_valid_eq (s.take req) g req.user_data r d hw cfg arr hg hd hhw hcfg harr
      herr hsucc hvalid
    rw [step_fip norm s req r hmem hcb] at hinv' ⊢
    rw [heq] at hinv' ⊢
    have ht := tail_iface_done
      { s.take req with
        result_dict := (s.take req).result_dict.assign hw
          { iface_idx := d.iface_idx
            iproutes_arr := some (arr.store cfg.iproutes_len
              (some (local_route (c_str r.response))))
            iproutes_len := cfg.iproutes_len + 1 }
        gcp_data := some { g with success := true }
        log := (s.take req).log ++ [Action.route_store hw cfg.iproutes_len
          (some (local_route (c_str r.response)))] }
      req.user_data (nm_ip_route_new AF_INET (c_str r.response) 32 none 100).2
    generalize iface_done _ _ _ = s' at hinv' ht ⊢
    obtain ⟨acts, hl, ha⟩ := ht.log
    have hdict : s'.result_dict = s.result_dict.assign hw
        { iface_idx := d.iface_idx
          iproutes_arr := some (arr.store cfg.iproutes_len
            (some (local_route (c_str r.response))))
          iproutes_len := cfg.iproutes_len + 1 } := ht.dict
    have hlog : s'.log = s.log ++ [Action.route_store hw cfg.iproutes_len
        (some (local_route (c_str r.response)))] ++ acts := hl
    have hstore : has_store s'.log = true := by
      rw [hlog]
      simp [has_store, Action.is_store]
    refine ⟨d, hw, cfg, arr,
      { iface_idx := d.iface_idx
        iproutes_arr := some (arr.store cfg.iproutes_len
          (some (local_route (c_str r.response))))
        iproutes_len := cfg.iproutes_len + 1 },
      arr.store cfg.iproutes_len (some (local_route (c_str r.response))),
      hd, hhw, hcfg, harr, ?_, rfl, rfl, rfl, ?_, ?_, ?_, rfl, ?_, ?_, ?_⟩
    · rw [hdict, lookup_assign]
      have hc : g_hash_table_lookup s.result_dict hw = some cfg := hcfg
      simp [hc]
    · intro hlt
      exact store_get_self _ _ _ hlt
    · intro hge
      have : ¬ cfg.iproutes_len < arr.slots.length := by omega
      simp [NMIPRouteArr.store, this]
    · intro i hi
      exact store_get_ne _ _ _ _ hi
    · intro k hk
      rw [hdict, lookup_assign]
      simp [hk]
    · rw [hlog, filter_store_tail _ _ ha, List.filter_append]
      simp [Action.is_store, local_route, NM_IP_ROUTE_ATTRIBUTE_TYPE, List.filter]
    · rcases hinv' with ⟨d1, c1, hs1⟩ | ⟨g', hg', hrun'⟩ | hdone'
      · rw [hs1] at hstore
        simp [get_config, nm_http_client_poll_get, has_store, Action.is_store] at hstore
      · exact Or.inl ⟨g', hg', hrun'.log_ok.success_iff.mpr hstore⟩
      · rcases hdone'.returned with ⟨hf, _⟩ | ⟨e, _, hns, _⟩
        · exact Or.inr hf
        · rw [hstore] at hns
          exact absurd hns (by decide)
  · rw [hdone.idle] at hmem
    simp at hmem

/-- C9: assume that every GET that completes after the cancellable of the job
was cancelled completes with a cancellation error. If the cancellable is
cancelled in a state of a run in which the job has not been returned and its
success flag is unset, then once nothing is outstanding the task has been
returned with a cancellation error (and so not with the result mapping). -/
theorem cancel_before_success_is_final (norm : List Char → Option (List Char))
    (result_dict : ResultDict) (before later : List Event)
    (halive : ∃ g, (run norm (get_config result_dict) before).gcp_data = some g ∧
      g.success = false)
    (hcancel : ∀ req r, Event.complete req r ∈ later →
      nm_utils_error_is_cancelled r.error = true)
    (hidle : (run norm (step norm (run norm (get_config result_dict) before) Event.cancel)
      later).inflight = []) :
    ∃ e, e.cancelled = true ∧
      finals (run norm (step norm (run norm (get_config result_dict) before) Event.cancel)
        later).log = [Action.task_return_error (some e)] := by
  have hinv := run_inv norm _ before (inv_get_config result_dict)
  obtain ⟨g, hg, hs⟩ := halive
  have hstart : AfterCancel (step norm (run norm (get_config result_dict) before)
      Event.cancel) := by
    refine ⟨step_inv norm _ _ hinv, ?_, ?_⟩
    · show has_store (run norm (get_config result_dict) before).log = false
      rcases hinv with ⟨d, c, hs0⟩ | ⟨g', hg', hrun⟩ | hdone
      · rw [hs0]; rfl
      · rw [hg] at hg'
        simp only [Option.some.injEq] at hg'
        subst hg'
        cases hh : has_store (run norm (get_config result_dict) before).log with
        | false => rfl
        | true =>
          have := hrun.log_ok.success_iff.mpr hh
          rw [hs] at this
          exact absurd this (by decide)
      · rw [hdone.freed] at hg
        simp at hg
    · intro hnone
      have : (run norm (get_config result_dict) before).gcp_data = none := hnone
      rw [hg] at this
      simp at this
  obtain ⟨hinv2, hstore2, hfin2⟩ := after_cancel_run norm _ later hstart hcancel
  have hdone := done_of_idle _ hinv2 hidle
  obtain ⟨e, hl, hc⟩ := hfin2 hdone.freed
  rcases hdone.returned with ⟨_, hst⟩ | ⟨e', hf, _, hl'⟩
  · rw [hstore2] at hst
    exact absurd hst (by decide)
  · rw [hl] at hl'
    simp only [Option.some.injEq] at hl'
    subst hl'
    exact ⟨e, hc, hf⟩

theorem cancel_before_success_is_final_witness :
    (∃ g, (run demo_normalize (get_config demo_dict) demo_events_two_fips).gcp_data = some g ∧
      g.success = false) ∧
    ∃ e, e.cancelled = true ∧
      finals (run demo_normalize
        (step demo_normalize (run demo_normalize (get_config demo_dict) demo_events_two_fips)
          Event.cancel) demo_events_cancelled).log = [Action.task_return_error (some e)] :=
  ⟨⟨{ n_ifaces_pending := 1, error := none, success := false }, by decide, rfl⟩,
   cancel_before_success_is_final demo_normalize demo_dict demo_events_two_fips
     demo_events_cancelled
     ⟨{ n_ifaces_pending := 1, error := none, success := false }, by decide, rfl⟩
     (by
       intro req r h
       simp only [demo_events_cancelled, List.mem_cons, Event.complete.injEq,
         List.mem_singleton, List.not_mem_nil, or_false] at h
       rcases h with ⟨_, rfl⟩ | ⟨_, rfl⟩ <;> rfl)
     (by decide)⟩

/-- C8, as stated, fails: in the first run the finalize check is called with
the cancellation error and the task is returned with the result mapping,
because a route had been stored; in the second run the cancellation error is
recorded and the task is returned with the transport error that came later. -/
theorem cancellation_has_no_precedence :
    (Action.maybe_task_return (some cancelled_error) ∈
        (run demo_normalize (get_config demo_dict) demo_events_stored_then_cancelled).log ∧
      finals (run demo_normalize (get_config demo_dict) demo_events_stored_then_cancelled).log =
        [Action.task_return_pointer
          (run demo_normalize (get_config demo_dict)
            demo_events_stored_then_cancelled).result_dict]) ∧
    (Action.maybe_task_return (some cancelled_error) ∈
        (run demo_normalize (get_config demo_dict) demo_events_cancelled_then_timeout).log ∧
      finals (run demo_normalize (get_config demo_dict) demo_events_cancelled_then_timeout).log =
        [Action.task_return_error (some timeout_error)]) := by
  decide

/-- C8, amended: in every complete run of get_config the task is returned with
a cancellation error if and only if no route was stored during the run and the
latest call of _get_config_maybe_task_return that carried an error carried a
cancellation error. -/
theorem cancellation_final_iff (norm : List Char → Option (List Char))
    (result_dict : ResultDict) (events : List Event)
    (hidle : (run norm (get_config result_dict) events).inflight = []) :
    (∃ e, e.cancelled = true ∧
      finals (run norm (get_config result_dict) events).log =
        [Action.task_return_error (some e)]) ↔
    (has_store (run norm (get_config result_dict) events).log = false ∧
      ∃ e, e.cancelled = true ∧
        last_error (run norm (get_config result_dict) events).log = some e) := by
  have hdone := done_of_idle _ (run_inv norm _ events (inv_get_config result_dict)) hidle
  rcases hdone.returned with ⟨hf, hs⟩ | ⟨e, hf, hs, hl⟩
  · constructor
    · rintro ⟨e, _, he⟩
      rw [hf] at he
      simp at he
    · rintro ⟨h, _⟩
      rw [hs] at h
      exact absurd h (by decide)
  · constructor
    · rintro ⟨e', hc, he⟩
      rw [hf] at he
      simp only [List.cons.injEq, Action.task_return_error.injEq, Option.some.injEq,
        and_true] at he
      subst he
      exact ⟨hs, e, hc, hl⟩
    · rintro ⟨_, e', hc, he⟩
      rw [hl] at he
      simp only [Option.some.injEq] at he
      subst he
      exact ⟨e, hc, hf⟩

theorem cancellation_final_iff_witness :
    (run demo_normalize (get_config demo_dict)
      (demo_events_two_fips ++ demo_events_cancelled)).inflight = [] ∧
    ((∃ e, e.cancelled = true ∧
      finals (run demo_normalize (get_config demo_dict)
        (demo_events_two_fips ++ demo_events_cancelled)).log =
        [Action.task_return_error (some e)]) ↔
    (has_store (run demo_normalize (get_config demo_dict)
        (demo_events_two_fips ++ demo_events_cancelled)).log = false ∧
      ∃ e, e.cancelled = true ∧
        last_error (run demo_normalize (get_config demo_dict)
          (demo_events_two_fips ++ demo_events_cancelled)).log = some e)) :=
  ⟨by decide,
   cancellation_final_iff demo_normalize demo_dict
     (demo_events_two_fips ++ demo_events_cancelled) (by decide)⟩

/-- C3, evaluated: for the listing "10/", "2/" the code starts the pipelines of
the interfaces 10 and 20, where the records parsed one by one give 10 and 2:
g_string_overwrite_len leaves the tail of the previous token in gstr. -/
theorem net_ifaces_list_stale_token :
    _get_net_ifaces_list_parse "10/\n2/\n".data = [10, 20] ∧
    ifaces_list_by_record "10/\n2/\n".data = [10, 2] ∧
    gets (step demo_normalize (get_config demo_dict)
      (Event.complete list_req (get_ok "10/\n2/\n"))).log =
      [Action.poll_get list_req,
       Action.poll_get (net_req "10/mac" Callback.iface_cb 0),
       Action.poll_get (net_req "20/mac" Callback.iface_cb 1)] := by
  decide

/-- C4, as stated, fails: a last record without a newline is a record when the
body is split at the newlines, and the loop does not see it. -/
theorem ips_list_unterminated_record :
    _get_config_ips_list_parse "3".data = [] ∧ ips_list_by_split "3".data = [3] ∧
    _get_config_ips_list_parse "1\n2".data = [1] ∧ ips_list_by_split "1\n2".data = [1, 2] := by
  decide

/-- C4, amended: in every state that a run of get_config reaches, the completion
of an outstanding forwarded-IP listing that was fetched issues exactly one GET
for each newline-terminated line of the body that parses to a non-negative
index, in order, for the path "{idx}/forwarded-ips/{fip_idx}" below
/network-interfaces/, and nothing else; and when there is such a line it sets
n_fips_pending to their number. -/
theorem ips_list_cb_issues_gets (norm : List Char → Option (List Char))
    (result_dict : ResultDict) (events : List Event) (req : Request) (r : GetResult)
    (hmem : req ∈ (run norm (get_config result_dict) events).inflight)
    (hcb : req.callback = Callback.ips_list_cb)
    (herr : r.error = none) (hsucc : r.success = true) :
    ∃ d, (run norm (get_config result_dict) events).iface_data req.user_data = some d ∧
      gets (step norm (run norm (get_config result_dict) events) (Event.complete req r)).log =
        gets (run norm (get_config result_dict) events).log ++
          (fip_gets d.iface_idx req.user_data (ips_list_by_lines r.response)).map
            Action.poll_get ∧
      (step norm (run norm (get_config result_dict) events) (Event.complete req r)).inflight =
        (run norm (get_config result_dict) events).inflight.erase req ++
          fip_gets d.iface_idx req.user_data (ips_list_by_lines r.response) ∧
      (ips_list_by_lines r.response ≠ [] →
        (step norm (run norm (get_config result_dict) events)
          (Event.complete req r)).iface_data req.user_data =
          some { d with n_fips_pending := (ips_list_by_lines r.response).length }) := by
  have hinv := run_inv norm _ events (inv_get_config result_dict)
  generalize run norm (get_config result_dict) events = s at hmem hinv ⊢
  rcases hinv with ⟨d0, c, hs⟩ | ⟨g, hg, hrun⟩ | hdone
  · subst hs
    have hreq : req = list_req := by
      simpa [get_config, nm_http_client_poll_get, list_req] using hmem
    rw [hreq] at hcb
    simp [list_req] at hcb
  · obtain ⟨_, d, hw, hd, hhw, hsome⟩ := running_take_ips s g req hrun hmem hcb
    rw [step_ips_list norm s req r hmem hcb]
    have h := ips_list_cb_ok (s.take req) g req.user_data r d hw hg hd hhw hsome herr hsucc
    rw [ips_list_parse_eq] at h
    exact ⟨d, hd, h⟩
  · rw [hdone.idle] at hmem
    simp at hmem

theorem ips_list_cb_issues_gets_witness :
    ∃ d, (run demo_normalize (get_config demo_dict)
        (demo_events_two_fips.take 2)).iface_data 0 = some d ∧
      gets (step demo_normalize (run demo_normalize (get_config demo_dict)
          (demo_events_two_fips.take 2))
        (Event.complete (net_req "0/forwarded-ips/" Callback.ips_list_cb 0)
          (get_ok "1\nx\n2\n3"))).log =
        gets (run demo_normalize (get_config demo_dict) (demo_events_two_fips.take 2)).log ++
          (fip_gets d.iface_idx 0 [1, 2]).map Action.poll_get := by
  obtain ⟨d, h1, h2, _⟩ :=
    ips_list_cb_issues_gets demo_normalize demo_dict (demo_events_two_fips.take 2)
      (net_req "0/forwarded-ips/" Callback.ips_list_cb 0) (get_ok "1\nx\n2\n3")
      (by decide) (by decide) (by decide) (by decide)
  exact ⟨d, h1, h2⟩

/-- C10, evaluated: the listing has two records, x0 and a lone minus sign, each
followed by a slash. Both are unparsable on their own, and yet the code starts
the pipeline of interface 0 and does not return the task: the minus sign is
written over the first byte of the stale "x0". -/
theorem net_ifaces_list_stale_start :
    ifaces_list_by_record "x0/\n-/\n".data = [] ∧
    gets (step demo_normalize (get_config demo_dict)
      (Event.complete list_req (get_ok "x0/\n-/\n"))).log =
      [Action.poll_get list_req, Action.poll_get (net_req "0/mac" Callback.iface_cb 0)] ∧
    finals (step demo_normalize (get_config demo_dict)
      (Event.complete list_req (get_ok "x0/\n-/\n"))).log = [] := by
  decide

/-- C16: for every completion of the detection GET the callback returns the task
exactly once: with the cancellation error itself if the error of the fetch is a
cancellation; else, if the fetch raised an error, with an error whose message
is "failure to get GCP metadata: " followed by the message of that error; else,
if the fetch reported success = false, with the error "failure to detect GCP
metadata"; else with the boolean TRUE. So detection succeeds if and only if the
fetch raised no error and reported success. -/
theorem detect_done_returns_once (r : GetResult) :
    (_detect_get_meta_data_done_cb r).length = 1 ∧
    (∀ e, r.error = some e → e.cancelled = true →
      _detect_get_meta_data_done_cb r = [TaskReturn.error (some e)]) ∧
    (∀ e, r.error = some e → e.cancelled = false →
      _detect_get_meta_data_done_cb r =
        [TaskReturn.error (some
          { cancelled := false, message := "failure to get GCP metadata: " ++ e.message })]) ∧
    (r.error = none → r.success = false →
      _detect_get_meta_data_done_cb r =
        [TaskReturn.error (some
          { cancelled := false, message := "failure to detect GCP metadata" })]) ∧
    (r.error = none → r.success = true →
      _detect_get_meta_data_done_cb r = [TaskReturn.boolean true]) ∧
    (_detect_get_meta_data_done_cb r = [TaskReturn.boolean true] ↔
      r.error = none ∧ r.success = true) := by
  obtain ⟨success, response, error⟩ := r
  cases error with
  | none =>
    cases success <;>
      simp [_detect_get_meta_data_done_cb, nm_utils_error_is_cancelled, nm_utils_error_new]
  | some e =>
    obtain ⟨c, m⟩ := e
    cases c <;>
      simp [_detect_get_meta_data_done_cb, nm_utils_error_is_cancelled, nm_utils_error_new]

theorem detect_done_returns_once_witness :
    _detect_get_meta_data_done_cb (get_error cancelled_error) =
      [TaskReturn.error (some cancelled_error)] ∧
    _detect_get_meta_data_done_cb (get_error timeout_error) =
      [TaskReturn.error (some
        { cancelled := false, message := "failure to get GCP metadata: timeout expired" })] ∧
    _detect_get_meta_data_done_cb { success := false, response := [], error := none } =
      [TaskReturn.error (some
        { cancelled := false, message := "failure to detect GCP metadata" })] ∧
    _detect_get_meta_data_done_cb (get_ok "1234567890") = [TaskReturn.boolean true] :=
  ⟨(detect_done_returns_once (get_error cancelled_error)).2.1 cancelled_error rfl rfl,
   (detect_done_returns_once (get_error timeout_error)).2.2.1 timeout_error rfl rfl,
   (detect_done_returns_once { success := false, response := [], error := none }).2.2.2.1 rfl rfl,
   (detect_done_returns_once (get_ok "1234567890")).2.2.2.2.1 rfl rfl⟩

theorem ips_list_loop_searches (fuel : Nat) (line_start : List Char) (response_len : Nat)
    (uri_arr : List Int) (hfuel : line_start.length < fuel) :
    _get_config_ips_list_loop fuel line_start response_len uri_arr =
      some ((_get_config_ips_list_searches fuel line_start response_len).foldl
        _get_config_ips_list_line uri_arr) := by
  induction fuel generalizing line_start response_len uri_arr with
  | zero => omega
  | succ n ih =>
    unfold _get_config_ips_list_loop _get_config_ips_list_searches
    by_cases hpos : 0 < response_len
    · simp only [hpos, ↓reduceIte, List.foldl_cons]
      cases hm : memchr line_start '\n' response_len with
      | none => simp [_get_config_ips_list_line, hm]
      | some k =>
        obtain ⟨_, _, hsplit⟩ := memchr_some _ _ _ _ hm
        have hlk : k < line_start.length := by
          have := congrArg List.length hsplit
          simp at this
          omega
        have hdrop : (line_start.drop (k + 1)).length < n := by
          simp
          omega
        simp only [_get_config_ips_list_line, hm]
        split
        · exact ih _ _ _ hdrop
        · exact ih _ _ _ hdrop
    · simp [hpos]

theorem ifaces_list_loop_searches (fuel : Nat) (line_start : List Char) (response_len : Nat)
    (gstr : List Char) (ifaces_arr : List Int) (hfuel : line_start.length < fuel) :
    _get_net_ifaces_list_loop fuel line_start response_len gstr ifaces_arr =
      some ((_get_net_ifaces_list_searches fuel line_start response_len).foldl
        _get_net_ifaces_list_line (gstr, ifaces_arr)) := by
  induction fuel generalizing line_start response_len gstr ifaces_arr with
  | zero => omega
  | succ n ih =>
    unfold _get_net_ifaces_list_loop _get_net_ifaces_list_searches
    by_cases hpos : 0 < response_len
    · simp only [hpos, ↓reduceIte, List.foldl_cons]
      cases hm : memchr line_start '\n' response_len with
      | none => simp [_get_net_ifaces_list_line, hm]
      | some k =>
        obtain ⟨_, _, hsplit⟩ := memchr_some _ _ _ _ hm
        have hlk : k < line_start.length := by
          have := congrArg List.length hsplit
          simp at this
          omega
        have hdrop : (line_start.drop (k + 1)).length < n := by
          simp
          omega
        simp only [_get_net_ifaces_list_line, hm]
        cases ht : memchr line_start '/' k with
        | none => exact ih _ _ _ _ hdrop
        | some token_end =>
          simp only
          split
          · exact ih _ _ _ _ hdrop
          · exact ih _ _ _ _ hdrop
    · simp [hpos]

/-- C19, evaluated: after the first line response_len is larger than what is
left of the body. For the forwarded-IP listing with the lines 1 and 2 the
second iteration starts with 2 bytes left and response_len 3, and the search
that ends the loop gets length 2 with no byte left; for the interface listing
with the lines "0/" and "1/" the second iteration starts with 3 bytes left and
response_len 7, and the last search gets length 8 with no byte left. The
searches are those of the loops: the loops give what their bodies collect
search by search. -/
theorem response_len_exceeds_rest :
    search_lengths (_get_config_ips_list_searches 5 "1\n2\n".data 4) =
      [(4, 4), (2, 3), (0, 2)] ∧
    search_lengths (_get_net_ifaces_list_searches 7 "0/\n1/\n".data 6) =
      [(6, 6), (3, 7), (0, 8)] ∧
    _get_config_ips_list_loop 5 "1\n2\n".data 4 [] =
      some ((_get_config_ips_list_searches 5 "1\n2\n".data 4).foldl
        _get_config_ips_list_line []) ∧
    _get_net_ifaces_list_loop 7 "0/\n1/\n".data 6 [] [] =
      some ((_get_net_ifaces_list_searches 7 "0/\n1/\n".data 6).foldl
        _get_net_ifaces_list_line ([], [])) := by
  decide

/-- C14, evaluated: when two interface indices resolve to one hardware address,
the completion of the second forwarded-IP listing puts a fresh zeroed array
into the record and keeps the count: the route that the first pipeline stored
at position 0 is no longer there. -/
theorem second_listing_drops_routes :
    shared_list_second ∈
      (run demo_normalize (get_config demo_dict) shared_events_first_done).inflight.map
        (fun req => Event.complete req (get_ok "1\n")) ∧
    routes_under (run demo_normalize (get_config demo_dict) shared_events_first_done)
      "42:01:0a:00:00:02" = [some (local_route "10.0.0.5".data)] ∧
    routes_under
      (step demo_normalize (run demo_normalize (get_config demo_dict) shared_events_first_done)
        shared_list_second)
      "42:01:0a:00:00:02" = [none] := by
  decide

/-- C5, evaluated: when two interface indices resolve to one hardware address, a
forwarded-IP completion that succeeded with the valid address 10.0.0.6 finds
the record with a one-slot array and iproutes_len = 1. It counts a second
route (iproutes_len = 2), but the array of the record is as it was: its one
slot is empty, the route to 10.0.0.6 is in no slot, and the store went to
index 1, behind the array. -/
theorem valid_fip_lands_behind_array :
    (get_ok "10.0.0.6").error = none ∧ (get_ok "10.0.0.6").success = true ∧
    nm_utils_ipaddr_valid AF_INET (c_str (get_ok "10.0.0.6").response) = true ∧
    net_req "1/forwarded-ips/1" Callback.fip_cb 1 ∈
      (run demo_normalize (get_config demo_dict)
        (shared_events_first_done ++ [shared_list_second])).inflight ∧
    (g_hash_table_lookup
      (run demo_normalize (get_config demo_dict)
        (shared_events_first_done ++ [shared_list_second])).result_dict
      "42:01:0a:00:00:02".data).map
        (fun cfg => (cfg.iproutes_len, cfg.iproutes_arr.map (fun arr => arr.slots))) =
      some (1, some [none]) ∧
    (g_hash_table_lookup
      (run demo_normalize (get_config demo_dict)
        (shared_events_first_done ++ [shared_list_second, shared_fip_second])).result_dict
      "42:01:0a:00:00:02".data).map
        (fun cfg => (cfg.iproutes_len, cfg.iproutes_arr.map (fun arr => arr.slots))) =
      some (2, some [none]) ∧
    (g_hash_table_lookup
      (run demo_normalize (get_config demo_dict)
        (shared_events_first_done ++ [shared_list_second, shared_fip_second])).result_dict
      "42:01:0a:00:00:02".data).map
        (fun cfg => cfg.iproutes_arr.map (fun arr => arr.behind.map (fun e => e.1))) =
      some (some [1]) := by
  decide

/-- C18, evaluated: when two interface indices resolve to one hardware address,
the forwarded IP of the second pipeline is stored at index 1 of an array that
has one slot. -/
theorem second_pipeline_stores_past_array :
    g_hash_table_lookup
      (run demo_normalize (get_config demo_dict)
        (shared_events_first_done ++ [shared_list_second])).result_dict
      "42:01:0a:00:00:02".data =
      some { iface_idx := 0, iproutes_arr := some { slots := [none], behind := [] },
             iproutes_len := 1 } ∧
    net_req "1/forwarded-ips/1" Callback.fip_cb 1 ∈
      (run demo_normalize (get_config demo_dict)
        (shared_events_first_done ++ [shared_list_second])).inflight ∧
    (step demo_normalize
      (run demo_normalize (get_config demo_dict)
        (shared_events_first_done ++ [shared_list_second]))
      shared_fip_second).log.filter Action.is_store =
      [Action.route_store "42:01:0a:00:00:02".data 0 (some (local_route "10.0.0.5".data)),
       Action.route_store "42:01:0a:00:00:02".data 1 (some (local_route "10.0.0.6".data))] ∧
    g_hash_table_lookup
      (step demo_normalize
        (run demo_normalize (get_config demo_dict)
          (shared_events_first_done ++ [shared_list_second]))
        shared_fip_second).result_dict
      "42:01:0a:00:00:02".data =
      some { iface_idx := 1,
             iproutes_arr := some
               { slots := [none], behind := [(1, some (local_route "10.0.0.6".data))] },
             iproutes_len := 2 } := by
  decide

/-- C15, evaluated: against one state of the metadata service and one local
mapping, two complete runs that differ in the completion order of sibling GETs
both succeed, and the record of the local interface ends with different routes:
one run leaves an empty element and the route of interface 1, the other the
routes of both interfaces. -/
theorem completion_order_changes_routes :
    shared_order_early.Perm shared_order_late ∧
    (run demo_normalize (get_config demo_dict)
      (shared_order_early.map (served shared_service))).inflight = [] ∧
    (run demo_normalize (get_config demo_dict)
      (shared_order_late.map (served shared_service))).inflight = [] ∧
    finals (run demo_normalize (get_config demo_dict)
      (shared_order_early.map (served shared_service))).log =
      [Action.task_return_pointer (run demo_normalize (get_config demo_dict)
        (shared_order_early.map (served shared_service))).result_dict] ∧
    finals (run demo_normalize (get_config demo_dict)
      (shared_order_late.map (served shared_service))).log =
      [Action.task_return_pointer (run demo_normalize (get_config demo_dict)
        (shared_order_late.map (served shared_service))).result_dict] ∧
    routes_under (run demo_normalize (get_config demo_dict)
      (shared_order_early.map (served shared_service))) "42:01:0a:00:00:02" =
      [none, some (local_route "10.0.0.6".data)] ∧
    routes_under (run demo_normalize (get_config demo_dict)
      (shared_order_late.map (served shared_service))) "42:01:0a:00:00:02" =
      [some (local_route "10.0.0.5".data), some (local_route "10.0.0.6".data)] ∧
    (run demo_normalize (get_config demo_dict)
      (shared_order_early.map (served shared_service))).log.filter Action.is_store =
      [Action.route_store "42:01:0a:00:00:02".data 0 (some (local_route "10.0.0.5".data)),
       Action.route_store "42:01:0a:00:00:02".data 1 (some (local_route "10.0.0.6".data))] := by
  refine ⟨?_, ?_, ?_, ?_, ?_, ?_, ?_, ?_⟩ <;> decide

/-! ## The scenario, for every completion order -/

theorem scenario_step_level (n : Nat) (s : State) (hs : s ∈ scenario_level n)
    (req : Request) :
    step demo_normalize s (served scenario_service req) ∈ scenario_level n ∨
    step demo_normalize s (served scenario_service req) ∈ scenario_level (n + 1) := by
  by_cases h : req ∈ s.inflight
  · right
    simp only [scenario_level, List.mem_flatMap, scenario_successors, List.mem_map]
    exact ⟨s, hs, req, h, rfl⟩
  · left
    rw [served, step_not_mem _ _ _ _ h]
    exact hs

theorem scenario_run_level (reqs : List Request) :
    ∀ (n : Nat) (s : State), s ∈ scenario_level n →
      ∃ m, run demo_normalize s (reqs.map (served scenario_service)) ∈ scenario_level m := by
  induction reqs with
  | nil => intro n s hs; exact ⟨n, hs⟩
  | cons req rest ih =>
    intro n s hs
    simp only [List.map_cons, run, List.foldl_cons]
    rcases scenario_step_level n s hs req with h | h
    · exact ih n _ h
    · exact ih (n + 1) _ h

theorem scenario_level_empty (k : Nat) : scenario_level (6 + k) = [] := by
  induction k with
  | zero => decide
  | succ k ih =>
    show (scenario_level (6 + k)).flatMap scenario_successors = []
    rw [ih]
    rfl

theorem scenario_level_ok (n : Nat) : ∀ s ∈ scenario_level n, scenario_ok s := by
  by_cases h : n < 6
  · interval_cases n <;> decide
  · obtain ⟨k, rfl⟩ : ∃ k, n = 6 + k := ⟨n - 6, by omega⟩
    rw [scenario_level_empty]
    intro s hs
    cases hs

/-- The scenario (listing "0/\n1/\n", interface 0 known locally, interface 1
not, forwarded-IP listing "3\n", forwarded IP "10.0.0.5") when none of the bytes
that the loops search past the end of a body is a newline: whatever the order
of the completions, no error is delivered, and when no GET is outstanding any
more the task has been returned with the result, in which the record of
interface 0 has interface index 0 and the one route 10.0.0.5/32, local, metric
100, and the other record has no route. -/
theorem scenario_one_route (reqs : List Request)
    (hdone : (run demo_normalize (get_config scenario_dict)
      (reqs.map (served scenario_service))).inflight = []) :
    scenario_ok (run demo_normalize (get_config scenario_dict)
      (reqs.map (served scenario_service))) ∧
    finals (run demo_normalize (get_config scenario_dict)
      (reqs.map (served scenario_service))).log =
      [Action.task_return_pointer
        [("42:01:0a:00:00:02".data,
          { iface_idx := 0,
            iproutes_arr := some
              { slots := [some { family := AF_INET, dest := "10.0.0.5".data, plen := 32,
                                 next_hop := none, metric := 100,
                                 attributes := [(NM_IP_ROUTE_ATTRIBUTE_TYPE, "local")] }],
                behind := [] },
            iproutes_len := 1 }),
         ("42:01:0a:00:00:09".data,
          { iface_idx := -1, iproutes_arr := none, iproutes_len := 0 })]] := by
  obtain ⟨m, hm⟩ := scenario_run_level reqs 0 (get_config scenario_dict)
    (List.mem_singleton.mpr rfl)
  have hok := scenario_level_ok m _ hm
  refine ⟨hok, ?_⟩
  obtain ⟨hf, hd⟩ := hok.2 hdone
  rw [hf, hd]

theorem scenario_one_route_example :
    (run demo_normalize (get_config scenario_dict)
      (scenario_order.map (served scenario_service))).inflight = [] ∧
    finals (run demo_normalize (get_config scenario_dict)
      (scenario_order.map (served scenario_service))).log =
      [Action.task_return_pointer
        [("42:01:0a:00:00:02".data,
          { iface_idx := 0,
            iproutes_arr := some
              { slots := [some { family := AF_INET, dest := "10.0.0.5".data, plen := 32,
                                 next_hop := none, metric := 100,
                                 attributes := [(NM_IP_ROUTE_ATTRIBUTE_TYPE, "local")] }],
                behind := [] },
            iproutes_len := 1 }),
         ("42:01:0a:00:00:09".data,
          { iface_idx := -1, iproutes_arr := none, iproutes_len := 0 })]] :=
  ⟨by decide, (scenario_one_route scenario_order (by decide)).2⟩

theorem gate_eq (s : State) (g : GCPData) (e : Option GError) (hg : s.gcp_data = some g) :
    _get_config_maybe_task_return s e =
      { s with gcp_data := gate_job g e
               log := s.log ++ Action.maybe_task_return e :: gate_return g s.result_dict e } := by
  rw [maybe_task_return_eq s g e hg]
  unfold gate_job gate_return
  by_cases hn : g.n_ifaces_pending = 0 <;> cases hs : g.success <;> simp [hn]

theorem pipeline_end_eq (s : State) (g : GCPData) (p : Nat) (e : Option GError)
    (hg : s.gcp_data = some g) :
    iface_pipeline_end s p e =
      { s with iface_datas := s.iface_datas.set p none
               gcp_data := gate_job g.dec e
               log := s.log ++ Action.ifaces_pending_dec p g.n_ifaces_pending ::
                 Action.maybe_task_return e :: gate_return g.dec s.result_dict e } := by
  obtain ⟨dict, gd, ifs, infl, c, lg⟩ := s
  simp only at hg
  subst hg
  unfold iface_pipeline_end
  simp only
  rw [gate_eq _ g.dec e rfl]
  simp [GCPData.dec]

theorem iface_done_eq (s : State) (g : GCPData) (p : Nat) (e : Option GError)
    (d : GCPIfaceData) (hg : s.gcp_data = some g) (hd : s.iface_data p = some d) :
    iface_done s p e =
      if guint_dec d.n_fips_pending = 0 then
        { s with iface_datas := s.iface_datas.set p none
                 gcp_data := gate_job g.dec e
                 log := s.log ++ Action.fips_pending_dec p d.n_fips_pending ::
                   Action.ifaces_pending_dec p g.n_ifaces_pending ::
                   Action.maybe_task_return e :: gate_return g.dec s.result_dict e }
      else
        { s with iface_datas := s.iface_datas.set p
                   (some { d with n_fips_pending := guint_dec d.n_fips_pending })
                 log := s.log ++ [Action.fips_pending_dec p d.n_fips_pending] } := by
  obtain ⟨dict, gd, ifs, infl, c, lg⟩ := s
  simp only at hg
  subst hg
  unfold iface_done
  simp only [hd]
  split
  · rw [pipeline_end_eq _ g p e rfl]
    simp
  · rfl

theorem ifaces_list_parse_at_nil (response : List Char) :
    _get_net_ifaces_list_parse_at response [] = _get_net_ifaces_list_parse response := by
  unfold _get_net_ifaces_list_parse_at _get_net_ifaces_list_parse
  rw [List.append_nil]

theorem ifaces_list_cb_start (s : State) (r : GetResult) (herr : r.error = none)
    (hsucc : r.success = true) :
    _get_net_ifaces_list_cb s r =
      _get_net_ifaces_list_start s (_get_net_ifaces_list_parse r.response) := by
  unfold _get_net_ifaces_list_cb _get_net_ifaces_list_start
  cases hg : s.gcp_data with
  | none => rfl
  | some g =>
    simp only [err_cond]
    simp only [herr, hsucc, Option.isSome_none, Bool.false_eq_true, ↓reduceIte, Bool.not_true]

/-- C13, evaluated: the last search of the loop of _get_net_ifaces_list_cb on the
listing "0/\n1/\n" of the scenario has response_len 8 with no byte of the body
left. With the body followed in memory by a NUL, a stale line "0/" and NUL
bytes, the searches of the loop stay inside that memory and the loop collects
the indices 0, 1, 0 instead of 0, 1. The completion of the listing is the
statements after the loop on what the loop collected; with the scenario served
as the claim has it, the job then runs a second pipeline for interface 0: the
task is returned
with the result, in which the record of interface 0 counts two routes, has an
array of one slot that is empty, and has had a store behind the array. -/
theorem scenario_listing_overread :
    _get_net_ifaces_list_parse "0/\n1/\n".data = [0, 1] ∧
    search_lengths (_get_net_ifaces_list_searches 22 ("0/\n1/\n".data ++ scenario_beyond) 6) =
      [(21, 6), (18, 7), (15, 8), (13, 9), (10, 10)] ∧
    _get_net_ifaces_list_parse_at "0/\n1/\n".data scenario_beyond = [0, 1, 0] ∧
    step demo_normalize (get_config scenario_dict)
        (Event.complete list_req (get_ok "0/\n1/\n")) =
      _get_net_ifaces_list_start ((get_config scenario_dict).take list_req)
        (_get_net_ifaces_list_parse "0/\n1/\n".data) ∧
    (run demo_normalize
      (_get_net_ifaces_list_start ((get_config scenario_dict).take list_req)
        (_get_net_ifaces_list_parse_at "0/\n1/\n".data scenario_beyond))
      (scenario_order_three.map (served scenario_service))).inflight = [] ∧
    finals (run demo_normalize
      (_get_net_ifaces_list_start ((get_config scenario_dict).take list_req)
        (_get_net_ifaces_list_parse_at "0/\n1/\n".data scenario_beyond))
      (scenario_order_three.map (served scenario_service))).log =
      [Action.task_return_pointer (run demo_normalize
        (_get_net_ifaces_list_start ((get_config scenario_dict).take list_req)
          (_get_net_ifaces_list_parse_at "0/\n1/\n".data scenario_beyond))
        (scenario_order_three.map (served scenario_service))).result_dict] ∧
    (g_hash_table_lookup (run demo_normalize
      (_get_net_ifaces_list_start ((get_config scenario_dict).take list_req)
        (_get_net_ifaces_list_parse_at "0/\n1/\n".data scenario_beyond))
      (scenario_order_three.map (served scenario_service))).result_dict
      "42:01:0a:00:00:02".data).map
        (fun cfg => (cfg.iproutes_len, cfg.iproutes_arr.map (fun arr => arr.slots),
          cfg.iproutes_arr.map (fun arr => arr.behind.map (fun e => e.1)))) =
      some (2, some [none], some [1]) := by
  refine ⟨?_, ?_, ?_, ?_, ?_, ?_, ?_⟩ <;> decide

/-! ## Failures at interface level -/

theorem set_set_none (l : List (Option GCPIfaceData)) (p : Nat) (x : Option GCPIfaceData) :
    (l.set p x).set p none = l.set p none := by
  simp

theorem iface_cb_fail_eq (norm : List Char → Option (List Char)) (s : State) (g : GCPData)
    (p : Nat) (r : GetResult) (d : GCPIfaceData) (hg : s.gcp_data = some g)
    (hd : s.iface_data p = some d)
    (hfail : r.error.isSome = true ∨ r.success = false ∨
      (norm (c_str r.response)).bind
        (fun h => (g_hash_table_lookup s.result_dict h).map (fun _ => h)) = none) :
    ∃ e, _get_config_iface_cb norm s p r =
      { s with iface_datas := s.iface_datas.set p none
               gcp_data := gate_job g.dec (some e)
               log := s.log ++ Action.ifaces_pending_dec p g.n_ifaces_pending ::
                 Action.maybe_task_return (some e) ::
                 gate_return g.dec s.result_dict (some e) } := by
  obtain ⟨dict, gd, ifs, infl, c, lg⟩ := s
  simp only at hg
  subst hg
  unfold _get_config_iface_cb
  simp only [hd, err_cond]
  cases he : r.error with
  | some e =>
    simp only [Option.isSome_some, ↓reduceIte]
    exact ⟨e, pipeline_end_eq _ g p _ rfl⟩
  | none =>
    simp only [Option.isSome_none, Bool.false_eq_true, ↓reduceIte]
    cases hs : r.success with
    | false =>
      simp only [Bool.not_false, ↓reduceIte]
      exact ⟨_, pipeline_end_eq _ g p _ rfl⟩
    | true =>
      simp only [Bool.not_true, Bool.false_eq_true, ↓reduceIte]
      rcases hfail with h | h | h
      · rw [he] at h; exact absurd h (by decide)
      · rw [hs] at h; exact absurd h (by decide)
      · simp only at h
        simp only [h, Option.isNone_none, ↓reduceIte]
        refine ⟨nm_utils_error_new "no matching hwaddr found for GCP interface", ?_⟩
        rw [pipeline_end_eq _ g p _ rfl]
        simp only [set_set_none]

theorem ips_list_cb_fail_eq (s : State) (g : GCPData)
    (p : Nat) (r : GetResult) (d : GCPIfaceData) (hg : s.gcp_data = some g)
    (hd : s.iface_data p = some d)
    (hfail : r.error.isSome = true ∨ r.success = false ∨
      _get_config_ips_list_parse r.response = []) :
    ∃ e, _get_config_ips_list_cb s p r =
      { s with iface_datas := s.iface_datas.set p none
               gcp_data := gate_job g.dec (some e)
               log := s.log ++ Action.ifaces_pending_dec p g.n_ifaces_pending ::
                 Action.maybe_task_return (some e) ::
                 gate_return g.dec s.result_dict (some e) } := by
  obtain ⟨dict, gd, ifs, infl, c, lg⟩ := s
  simp only at hg
  subst hg
  unfold _get_config_ips_list_cb
  simp only [hd, err_cond]
  cases he : r.error with
  | some e =>
    simp only [Option.isSome_some, ↓reduceIte]
    exact ⟨e, pipeline_end_eq _ g p _ rfl⟩
  | none =>
    simp only [Option.isSome_none, Bool.false_eq_true, ↓reduceIte]
    cases hs : r.success with
    | false =>
      simp only [Bool.not_false, ↓reduceIte]
      exact ⟨_, pipeline_end_eq _ g p _ rfl⟩
    | true =>
      simp only [Bool.not_true, Bool.false_eq_true, ↓reduceIte]
      rcases hfail with h | h | h
      · rw [he] at h; exact absurd h (by decide)
      · rw [hs] at h; exact absurd h (by decide)
      · simp only [h, List.map_nil, List.length_nil, ↓reduceIte]
        refine ⟨nm_utils_error_new "found no forwarded ip", ?_⟩
        rw [pipeline_end_eq _ g p _ rfl]
        simp only [set_set_none]

theorem gate_return_final (g : GCPData) (result_dict : ResultDict) (e : Option GError) :
    ∀ a ∈ gate_return g result_dict e, a.is_final = true := by
  intro a ha
  unfold gate_return at ha
  split_ifs at ha
  · simp at ha
  · simp at ha; subst ha; rfl
  · simp at ha; subst ha; rfl

theorem filter_gate_return (f : Action → Bool) (hf : ∀ a, a.is_final = true → f a = false)
    (g : GCPData) (result_dict : ResultDict) (e : Option GError) :
    (gate_return g result_dict e).filter f = [] := by
  rw [List.filter_eq_nil_iff]
  intro a ha
  simp [hf a (gate_return_final g result_dict e a ha)]

theorem gate_job_some (g : GCPData) (e : Option GError) (g' : GCPData)
    (h : gate_job g e = some g') :
    g'.n_ifaces_pending = g.n_ifaces_pending ∧ g'.success = g.success := by
  unfold gate_job at h
  split_ifs at h
  simp only [Option.some.injEq] at h
  subst h
  exact ⟨rfl, rfl⟩

/-- What the end of pipeline `p` on an error leaves of a state in which the
pipeline was live and had no GET outstanding. -/
theorem pipeline_ended (t s' : State) (g : GCPData) (p : Nat) (e : GError) (d : GCPIfaceData)
    (hd : t.iface_data p = some d) (hpos : 0 < g.n_ifaces_pending)
    (hs' : s' =
      { t with iface_datas := t.iface_datas.set p none
               gcp_data := gate_job g.dec (some e)
               log := t.log ++ Action.ifaces_pending_dec p g.n_ifaces_pending ::
                 Action.maybe_task_return (some e) ::
                 gate_return g.dec t.result_dict (some e) }) :
    s'.inflight = t.inflight ∧
    gets s'.log = gets t.log ∧
    s'.iface_data p = none ∧
    (∀ q, q ≠ p → s'.iface_data q = t.iface_data q) ∧
    s'.log.filter Action.is_ifaces_dec =
      t.log.filter Action.is_ifaces_dec ++ [Action.ifaces_pending_dec p g.n_ifaces_pending] ∧
    (∀ g', s'.gcp_data = some g' →
      g'.n_ifaces_pending + 1 = g.n_ifaces_pending ∧ g'.success = g.success) ∧
    s'.result_dict = t.result_dict ∧
    s'.log.filter Action.is_store = t.log.filter Action.is_store := by
  subst hs'
  have hlen := lt_of_get_some _ _ _ hd
  refine ⟨rfl, ?_, ?_, ?_, ?_, ?_, rfl, ?_⟩
  · simp only [gets, List.filter_append, List.filter_cons, Action.is_poll_get,
      Bool.false_eq_true, ↓reduceIte]
    rw [filter_gate_return Action.is_poll_get (by intro a; cases a <;> simp [Action.is_final, Action.is_poll_get])]
    simp
  · exact iface_data_set_self t _ p none hlen rfl
  · intro q hq
    exact iface_data_set_ne t _ p q none (Ne.symm hq) rfl
  · simp only [List.filter_append, List.filter_cons, Action.is_ifaces_dec,
      Bool.false_eq_true, ↓reduceIte]
    rw [filter_gate_return Action.is_ifaces_dec (by intro a; cases a <;> simp [Action.is_final, Action.is_ifaces_dec])]
  · intro g' hg'
    obtain ⟨h1, h2⟩ := gate_job_some _ _ _ hg'
    simp only [GCPData.dec, guint_dec] at h1 h2
    refine ⟨?_, h2⟩
    rw [h1]
    split <;> omega
  · simp only [List.filter_append, List.filter_cons, Action.is_store,
      Bool.false_eq_true, ↓reduceIte]
    rw [filter_gate_return Action.is_store (by intro a; cases a <;> simp [Action.is_final, Action.is_store])]
    simp

theorem running_of_pipeline_req (s : State) (req : Request) (h : Inv s)
    (hmem : req ∈ s.inflight) (hcb : req.callback ≠ Callback.net_ifaces_list_cb) :
    ∃ g, s.gcp_data = some g ∧ Running s g := by
  rcases h with ⟨d, c, hs⟩ | hrun | hdone
  · subst hs
    have hreq : req = list_req := by
      simpa [get_config, nm_http_client_poll_get, list_req] using hmem
    subst hreq
    exact absurd rfl hcb
  · exact hrun
  · have := hdone.idle
    rw [this] at hmem
    simp at hmem

/-- C11: in every state that a run of get_config reaches, a completion that fails
at interface level (the hardware-address GET or the forwarded-IP listing GET
carries an error or reports success = false, the hardware address is not in the
local mapping, or no forwarded-IP index is parsed) ends that pipeline only:
the completed GET leaves the outstanding ones and none is added, none is
outstanding for the pipeline, its GCPIfaceData is freed, n_ifaces_pending is
decremented once, from a positive value, result_dict and the stored routes are
as they were, the success flag of a job that is still there is as it was, and
the GCPIfaceData of every other pipeline is as it was. -/
theorem iface_failure_ends_pipeline (norm : List Char → Option (List Char))
    (result_dict : ResultDict) (events : List Event) (req : Request) (r : GetResult)
    (s s' : State) (hs : s = run norm (get_config result_dict) events)
    (hs' : s' = step norm s (Event.complete req r))
    (hmem : req ∈ s.inflight)
    (hfail :
      (req.callback = Callback.iface_cb ∧
        (r.error.isSome = true ∨ r.success = false ∨
          (norm (c_str r.response)).bind
            (fun h => (g_hash_table_lookup s.result_dict h).map (fun _ => h)) = none)) ∨
      (req.callback = Callback.ips_list_cb ∧
        (r.error.isSome = true ∨ r.success = false ∨
          _get_config_ips_list_parse r.response = []))) :
    ∃ g, s.gcp_data = some g ∧ 0 < g.n_ifaces_pending ∧
      s'.inflight = s.inflight.erase req ∧
      (s'.pend Callback.iface_cb req.user_data = 0 ∧
        s'.pend Callback.ips_list_cb req.user_data = 0 ∧
        s'.pend Callback.fip_cb req.user_data = 0) ∧
      gets s'.log = gets s.log ∧
      s'.iface_data req.user_data = none ∧
      (∀ q, q ≠ req.user_data → s'.iface_data q = s.iface_data q) ∧
      s'.log.filter Action.is_ifaces_dec =
        s.log.filter Action.is_ifaces_dec ++
          [Action.ifaces_pending_dec req.user_data g.n_ifaces_pending] ∧
      (∀ g', s'.gcp_data = some g' →
        g'.n_ifaces_pending + 1 = g.n_ifaces_pending ∧ g'.success = g.success) ∧
      s'.result_dict = s.result_dict ∧
      s'.log.filter Action.is_store = s.log.filter Action.is_store := by
  have hinv : Inv s := by
    rw [hs]
    exact run_inv norm _ events (inv_get_config result_dict)
  have hne : req.callback ≠ Callback.net_ifaces_list_cb := by
    rcases hfail with ⟨h, _⟩ | ⟨h, _⟩ <;> rw [h] <;> decide
  obtain ⟨g, hg, hrun⟩ := running_of_pipeline_req s req hinv hmem hne
  have hpos : 0 < g.n_ifaces_pending := by
    rw [hrun.pending]
    exact hrun.live_pos
  have key : ∃ (e : GError) (d : GCPIfaceData), (s.take req).iface_data req.user_data = some d ∧
      ((s.take req).pend Callback.iface_cb req.user_data = 0 ∧
        (s.take req).pend Callback.ips_list_cb req.user_data = 0 ∧
        (s.take req).pend Callback.fip_cb req.user_data = 0) ∧
      s' =
      { s.take req with
        iface_datas := (s.take req).iface_datas.set req.user_data none
        gcp_data := gate_job g.dec (some e)
        log := (s.take req).log ++
          Action.ifaces_pending_dec req.user_data g.n_ifaces_pending ::
          Action.maybe_task_return (some e) ::
          gate_return g.dec (s.take req).result_dict (some e) } := by
    rcases hfail with ⟨hcb, hf⟩ | ⟨hcb, hf⟩
    · have hpre := running_take_iface s g req hrun hmem hcb
      obtain ⟨d, hd⟩ := hpre.live
      obtain ⟨e, he⟩ := iface_cb_fail_eq norm (s.take req) g req.user_data r d hg hd hf
      refine ⟨e, d, hd, hpre.quiet, ?_⟩
      rw [hs', step_iface norm s req r hmem hcb, he]
    · obtain ⟨hpre, _⟩ := running_take_ips s g req hrun hmem hcb
      obtain ⟨d, hd⟩ := hpre.live
      obtain ⟨e, he⟩ := ips_list_cb_fail_eq (s.take req) g req.user_data r d hg hd hf
      refine ⟨e, d, hd, hpre.quiet, ?_⟩
      rw [hs', step_ips_list norm s req r hmem hcb, he]
  obtain ⟨e, d, hd, hq, heq⟩ := key
  obtain ⟨h1, h2, h3, h4, h5, h6, h7, h8⟩ :=
    pipeline_ended (s.take req) s' g req.user_data e d hd hpos heq
  refine ⟨g, hg, hpos, h1, ?_, h2, h3, h4, h5, h6, h7, h8⟩
  unfold State.pend at hq ⊢
  rw [h1]
  exact hq

theorem iface_failure_ends_pipeline_witness :
    net_req "1/mac" Callback.iface_cb 1 ∈
      (run demo_normalize (get_config demo_dict) demo_events_listed).inflight ∧
    ∃ g, (run demo_normalize (get_config demo_dict) demo_events_listed).gcp_data = some g ∧
      0 < g.n_ifaces_pending ∧
      (step demo_normalize (run demo_normalize (get_config demo_dict) demo_events_listed)
        (Event.complete (net_req "1/mac" Callback.iface_cb 1)
          (get_ok "42:01:0a:00:00:03"))).iface_data 1 = none :=
  ⟨by decide,
   (iface_failure_ends_pipeline demo_normalize demo_dict demo_events_listed
      (net_req "1/mac" Callback.iface_cb 1) (get_ok "42:01:0a:00:00:03") _ _ rfl rfl
      (by decide) (Or.inl ⟨rfl, Or.inr (Or.inr (by decide))⟩)).imp
     (fun _ h => ⟨h.1, h.2.1, h.2.2.2.2.2.1⟩)⟩

/-! ## The completions of the forwarded IPs of an interface -/

theorem fip_cb_done (s : State) (g : GCPData) (p : Nat) (r : GetResult)
    (d : GCPIfaceData) (hw : List Char) (cfg : NMCSProviderGetConfigIfaceData)
    (arr : NMIPRouteArr) (hg : s.gcp_data = some g) (hd : s.iface_data p = some d)
    (hhw : d.iface_get_config = some hw)
    (hcfg : g_hash_table_lookup s.result_dict hw = some cfg)
    (harr : cfg.iproutes_arr = some arr) :
    ∃ (t : State) (g1 : GCPData) (e : Option GError),
      _get_config_fip_cb s p r = iface_done t p e ∧
      t.iface_datas = s.iface_datas ∧ t.inflight = s.inflight ∧
      t.gcp_data = some g1 ∧ g1.n_ifaces_pending = g.n_ifaces_pending ∧
      (t.log = s.log ∨ ∃ h i route, t.log = s.log ++ [Action.route_store h i route]) := by
  cases he : r.error with
  | some x =>
    refine ⟨s, g, r.error, ?_, rfl, rfl, hg, rfl, Or.inl rfl⟩
    unfold _get_config_fip_cb
    simp only [hd, hg, err_cond]
    simp only [he, Option.isSome_some, ↓reduceIte]
  | none =>
    cases hs : r.success with
    | false =>
      refine ⟨s, g,
        some (nm_utils_error_new "error in server response while fetching forwarded ip"),
        ?_, rfl, rfl, hg, rfl, Or.inl rfl⟩
      unfold _get_config_fip_cb
      simp only [hd, hg, err_cond]
      simp only [he, hs, Option.isSome_none, Bool.false_eq_true, ↓reduceIte, Bool.not_false]
    | true =>
      cases hv : nm_utils_ipaddr_valid AF_INET (c_str r.response) with
      | false =>
        refine ⟨s, g, some (nm_utils_error_new "forwarded-ip is not a valid ip address"),
          ?_, rfl, rfl, hg, rfl, Or.inl rfl⟩
        unfold _get_config_fip_cb
        simp only [hd, hg, err_cond]
        simp only [he, hs, hv, Option.isSome_none, Bool.false_eq_true,
          ↓reduceIte, Bool.not_false, Bool.not_true]
      | true =>
        exact ⟨_, _, _, fip_cb_valid_eq s g p r d hw cfg arr hg hd hhw hcfg harr he hs hv,
          rfl, rfl, rfl, rfl, Or.inr ⟨_, _, _, rfl⟩⟩

theorem filter_log_store (f : Action → Bool) (hf : ∀ a, a.is_store = true → f a = false)
    (l l' : List Action)
    (h : l' = l ∨ ∃ hw i route, l' = l ++ [Action.route_store hw i route]) :
    l'.filter f = l.filter f := by
  rcases h with h | ⟨hw, i, route, h⟩
  · rw [h]
  · rw [h, List.filter_append]
    simp [hf (Action.route_store hw i route) rfl]

/-- What the label iface_done leaves of a state in which the pipeline is live
with a positive counter. -/
theorem iface_done_effect (t s' : State) (g : GCPData) (p : Nat) (e : Option GError)
    (d : GCPIfaceData) (hg : t.gcp_data = some g) (hd : t.iface_data p = some d)
    (hpos : 0 < d.n_fips_pending) (hs' : s' = iface_done t p e) :
    s'.inflight = t.inflight ∧
    s'.log.filter Action.is_fips_dec =
      t.log.filter Action.is_fips_dec ++ [Action.fips_pending_dec p d.n_fips_pending] ∧
    (∀ q, q ≠ p → s'.iface_data q = t.iface_data q) ∧
    (d.n_fips_pending ≠ 1 →
      s'.iface_data p = some { d with n_fips_pending := d.n_fips_pending - 1 } ∧
      s'.log.filter Action.is_ifaces_dec = t.log.filter Action.is_ifaces_dec ∧
      s'.log.filter Action.is_gate_call = t.log.filter Action.is_gate_call) ∧
    (d.n_fips_pending = 1 →
      s'.iface_data p = none ∧
      s'.log.filter Action.is_ifaces_dec =
        t.log.filter Action.is_ifaces_dec ++
          [Action.ifaces_pending_dec p g.n_ifaces_pending] ∧
      s'.log.filter Action.is_gate_call =
        t.log.filter Action.is_gate_call ++ [Action.maybe_task_return e]) := by
  have hlen := lt_of_get_some _ _ _ hd
  have hdec : guint_dec d.n_fips_pending = d.n_fips_pending - 1 := by
    unfold guint_dec
    split <;> omega
  rw [iface_done_eq t g p e d hg hd, hdec] at hs'
  by_cases h1 : d.n_fips_pending = 1
  · have h0 : d.n_fips_pending - 1 = 0 := by omega
    simp only [h0, ↓reduceIte] at hs'
    subst hs'
    refine ⟨rfl, ?_, ?_, fun h => absurd h1 h, fun _ => ⟨?_, ?_, ?_⟩⟩
    · simp only [List.filter_append, List.filter_cons, Action.is_fips_dec,
        Bool.false_eq_true, ↓reduceIte]
      rw [filter_gate_return Action.is_fips_dec
        (by intro a; cases a <;> simp [Action.is_final, Action.is_fips_dec])]
    · intro q hq
      exact iface_data_set_ne t _ p q none (Ne.symm hq) rfl
    · exact iface_data_set_self t _ p none hlen rfl
    · simp only [List.filter_append, List.filter_cons, Action.is_ifaces_dec,
        Bool.false_eq_true, ↓reduceIte]
      rw [filter_gate_return Action.is_ifaces_dec
        (by intro a; cases a <;> simp [Action.is_final, Action.is_ifaces_dec])]
    · simp only [List.filter_append, List.filter_cons, Action.is_gate_call,
        Bool.false_eq_true, ↓reduceIte]
      rw [filter_gate_return Action.is_gate_call
        (by intro a; cases a <;> simp [Action.is_final, Action.is_gate_call])]
  · have h0 : ¬ d.n_fips_pending - 1 = 0 := by omega
    simp only [h0, ↓reduceIte] at hs'
    subst hs'
    refine ⟨rfl, ?_, ?_, fun _ => ⟨?_, ?_, ?_⟩, fun h => absurd h h1⟩
    · simp [List.filter_append, Action.is_fips_dec]
    · intro q hq
      exact iface_data_set_ne t _ p q _ (Ne.symm hq) rfl
    · exact iface_data_set_self t _ p _ hlen rfl
    · simp [List.filter_append, Action.is_ifaces_dec]
    · simp [List.filter_append, Action.is_gate_call]

/-- C12: in every state that a run of get_config reaches, the completion of an
outstanding forwarded-IP GET, whatever its result, finds n_fips_pending of its
pipeline positive and equal to the number of forwarded-IP GETs that are
outstanding for it, and decrements it once. While the counter stays above
zero the pipeline stays, n_ifaces_pending is not decremented and the finalize
check is not called; when it reaches zero the pipeline is freed,
n_ifaces_pending is decremented once, from a positive value, and the finalize
check is called once. The other GETs stay outstanding and the other pipelines
are as they were. -/
theorem fip_completion_counts (norm : List Char → Option (List Char))
    (result_dict : ResultDict) (events : List Event) (req : Request) (r : GetResult)
    (s s' : State) (hs : s = run norm (get_config result_dict) events)
    (hs' : s' = step norm s (Event.complete req r))
    (hmem : req ∈ s.inflight) (hcb : req.callback = Callback.fip_cb) :
    ∃ g d, s.gcp_data = some g ∧ s.iface_data req.user_data = some d ∧
      0 < d.n_fips_pending ∧ s.pend Callback.fip_cb req.user_data = d.n_fips_pending ∧
      s'.inflight = s.inflight.erase req ∧
      s'.pend Callback.fip_cb req.user_data = d.n_fips_pending - 1 ∧
      s'.log.filter Action.is_fips_dec =
        s.log.filter Action.is_fips_dec ++
          [Action.fips_pending_dec req.user_data d.n_fips_pending] ∧
      (∀ q, q ≠ req.user_data → s'.iface_data q = s.iface_data q) ∧
      (d.n_fips_pending ≠ 1 →
        s'.iface_data req.user_data = some { d with n_fips_pending := d.n_fips_pending - 1 } ∧
        s'.log.filter Action.is_ifaces_dec = s.log.filter Action.is_ifaces_dec ∧
        s'.log.filter Action.is_gate_call = s.log.filter Action.is_gate_call) ∧
      (d.n_fips_pending = 1 →
        s'.iface_data req.user_data = none ∧ 0 < g.n_ifaces_pending ∧
        s'.log.filter Action.is_ifaces_dec =
          s.log.filter Action.is_ifaces_dec ++
            [Action.ifaces_pending_dec req.user_data g.n_ifaces_pending] ∧
        ∃ e, s'.log.filter Action.is_gate_call =
          s.log.filter Action.is_gate_call ++ [Action.maybe_task_return e]) := by
  have hinv : Inv s := by
    rw [hs]
    exact run_inv norm _ events (inv_get_config result_dict)
  have hne : req.callback ≠ Callback.net_ifaces_list_cb := by
    rw [hcb]; decide
  obtain ⟨g, hg, hrun⟩ := running_of_pipeline_req s req hinv hmem hne
  have hgpos : 0 < g.n_ifaces_pending := by
    rw [hrun.pending]
    exact hrun.live_pos
  have hpre := running_take_fip s g req hrun hmem hcb
  obtain ⟨d, hw, cfg, arr, hd, hhw, hcfg, harr, _, _, hp3⟩ := hpre.fip
  have htp := take_pend s req hmem Callback.fip_cb
  simp only [hcb, ↓reduceIte] at htp
  obtain ⟨t, g1, e, heq, hifs, hinf, hg1, hn1, hlog⟩ :=
    fip_cb_done (s.take req) g req.user_data r d hw cfg arr hg hd hhw hcfg harr
  have hdt : t.iface_data req.user_data = some d := by
    unfold State.iface_data at hd ⊢
    rw [hifs]
    exact hd
  have hs2 : s' = iface_done t req.user_data e := by
    rw [hs', step_fip norm s req r hmem hcb, heq]
  obtain ⟨h1, h2, h3, h4, h5⟩ :=
    iface_done_effect t s' g1 req.user_data e d hg1 hdt (by omega) hs2
  have hf1 := filter_log_store Action.is_fips_dec
    (by intro a; cases a <;> simp [Action.is_store, Action.is_fips_dec]) _ _ hlog
  have hf2 := filter_log_store Action.is_ifaces_dec
    (by intro a; cases a <;> simp [Action.is_store, Action.is_ifaces_dec]) _ _ hlog
  have hf3 := filter_log_store Action.is_gate_call
    (by intro a; cases a <;> simp [Action.is_store, Action.is_gate_call]) _ _ hlog
  have hsd : s.iface_data req.user_data = some d := hd
  have hother : ∀ q, t.iface_data q = s.iface_data q := by
    intro q
    unfold State.iface_data
    rw [hifs]
    rfl
  refine ⟨g, d, hg, hsd, by omega, by omega, h1.trans hinf, ?_, ?_, ?_, ?_, ?_⟩
  · unfold State.pend at hp3 ⊢
    rw [h1, hinf]
    omega
  · rw [h2, hf1]
    rfl
  · intro q hq
    rw [h3 q hq, hother q]
  · intro hn
    obtain ⟨a, b, c⟩ := h4 hn
    exact ⟨a, by rw [b, hf2]; rfl, by rw [c, hf3]; rfl⟩
  · intro hn
    obtain ⟨a, b, c⟩ := h5 hn
    refine ⟨a, hgpos, ?_, e, ?_⟩
    · rw [b, hf2, hn1]; rfl
    · rw [c, hf3]; rfl

theorem fip_completion_counts_witness :
    net_req "0/forwarded-ips/1" Callback.fip_cb 0 ∈
      (run demo_normalize (get_config demo_dict) demo_events_fanned_out).inflight ∧
    ∃ g d, (run demo_normalize (get_config demo_dict) demo_events_fanned_out).gcp_data =
        some g ∧
      (run demo_normalize (get_config demo_dict) demo_events_fanned_out).iface_data 0 =
        some d ∧
      0 < d.n_fips_pending :=
  ⟨by decide,
   (fip_completion_counts demo_normalize demo_dict demo_events_fanned_out
      (net_req "0/forwarded-ips/1" Callback.fip_cb 0)
      (get_error timeout_error) _ _ rfl rfl (by decide) rfl).imp
     (fun _ h => h.imp (fun _ h => ⟨h.1, h.2.1, h.2.2.1⟩))⟩

/-! ## The indices that the parsers collect -/

theorem str_to_int64_range (str : List Char) (base : Nat) (min max fallback : Int) :
    _nm_utils_ascii_str_to_int64 str base min max fallback = fallback ∨
    (min ≤ _nm_utils_ascii_str_to_int64 str base min max fallback ∧
      _nm_utils_ascii_str_to_int64 str base min max fallback ≤ max) := by
  unfold _nm_utils_ascii_str_to_int64
  simp only
  split_ifs <;> first
    | exact Or.inl rfl
    | (rename_i h
       simp only [Bool.or_eq_true, decide_eq_true_eq, not_or, not_lt, gt_iff_lt] at h
       exact Or.inr ⟨h.2, h.1⟩)

theorem index_in_range (str : List Char)
    (h : ¬ _nm_utils_ascii_str_to_int64 str 10 0 G_MAXINT64 (-1) < 0) :
    0 ≤ _nm_utils_ascii_str_to_int64 str 10 0 G_MAXINT64 (-1) ∧
    _nm_utils_ascii_str_to_int64 str 10 0 G_MAXINT64 (-1) ≤ G_MAXINT64 := by
  rcases str_to_int64_range str 10 0 G_MAXINT64 (-1) with h1 | h1
  · rw [h1] at h
    exact absurd (by decide) h
  · exact h1

theorem ifaces_loop_range (fuel : Nat) (line_start : List Char) (response_len : Nat)
    (gstr : List Char) (ifaces_arr : List Int)
    (hacc : ∀ x ∈ ifaces_arr, 0 ≤ x ∧ x ≤ G_MAXINT64) :
    ∀ res, _get_net_ifaces_list_loop fuel line_start response_len gstr ifaces_arr = some res →
      ∀ x ∈ res.2, 0 ≤ x ∧ x ≤ G_MAXINT64 := by
  induction fuel generalizing line_start response_len gstr ifaces_arr with
  | zero =>
    intro res h
    simp [_get_net_ifaces_list_loop] at h
  | succ n ih =>
    intro res h
    unfold _get_net_ifaces_list_loop at h
    by_cases hpos : 0 < response_len
    · simp only [hpos, ↓reduceIte] at h
      cases hm : memchr line_start '\n' response_len with
      | none =>
        simp only [hm, Option.some.injEq] at h
        subst h
        exact hacc
      | some k =>
        simp only [hm] at h
        split at h
        · exact ih _ _ _ _ hacc res h
        · split at h
          · exact ih _ _ _ _ hacc res h
          · rename_i hneg
            refine ih _ _ _ _ ?_ res h
            intro x hx
            rcases List.mem_append.mp hx with hx | hx
            · exact hacc x hx
            · simp only [List.mem_singleton] at hx
              subst hx
              exact index_in_range _ hneg
    · simp only [hpos, ↓reduceIte, Option.some.injEq] at h
      subst h
      exact hacc

theorem ifaces_parse_range (response : List Char) :
    ∀ x ∈ _get_net_ifaces_list_parse response, 0 ≤ x ∧ x ≤ G_MAXINT64 := by
  unfold _get_net_ifaces_list_parse
  cases h : _get_net_ifaces_list_loop (response.length + 1) response response.length [] [] with
  | none => simp
  | some res =>
    exact ifaces_loop_range _ _ _ _ [] (by simp) res h

theorem ips_parse_range (response : List Char) :
    ∀ x ∈ _get_config_ips_list_parse response, 0 ≤ x ∧ x ≤ G_MAXINT64 := by
  rw [ips_list_parse_eq]
  intro x hx
  unfold ips_list_by_lines at hx
  obtain ⟨str, _, hstr⟩ := List.mem_filterMap.mp hx
  unfold index_of_record at hstr
  split at hstr
  · simp at hstr
  · rename_i hneg
    simp only [Option.some.injEq] at hstr
    subst hstr
    exact index_in_range _ hneg

/-! ## The URLs of the GETs -/

theorem uri_base_eq : NM_GCP_METADATA_URL_BASE = documented_base := by decide

theorem uri_concat_id : _gcp_uri_concat ["id"] = documented_id_url := by decide

theorem uri_interfaces_nil : _gcp_uri_interfaces [] = documented_list_url := by decide

theorem uri_interfaces_one (c : String) :
    _gcp_uri_interfaces [c] = documented_base ++ "/network-interfaces/" ++ c := by
  have hsep : (NM_GCP_METADATA_URL_NET.data.head? == some '/') = true := by decide
  unfold _gcp_uri_interfaces _gcp_uri_concat nmcs_utils_uri_build_concat
  simp only [List.head?_cons, Option.some_bind, hsep, ↓reduceIte, List.foldl_cons,
    List.foldl_nil, uri_base_eq]
  rw [String.append_empty]
  rfl

theorem fmt_gint64_nonneg (v : Int) (h : 0 ≤ v) : fmt_gint64 v = Nat.repr v.toNat := by
  cases v with
  | ofNat n => rfl
  | negSucc n => exact absurd h (by simp)

theorem toNat_lt_of_le_max (v : Int) (h0 : 0 ≤ v) (h : v ≤ G_MAXINT64) : v.toNat < 2 ^ 63 := by
  unfold G_MAXINT64 at h
  omega

theorem uri_mac (idx : Int) (h : 0 ≤ idx) :
    _gcp_uri_interfaces [fmt_gint64 idx ++ "/mac"] = documented_mac_url idx.toNat := by
  rw [uri_interfaces_one, fmt_gint64_nonneg idx h]
  unfold documented_mac_url
  simp only [String.append_assoc]

theorem uri_fips (idx : Int) (h : 0 ≤ idx) :
    _gcp_uri_interfaces [fmt_gint64 idx ++ "/forwarded-ips/"] =
      documented_fips_url idx.toNat := by
  rw [uri_interfaces_one, fmt_gint64_nonneg idx h]
  unfold documented_fips_url
  simp only [String.append_assoc]

theorem uri_fip (idx fip_idx : Int) (h : 0 ≤ idx) (hf : 0 ≤ fip_idx) :
    _gcp_uri_interfaces [fip_path idx fip_idx] =
      documented_fip_url idx.toNat fip_idx.toNat := by
  rw [uri_interfaces_one, fip_path, fmt_gint64_nonneg idx h, fmt_gint64_nonneg fip_idx hf]
  unfold documented_fip_url
  simp only [String.append_assoc]

theorem uri_mac_nat (idx : Nat) :
    _gcp_uri_interfaces [fmt_gint64 (Int.ofNat idx) ++ "/mac"] = documented_mac_url idx :=
  uri_mac (Int.ofNat idx) (Int.ofNat_nonneg idx)

theorem uri_fips_nat (idx : Nat) :
    _gcp_uri_interfaces [fmt_gint64 (Int.ofNat idx) ++ "/forwarded-ips/"] =
      documented_fips_url idx :=
  uri_fips (Int.ofNat idx) (Int.ofNat_nonneg idx)

theorem uri_fip_nat (idx : Nat) (fip_idx : Int) (hf : 0 ≤ fip_idx) :
    _gcp_uri_interfaces [fip_path (Int.ofNat idx) fip_idx] =
      documented_fip_url idx fip_idx.toNat :=
  uri_fip (Int.ofNat idx) fip_idx (Int.ofNat_nonneg idx) hf

theorem ofNat_toNat_of_nonneg (v : Int) (h : 0 ≤ v) : v = Int.ofNat v.toNat := by
  cases v with
  | ofNat n => rfl
  | negSucc n => exact absurd h (by simp)

theorem uri_set (index : Nat → Nat) (s s' : State) (p : Nat) (x : Option GCPIfaceData)
    (h : UriOK index s) (hdatas : s'.iface_datas = s.iface_datas.set p x)
    (hx : ∀ d', x = some d' → d'.iface_idx = Int.ofNat (index p) ∧ index p < 2 ^ 63)
    (hlog : ∀ req, Action.poll_get req ∈ s'.log →
      Action.poll_get req ∈ s.log ∨ Documented index req) : UriOK index s' := by
  refine ⟨?_, ?_⟩
  · intro q d' hq
    by_cases hqp : p = q
    · subst hqp
      by_cases hp : p < s.iface_datas.length
      · rw [iface_data_set_self s s' p x hp hdatas] at hq
        exact hx d' hq
      · unfold State.iface_data at hq
        rw [hdatas, List.set_eq_of_length_le (by omega)] at hq
        exact h.idx p d' hq
    · rw [iface_data_set_ne s s' p q x hqp hdatas] at hq
      exact h.idx q d' hq
  · intro req hreq
    rcases hlog req hreq with h1 | h1
    · exact h.gets req h1
    · exact h1

theorem uri_same (index : Nat → Nat) (s s' : State) (h : UriOK index s)
    (hdatas : s'.iface_datas = s.iface_datas)
    (hlog : ∀ req, Action.poll_get req ∈ s'.log →
      Action.poll_get req ∈ s.log ∨ Documented index req) : UriOK index s' := by
  refine ⟨?_, ?_⟩
  · intro q d' hq
    unfold State.iface_data at hq
    rw [hdatas] at hq
    exact h.idx q d' hq
  · intro req hreq
    rcases hlog req hreq with h1 | h1
    · exact h.gets req h1
    · exact h1

theorem poll_get_not_final (req : Request) (acts : List Action)
    (h : ∀ a ∈ acts, a.is_final = true) : Action.poll_get req ∉ acts := by
  intro hm
  have := h _ hm
  simp [Action.is_final] at this

theorem uri_gate (index : Nat → Nat) (s : State) (g : GCPData) (e : Option GError)
    (hg : s.gcp_data = some g) (h : UriOK index s) :
    UriOK index (_get_config_maybe_task_return s e) := by
  rw [gate_eq s g e hg]
  refine uri_same index s _ h rfl ?_
  intro req hreq
  simp only [List.mem_append, List.mem_cons, reduceCtorEq, false_or] at hreq
  rcases hreq with h1 | h1
  · exact Or.inl h1
  · exact absurd h1 (poll_get_not_final req _ (gate_return_final _ _ _))

theorem uri_iface_done (index : Nat → Nat) (s : State) (g : GCPData) (p : Nat)
    (e : Option GError) (d : GCPIfaceData) (hg : s.gcp_data = some g)
    (hd : s.iface_data p = some d) (h : UriOK index s) :
    UriOK index (iface_done s p e) := by
  rw [iface_done_eq s g p e d hg hd]
  split
  · refine uri_set index s _ p none h rfl (by simp) ?_
    intro req hreq
    simp only [List.mem_append, List.mem_cons, reduceCtorEq, false_or] at hreq
    rcases hreq with h1 | h1
    · exact Or.inl h1
    · exact absurd h1 (poll_get_not_final req _ (gate_return_final _ _ _))
  · refine uri_set index s _ p _ h rfl ?_ ?_
    · intro d' hd'
      simp only [Option.some.injEq] at hd'
      subst hd'
      exact h.idx p d hd
    · intro req hreq
      simp only [List.mem_append, List.mem_singleton, reduceCtorEq, or_false] at hreq
      exact Or.inl hreq

theorem uri_ended (index : Nat → Nat) (s : State) (g : GCPData) (p : Nat) (e : GError)
    (h : UriOK index s) :
    UriOK index
      { s with iface_datas := s.iface_datas.set p none
               gcp_data := gate_job g.dec (some e)
               log := s.log ++ Action.ifaces_pending_dec p g.n_ifaces_pending ::
                 Action.maybe_task_return (some e) ::
                 gate_return g.dec s.result_dict (some e) } := by
  refine uri_set index s _ p none h rfl (by simp) ?_
  intro req hreq
  simp only [List.mem_append, List.mem_cons, reduceCtorEq, false_or] at hreq
  rcases hreq with h1 | h1
  · exact Or.inl h1
  · exact absurd h1 (poll_get_not_final req _ (gate_return_final _ _ _))

theorem uri_iface_cb (index : Nat → Nat) (norm : List Char → Option (List Char)) (s : State)
    (g : GCPData) (p : Nat) (r : GetResult) (d : GCPIfaceData) (hg : s.gcp_data = some g)
    (hd : s.iface_data p = some d) (h : UriOK index s) :
    UriOK index (_get_config_iface_cb norm s p r) := by
  by_cases hfail : r.error.isSome = true ∨ r.success = false ∨
      (norm (c_str r.response)).bind
        (fun h => (g_hash_table_lookup s.result_dict h).map (fun _ => h)) = none
  · obtain ⟨e, he⟩ := iface_cb_fail_eq norm s g p r d hg hd hfail
    rw [he]
    exact uri_ended index s g p e h
  · simp only [not_or] at hfail
    obtain ⟨h1, h2, h3⟩ := hfail
    have h1' : r.error.isSome = false := by simpa using h1
    have h2' : r.success = true := by simpa using h2
    obtain ⟨hw, h3'⟩ := Option.ne_none_iff_exists'.mp h3
    unfold _get_config_iface_cb
    simp only [hd, hg, err_cond]
    simp only [h1', h2', h3', Bool.false_eq_true, ↓reduceIte, Bool.not_true,
      Option.isNone_some, nm_http_client_poll_get]
    refine uri_set index s _ p _ h rfl ?_ ?_
    · intro d' hd'
      simp only [Option.some.injEq] at hd'
      subst hd'
      exact h.idx p d hd
    · intro req hreq
      simp only [List.mem_append, List.mem_singleton, Action.poll_get.injEq] at hreq
      rcases hreq with hreq | hreq
      · exact Or.inl hreq
      · right
        subst hreq
        have hr := h.idx p d hd
        refine Or.inr (Or.inr (Or.inl ⟨rfl, hr.2, ?_⟩))
        simp only [hr.1]
        exact uri_fips_nat (index p)

theorem uri_bad (index : Nat → Nat) (s : State) (h : UriOK index s) : UriOK index s.bad := by
  refine uri_same index s _ h rfl ?_
  intro req hreq
  simp only [State.bad, List.mem_append, List.mem_singleton, reduceCtorEq, or_false] at hreq
  exact Or.inl hreq

theorem uri_ips_list_cb (index : Nat → Nat) (s : State) (g : GCPData)
    (p : Nat) (r : GetResult) (d : GCPIfaceData) (hg : s.gcp_data = some g)
    (hd : s.iface_data p = some d) (h : UriOK index s) :
    UriOK index (_get_config_ips_list_cb s p r) := by
  by_cases hfail : r.error.isSome = true ∨ r.success = false ∨
      _get_config_ips_list_parse r.response = []
  · obtain ⟨e, he⟩ := ips_list_cb_fail_eq s g p r d hg hd hfail
    rw [he]
    exact uri_ended index s g p e h
  · simp only [not_or] at hfail
    obtain ⟨h1, h2, h3⟩ := hfail
    have h1' : r.error.isSome = false := by simpa using h1
    have h2' : r.success = true := by simpa using h2
    have h3' : ¬ (_get_config_ips_list_parse r.response).length = 0 := by
      simpa using h3
    unfold _get_config_ips_list_cb
    simp only [hd, hg, err_cond]
    simp only [h1', h2', h3', Bool.false_eq_true, ↓reduceIte, Bool.not_true, List.length_map]
    split
    · exact uri_bad index s h
    · split
      · exact uri_bad index s h
      · rw [fips_poll_get_eq]
        refine uri_set index s _ p _ h rfl ?_ ?_
        · intro d' hd'
          simp only [Option.some.injEq] at hd'
          subst hd'
          exact h.idx p d hd
        · intro req hreq
          simp only [List.mem_append, List.mem_map] at hreq
          rcases hreq with hreq | ⟨q, hq, hqe⟩
          · exact Or.inl hreq
          · right
            simp only [Action.poll_get.injEq] at hqe
            subst hqe
            unfold fip_reqs at hq
            simp only [List.mem_map] at hq
            obtain ⟨gstr, ⟨fip_index, hfi, rfl⟩, rfl⟩ := hq
            have hr := h.idx p d hd
            have hf := ips_parse_range r.response fip_index hfi
            refine Or.inr (Or.inr (Or.inr ⟨rfl, hr.2, fip_index.toNat,
              toNat_lt_of_le_max _ hf.1 hf.2, ?_⟩))
            simp only [hr.1]
            exact uri_fip_nat (index p) fip_index hf.1

theorem uri_fip_cb (index : Nat → Nat) (s : State) (g : GCPData) (p : Nat) (r : GetResult)
    (d : GCPIfaceData) (hw : List Char) (cfg : NMCSProviderGetConfigIfaceData)
    (arr : NMIPRouteArr) (hg : s.gcp_data = some g) (hd : s.iface_data p = some d)
    (hhw : d.iface_get_config = some hw)
    (hcfg : g_hash_table_lookup s.result_dict hw = some cfg)
    (harr : cfg.iproutes_arr = some arr) (h : UriOK index s) :
    UriOK index (_get_config_fip_cb s p r) := by
  obtain ⟨t, g1, e, heq, hifs, _, hg1, _, hlog⟩ :=
    fip_cb_done s g p r d hw cfg arr hg hd hhw hcfg harr
  have hdt : t.iface_data p = some d := by
    unfold State.iface_data at hd ⊢
    rw [hifs]
    exact hd
  have ht : UriOK index t := by
    refine uri_same index s t h hifs ?_
    intro req hreq
    rcases hlog with hl | ⟨a, b, c, hl⟩
    · rw [hl] at hreq
      exact Or.inl hreq
    · rw [hl] at hreq
      simp only [List.mem_append, List.mem_singleton, reduceCtorEq, or_false] at hreq
      exact Or.inl hreq
  rw [heq]
  exact uri_iface_done index t g1 p e d hg1 hdt ht

theorem mem_iface_reqs_index (p : Nat) (idxs : List Int) (q : Request)
    (h : q ∈ iface_reqs p idxs) :
    ∃ k i, idxs.get? k = some i ∧
      q = { uri := _gcp_uri_interfaces [fmt_gint64 i ++ "/mac"],
            callback := Callback.iface_cb, user_data := p + k } := by
  induction idxs generalizing p with
  | nil => simp [iface_reqs] at h
  | cons x xs ih =>
    simp only [iface_reqs, List.mem_cons] at h
    rcases h with h | h
    · exact ⟨0, x, rfl, h⟩
    · obtain ⟨k, i, hk, hq⟩ := ih (p + 1) h
      refine ⟨k + 1, i, by simpa using hk, ?_⟩
      rw [hq]
      congr 1
      omega

theorem uri_initial (index : Nat → Nat) (s : State) (hnil : s.iface_datas = [])
    (hlog : ∀ req, Action.poll_get req ∈ s.log →
      req.callback = Callback.net_ifaces_list_cb ∧ req.uri = documented_list_url) :
    UriOK index s := by
  refine ⟨?_, ?_⟩
  · intro q d hq
    simp [State.iface_data, hnil] at hq
  · intro req hreq
    exact Or.inl (hlog req hreq)

theorem uri_list_cb (s : State) (g : GCPData) (r : GetResult) (hg : s.gcp_data = some g)
    (hnil : s.iface_datas = [])
    (hlog : ∀ req, Action.poll_get req ∈ s.log →
      req.callback = Callback.net_ifaces_list_cb ∧ req.uri = documented_list_url) :
    ∃ index, UriOK index (_get_net_ifaces_list_cb s r) := by
  obtain ⟨dict, gd, ifs, infl, c, lg⟩ := s
  simp only at hg hnil hlog
  subst hg
  subst hnil
  unfold _get_net_ifaces_list_cb
  simp only [err_cond]
  split
  · exact ⟨fun _ => 0, uri_gate _ _ g _ rfl (uri_initial _ _ rfl hlog)⟩
  · split
    · exact ⟨fun _ => 0, uri_gate _ _ g _ rfl (uri_initial _ _ rfl hlog)⟩
    · have hs2 : UriOK (fun q => ((_get_net_ifaces_list_parse r.response).getD q 0).toNat)
          (ifaces_poll_get
            { result_dict := dict
              gcp_data := some
                { g with n_ifaces_pending := (_get_net_ifaces_list_parse r.response).length }
              iface_datas := [] ++ (_get_net_ifaces_list_parse r.response).map
                (fun iface_idx =>
                  some { iface_get_config := none, iface_idx := iface_idx,
                         n_fips_pending := 0 })
              inflight := infl
              cancelled := c
              log := lg }
            ([] : List (Option GCPIfaceData)).length
            (_get_net_ifaces_list_parse r.response)) := by
        rw [ifaces_poll_get_eq]
        refine ⟨?_, ?_⟩
        · intro q d' hq
          simp only [State.iface_data, List.nil_append, List.get?_eq_getElem?,
            List.getElem?_map] at hq
          cases hget : (_get_net_ifaces_list_parse r.response)[q]? with
          | none =>
            rw [hget] at hq
            simp at hq
          | some i =>
            rw [hget] at hq
            simp only [Option.map_some', Option.join, Option.some_bind, id,
              Option.some.injEq] at hq
            subst hq
            have hi : i ∈ _get_net_ifaces_list_parse r.response :=
              List.getElem?_mem hget
            have hr := ifaces_parse_range r.response i hi
            have hD : (_get_net_ifaces_list_parse r.response).getD q 0 = i := by
              simp [List.getD, hget]
            simp only [hD]
            exact ⟨ofNat_toNat_of_nonneg i hr.1, toNat_lt_of_le_max i hr.1 hr.2⟩
        · intro req hreq
          simp only [List.mem_append, List.mem_map, Action.poll_get.injEq] at hreq
          rcases hreq with hreq | ⟨q, hq, hqe⟩
          · exact Or.inl (hlog req hreq)
          · subst hqe
            obtain ⟨k, i, hk, hqk⟩ := mem_iface_reqs_index _ _ q hq
            subst hqk
            have hget : (_get_net_ifaces_list_parse r.response)[k]? = some i := by
              simpa using hk
            have hi : i ∈ _get_net_ifaces_list_parse r.response :=
              List.getElem?_mem hget
            have hr := ifaces_parse_range r.response i hi
            have hD : (_get_net_ifaces_list_parse r.response).getD
                (([] : List (Option GCPIfaceData)).length + k) 0 = i := by
              simp [List.getD, hget]
            refine Or.inr (Or.inl ⟨rfl, ?_, ?_⟩)
            · simp only [hD]
              exact toNat_lt_of_le_max i hr.1 hr.2
            · simp only [hD]
              exact uri_mac i hr.1
      split
      · refine ⟨_, uri_gate _ _
          { g with n_ifaces_pending := (_get_net_ifaces_list_parse r.response).length } _ ?_
          hs2⟩
        rw [ifaces_poll_get_eq]
      · exact ⟨_, hs2⟩

theorem gcp_of_inflight (s : State) (req : Request) (h : Inv s) (hmem : req ∈ s.inflight) :
    ∃ g, s.gcp_data = some g := by
  rcases h with ⟨d, c, hs⟩ | ⟨g, hg, _⟩ | hdone
  · subst hs
    exact ⟨_, rfl⟩
  · exact ⟨g, hg⟩
  · have := hdone.idle
    rw [this] at hmem
    simp at hmem

theorem initial_of_list_req (s : State) (req : Request) (h : Inv s) (hmem : req ∈ s.inflight)
    (hcb : req.callback = Callback.net_ifaces_list_cb) : Initial s := by
  rcases h with hi | ⟨g, hg, hrun⟩ | hdone
  · exact hi
  · exact absurd hcb (hrun.no_list req hmem)
  · have := hdone.idle
    rw [this] at hmem
    simp at hmem

theorem uri_get_config (index : Nat → Nat) (result_dict : ResultDict) :
    UriOK index (get_config result_dict) := by
  refine uri_initial index _ rfl ?_
  intro req hreq
  simp only [get_config, nm_http_client_poll_get, List.nil_append, List.mem_singleton,
    Action.poll_get.injEq] at hreq
  subst hreq
  exact ⟨rfl, uri_interfaces_nil⟩

theorem step_uri (norm : List Char → Option (List Char)) (s : State) (ev : Event)
    (hinv : Inv s) (h : ∃ index, UriOK index s) : ∃ index, UriOK index (step norm s ev) := by
  obtain ⟨index, h⟩ := h
  cases ev with
  | cancel => exact ⟨index, uri_same index s _ h rfl (fun req hreq => Or.inl hreq)⟩
  | complete req r =>
    by_cases hmem : req ∈ s.inflight
    · have ht : UriOK index (s.take req) :=
        uri_same index s _ h rfl (fun req hreq => Or.inl hreq)
      cases hcb : req.callback with
      | net_ifaces_list_cb =>
        obtain ⟨d, c, hs⟩ := initial_of_list_req s req hinv hmem hcb
        rw [step_list norm s req r hmem hcb]
        subst hs
        refine uri_list_cb _ _ r rfl rfl ?_
        intro q hq
        simp only [State.take, get_config, nm_http_client_poll_get, List.nil_append,
          List.mem_singleton, Action.poll_get.injEq] at hq
        subst hq
        exact ⟨rfl, uri_interfaces_nil⟩
      | iface_cb =>
        obtain ⟨g, hg, hrun⟩ := running_of_pipeline_req s req hinv hmem (by rw [hcb]; decide)
        obtain ⟨d, hd⟩ := (running_take_iface s g req hrun hmem hcb).live
        rw [step_iface norm s req r hmem hcb]
        exact ⟨index, uri_iface_cb index norm (s.take req) g req.user_data r d hg hd ht⟩
      | ips_list_cb =>
        obtain ⟨g, hg, hrun⟩ := running_of_pipeline_req s req hinv hmem (by rw [hcb]; decide)
        obtain ⟨d, hd⟩ := (running_take_ips s g req hrun hmem hcb).1.live
        rw [step_ips_list norm s req r hmem hcb]
        exact ⟨index, uri_ips_list_cb index (s.take req) g req.user_data r d hg hd ht⟩
      | fip_cb =>
        obtain ⟨g, hg, hrun⟩ := running_of_pipeline_req s req hinv hmem (by rw [hcb]; decide)
        obtain ⟨d, hw, cfg, arr, hd, hhw, hcfg, harr, _⟩ :=
          (running_take_fip s g req hrun hmem hcb).fip
        rw [step_fip norm s req r hmem hcb]
        exact ⟨index,
          uri_fip_cb index (s.take req) g req.user_data r d hw cfg arr hg hd hhw hcfg harr ht⟩
    · rw [step_not_mem norm s req r hmem]
      exact ⟨index, h⟩

theorem run_uri (norm : List Char → Option (List Char)) (s : State) (events : List Event)
    (hinv : Inv s) (h : ∃ index, UriOK index s) :
    ∃ index, UriOK index (run norm s events) := by
  induction events generalizing s with
  | nil => exact h
  | cons ev rest ih =>
    exact ih (step norm s ev) (step_inv norm s ev hinv) (step_uri norm s ev hinv h)

theorem fip_gets_documented (idx : Int) (p : Nat) (indices : List Int) (h : 0 ≤ idx)
    (hr : ∀ x ∈ indices, 0 ≤ x ∧ x ≤ G_MAXINT64) :
    (fip_gets idx p indices).map Action.poll_get =
      documented_fip_gets idx.toNat p indices := by
  unfold fip_gets documented_fip_gets
  rw [List.map_map]
  apply List.map_congr_left
  intro x hx
  simp only [Function.comp, Action.poll_get.injEq, Request.mk.injEq, and_true]
  exact uri_fip idx x h (hr x hx).1

theorem iface_reqs_documented (p : Nat) (idxs : List Int)
    (hr : ∀ x ∈ idxs, 0 ≤ x ∧ x ≤ G_MAXINT64) :
    (iface_reqs p idxs).map Action.poll_get = documented_mac_gets p idxs := by
  induction idxs generalizing p with
  | nil => rfl
  | cons x xs ih =>
    simp only [iface_reqs, documented_mac_gets, List.map_cons]
    rw [ih (p + 1) (fun y hy => hr y (List.mem_cons_of_mem _ hy)),
      uri_mac x (hr x (List.mem_cons_self _ _)).1]

theorem iface_cb_ok_gets (norm : List Char → Option (List Char)) (s : State) (g : GCPData)
    (p : Nat) (r : GetResult) (d : GCPIfaceData) (hg : s.gcp_data = some g)
    (hd : s.iface_data p = some d) (herr : r.error = none) (hsucc : r.success = true)
    (hmatch : (norm (c_str r.response)).bind
      (fun h => (g_hash_table_lookup s.result_dict h).map (fun _ => h)) ≠ none) :
    gets (_get_config_iface_cb norm s p r).log =
      gets s.log ++
        [Action.poll_get
          { uri := _gcp_uri_interfaces [fmt_gint64 d.iface_idx ++ "/forwarded-ips/"],
            callback := Callback.ips_list_cb, user_data := p }] := by
  obtain ⟨hw, h3⟩ := Option.ne_none_iff_exists'.mp hmatch
  unfold _get_config_iface_cb
  simp only [hd, hg, err_cond]
  simp only [herr, hsucc, h3, Option.isSome_none, Bool.false_eq_true, ↓reduceIte, Bool.not_true,
    Option.isNone_some, nm_http_client_poll_get]
  exact gets_poll_gets s.log
    [{ uri := _gcp_uri_interfaces [fmt_gint64 d.iface_idx ++ "/forwarded-ips/"],
       callback := Callback.ips_list_cb, user_data := p }]

theorem list_cb_ok_gets (s : State) (g : GCPData) (r : GetResult) (hg : s.gcp_data = some g)
    (herr : r.error = none) (hsucc : r.success = true) :
    (_get_net_ifaces_list_cb s r).iface_datas =
      s.iface_datas ++ (_get_net_ifaces_list_parse r.response).map fresh_iface ∧
    gets (_get_net_ifaces_list_cb s r).log =
      gets s.log ++ (iface_reqs s.iface_datas.length
        (_get_net_ifaces_list_parse r.response)).map Action.poll_get := by
  rw [ifaces_list_cb_start s r herr hsucc]
  unfold _get_net_ifaces_list_start
  simp only [hg]
  split
  · rw [ifaces_poll_get_eq, gate_eq _
      { g with n_ifaces_pending := (_get_net_ifaces_list_parse r.response).length } _ rfl]
    refine ⟨rfl, ?_⟩
    simp only
    have htail := filter_get_tail
      (s.log ++ (iface_reqs s.iface_datas.length
        (_get_net_ifaces_list_parse r.response)).map Action.poll_get)
      (Action.maybe_task_return (some (nm_utils_error_new "no GCP interfaces found")) ::
        gate_return
          { g with n_ifaces_pending := (_get_net_ifaces_list_parse r.response).length }
          s.result_dict (some (nm_utils_error_new "no GCP interfaces found")))
      (by
        intro a ha
        simp only [List.mem_cons] at ha
        rcases ha with ha | ha
        · subst ha; exact ⟨rfl, rfl⟩
        · have := gate_return_final _ _ _ a ha
          cases a <;> simp_all [Action.is_final, Action.is_store, Action.is_poll_get])
    rw [htail]
    exact gets_poll_gets _ _
  · rw [ifaces_poll_get_eq]
    exact ⟨rfl, gets_poll_gets _ _⟩

/-- C17: the detection goes to {base}/id and get_config starts with the GET of
{base}/network-interfaces/. In every state that a run of get_config reaches
there is an assignment of an interface index below 2^63 to every pipeline such
that every live pipeline has that index as its iface_idx and every GET issued
so far goes to the URL that the spec documents for its callback and for the
index of the pipeline it was issued for ({idx}/mac, {idx}/forwarded-ips/,
{idx}/forwarded-ips/{fip_idx} below {base}/network-interfaces/, in decimal). The
completion of an outstanding GET that succeeded issues: for the listing, one
GET of {idx}/mac per parsed index, for the pipeline that is allocated with that
index; for a hardware address that matches, the GET of {idx}/forwarded-ips/
with the iface_idx of the pipeline; for a forwarded-IP listing, one GET of
{idx}/forwarded-ips/{fip_idx} per parsed index fip_idx, with the iface_idx of
the pipeline. For all non-negative indices the paths that the callbacks print
give the documented URLs. -/
theorem gets_target_documented_urls (norm : List Char → Option (List Char))
    (result_dict : ResultDict) (events : List Event)
    (s : State) (hs : s = run norm (get_config result_dict) events) :
    detect true = DetectStart.poll_get documented_id_url ∧
    gets (get_config result_dict).log =
      [Action.poll_get
        { uri := documented_list_url, callback := Callback.net_ifaces_list_cb,
          user_data := 0 }] ∧
    (∃ index : Nat → Nat,
      (∀ p d, s.iface_data p = some d → d.iface_idx = Int.ofNat (index p)) ∧
      (∀ q, Action.poll_get q ∈ s.log → Documented index q)) ∧
    (∀ (req : Request) (r : GetResult) (s' : State),
      s' = step norm s (Event.complete req r) → req ∈ s.inflight →
      r.error = none → r.success = true →
      (req.callback = Callback.net_ifaces_list_cb →
        s'.iface_datas = (_get_net_ifaces_list_parse r.response).map fresh_iface ∧
        gets s'.log =
          gets s.log ++ documented_mac_gets 0 (_get_net_ifaces_list_parse r.response)) ∧
      (req.callback = Callback.iface_cb →
        (norm (c_str r.response)).bind
          (fun h => (g_hash_table_lookup s.result_dict h).map (fun _ => h)) ≠ none →
        ∃ d, s.iface_data req.user_data = some d ∧ 0 ≤ d.iface_idx ∧
          gets s'.log = gets s.log ++
            [Action.poll_get
              { uri := documented_fips_url d.iface_idx.toNat,
                callback := Callback.ips_list_cb, user_data := req.user_data }]) ∧
      (req.callback = Callback.ips_list_cb →
        ∃ d, s.iface_data req.user_data = some d ∧ 0 ≤ d.iface_idx ∧
          gets s'.log = gets s.log ++
            documented_fip_gets d.iface_idx.toNat req.user_data
              (_get_config_ips_list_parse r.response))) ∧
    (∀ idx fip_idx : Nat,
      _gcp_uri_interfaces [fmt_gint64 (Int.ofNat idx) ++ "/mac"] = documented_mac_url idx ∧
      _gcp_uri_interfaces [fmt_gint64 (Int.ofNat idx) ++ "/forwarded-ips/"] =
        documented_fips_url idx ∧
      _gcp_uri_interfaces [fip_path (Int.ofNat idx) (Int.ofNat fip_idx)] =
        documented_fip_url idx fip_idx) := by
  have hinv : Inv s := by
    rw [hs]
    exact run_inv norm _ events (inv_get_config result_dict)
  obtain ⟨index, huri⟩ : ∃ index, UriOK index s := by
    rw [hs]
    exact run_uri norm _ events (inv_get_config result_dict)
      ⟨fun _ => 0, uri_get_config _ result_dict⟩
  have hnonneg : ∀ p d, s.iface_data p = some d → 0 ≤ d.iface_idx := by
    intro p d hd
    rw [(huri.idx p d hd).1]
    exact Int.ofNat_nonneg _
  refine ⟨by decide, ?_, ⟨index, fun p d hd => (huri.idx p d hd).1, huri.gets⟩, ?_, ?_⟩
  · simp only [get_config, nm_http_client_poll_get, List.nil_append, gets, List.filter,
      Action.is_poll_get, uri_interfaces_nil]
  on_goal 1 => intro req r s' hs' hmem herr hsucc
  on_goal 1 => refine ⟨?_, ?_, ?_⟩
  · intro hcb
    obtain ⟨d0, c, hinit⟩ := initial_of_list_req s req hinv hmem hcb
    obtain ⟨g0, hg0⟩ := gcp_of_inflight s req hinv hmem
    have hnil : (s.take req).iface_datas = [] := by
      rw [hinit]
      rfl
    obtain ⟨h1, h2⟩ := list_cb_ok_gets (s.take req) g0 r hg0 herr hsucc
    rw [hs', step_list norm s req r hmem hcb]
    rw [hnil] at h1 h2
    refine ⟨by simpa using h1, ?_⟩
    rw [h2, iface_reqs_documented _ _ (ifaces_parse_range r.response)]
    rfl
  · intro hcb hmatch
    obtain ⟨g, hg, hrun⟩ := running_of_pipeline_req s req hinv hmem (by rw [hcb]; decide)
    obtain ⟨d, hd⟩ := (running_take_iface s g req hrun hmem hcb).live
    have h0 := hnonneg req.user_data d hd
    refine ⟨d, hd, h0, ?_⟩
    rw [hs', step_iface norm s req r hmem hcb,
      iface_cb_ok_gets norm (s.take req) g req.user_data r d hg hd herr hsucc hmatch,
      uri_fips d.iface_idx h0]
    rfl
  · intro hcb
    obtain ⟨g, hg, hrun⟩ := running_of_pipeline_req s req hinv hmem (by rw [hcb]; decide)
    obtain ⟨_, d, hw, hd, hhw, hsome⟩ := running_take_ips s g req hrun hmem hcb
    have h0 := hnonneg req.user_data d hd
    refine ⟨d, hd, h0, ?_⟩
    rw [hs', step_ips_list norm s req r hmem hcb,
      (ips_list_cb_ok (s.take req) g req.user_data r d hw hg hd hhw hsome herr hsucc).1,
      fip_gets_documented _ _ _ h0 (ips_parse_range r.response)]
    rfl
  · intro idx fip_idx
    exact ⟨uri_mac_nat idx, uri_fips_nat idx,
      uri_fip_nat idx (Int.ofNat fip_idx) (Int.ofNat_nonneg fip_idx)⟩

theorem gets_target_documented_urls_witness :
    net_req "0/forwarded-ips/" Callback.ips_list_cb 0 ∈
      (run demo_normalize (get_config demo_dict)
        [Event.complete list_req (get_ok "0/\n"),
         Event.complete (net_req "0/mac" Callback.iface_cb 0)
           (get_ok "42:01:0a:00:00:02")]).inflight ∧
    ∃ d, (run demo_normalize (get_config demo_dict)
        [Event.complete list_req (get_ok "0/\n"),
         Event.complete (net_req "0/mac" Callback.iface_cb 0)
           (get_ok "42:01:0a:00:00:02")]).iface_data 0 = some d ∧
      0 ≤ d.iface_idx ∧
      gets (step demo_normalize
        (run demo_normalize (get_config demo_dict)
          [Event.complete list_req (get_ok "0/\n"),
           Event.complete (net_req "0/mac" Callback.iface_cb 0)
             (get_ok "42:01:0a:00:00:02")])
        (Event.complete (net_req "0/forwarded-ips/" Callback.ips_list_cb 0)
          (get_ok "1\n2\n"))).log =
      gets (run demo_normalize (get_config demo_dict)
        [Event.complete list_req (get_ok "0/\n"),
         Event.complete (net_req "0/mac" Callback.iface_cb 0)
           (get_ok "42:01:0a:00:00:02")]).log ++
        documented_fip_gets d.iface_idx.toNat 0 (_get_config_ips_list_parse "1\n2\n".data) :=
  ⟨by decide,
   ((gets_target_documented_urls demo_normalize demo_dict
      [Event.complete list_req (get_ok "0/\n"),
       Event.complete (net_req "0/mac" Callback.iface_cb 0) (get_ok "42:01:0a:00:00:02")]
      _ rfl).2.2.2.1
      (net_req "0/forwarded-ips/" Callback.ips_list_cb 0) (get_ok "1\n2\n") _ rfl
      (by decide) rfl rfl).2.2 rfl⟩

/-! ## Calls of the finalize check without an error -/

theorem gate_return_no_call (g : GCPData) (result_dict : ResultDict) (e : Option GError) :
    Action.maybe_task_return none ∉ gate_return g result_dict e := by
  intro h
  have := gate_return_final g result_dict e _ h
  simp [Action.is_final] at this

theorem calm_gate (s : State) (g : GCPData) (e : Option GError) (hg : s.gcp_data = some g)
    (he : e.isSome = true) :
    ∃ acts, (_get_config_maybe_task_return s e).log = s.log ++ acts ∧
      Action.maybe_task_return none ∉ acts := by
  obtain ⟨x, rfl⟩ := Option.isSome_iff_exists.mp he
  rw [gate_eq s g _ hg]
  refine ⟨_, rfl, ?_⟩
  simp only [List.mem_cons, Action.maybe_task_return.injEq, reduceCtorEq, false_or]
  exact gate_return_no_call _ _ _

theorem calm_ended (s : State) (g : GCPData) (p : Nat) (e : GError) :
    Action.maybe_task_return none ∉
      Action.ifaces_pending_dec p g.n_ifaces_pending ::
        Action.maybe_task_return (some e) :: gate_return g.dec s.result_dict (some e) := by
  simp only [List.mem_cons, Action.maybe_task_return.injEq, reduceCtorEq, false_or]
  exact gate_return_no_call _ _ _

theorem calm_gets (reqs : List Request) :
    Action.maybe_task_return none ∉ reqs.map Action.poll_get := by
  simp

theorem calm_iface_cb (norm : List Char → Option (List Char)) (s : State) (g : GCPData)
    (p : Nat) (r : GetResult) (d : GCPIfaceData) (hg : s.gcp_data = some g)
    (hd : s.iface_data p = some d) :
    ∃ acts, (_get_config_iface_cb norm s p r).log = s.log ++ acts ∧
      Action.maybe_task_return none ∉ acts := by
  by_cases hfail : r.error.isSome = true ∨ r.success = false ∨
      (norm (c_str r.response)).bind
        (fun h => (g_hash_table_lookup s.result_dict h).map (fun _ => h)) = none
  · obtain ⟨e, he⟩ := iface_cb_fail_eq norm s g p r d hg hd hfail
    rw [he]
    exact ⟨_, rfl, calm_ended s g p e⟩
  · simp only [not_or] at hfail
    obtain ⟨h1, h2, h3⟩ := hfail
    have h1' : r.error.isSome = false := by simpa using h1
    have h2' : r.success = true := by simpa using h2
    obtain ⟨hw, h3'⟩ := Option.ne_none_iff_exists'.mp h3
    unfold _get_config_iface_cb
    simp only [hd, hg, err_cond]
    simp only [h1', h2', h3', Bool.false_eq_true, ↓reduceIte, Bool.not_true,
      Option.isNone_some, nm_http_client_poll_get]
    exact ⟨_, rfl, by simp⟩

theorem calm_ips_list_cb (s : State) (g : GCPData)
    (p : Nat) (r : GetResult) (d : GCPIfaceData) (hg : s.gcp_data = some g)
    (hd : s.iface_data p = some d) :
    ∃ acts, (_get_config_ips_list_cb s p r).log = s.log ++ acts ∧
      Action.maybe_task_return none ∉ acts := by
  by_cases hfail : r.error.isSome = true ∨ r.success = false ∨
      _get_config_ips_list_parse r.response = []
  · obtain ⟨e, he⟩ := ips_list_cb_fail_eq s g p r d hg hd hfail
    rw [he]
    exact ⟨_, rfl, calm_ended s g p e⟩
  · simp only [not_or] at hfail
    obtain ⟨h1, h2, h3⟩ := hfail
    have h1' : r.error.isSome = false := by simpa using h1
    have h2' : r.success = true := by simpa using h2
    have h3' : ¬ (_get_config_ips_list_parse r.response).length = 0 := by
      simpa using h3
    unfold _get_config_ips_list_cb
    simp only [hd, hg, err_cond]
    simp only [h1', h2', h3', Bool.false_eq_true, ↓reduceIte, Bool.not_true, List.length_map]
    split
    · exact ⟨[Action.bad_pointer], rfl, by simp⟩
    · split
      · exact ⟨[Action.bad_pointer], rfl, by simp⟩
      · rw [fips_poll_get_eq]
        exact ⟨_, rfl, calm_gets _⟩

theorem calm_list_cb (s : State) (g : GCPData) (r : GetResult) (hg : s.gcp_data = some g) :
    ∃ acts, (_get_net_ifaces_list_cb s r).log = s.log ++ acts ∧
      Action.maybe_task_return none ∉ acts := by
  unfold _get_net_ifaces_list_cb
  simp only [hg, err_cond]
  split
  · rename_i he
    exact calm_gate s g _ hg he
  · split
    · exact calm_gate s g _ hg rfl
    · split
      · rw [ifaces_poll_get_eq]
        rw [gate_eq _
          { g with n_ifaces_pending := (_get_net_ifaces_list_parse r.response).length } _ rfl]
        refine ⟨_, (List.append_assoc _ _ _), ?_⟩
        simp only [List.mem_append, List.mem_cons, Action.maybe_task_return.injEq,
          reduceCtorEq, false_or, not_or]
        exact ⟨calm_gets _, gate_return_no_call _ _ _⟩
      · rw [ifaces_poll_get_eq]
        exact ⟨_, rfl, calm_gets _⟩

theorem fip_cb_done_store (s : State) (g : GCPData) (p : Nat) (r : GetResult)
    (d : GCPIfaceData) (hw : List Char) (cfg : NMCSProviderGetConfigIfaceData)
    (arr : NMIPRouteArr) (hg : s.gcp_data = some g) (hd : s.iface_data p = some d)
    (hhw : d.iface_get_config = some hw)
    (hcfg : g_hash_table_lookup s.result_dict hw = some cfg)
    (harr : cfg.iproutes_arr = some arr) :
    ∃ (t : State) (g1 : GCPData) (e : Option GError),
      _get_config_fip_cb s p r = iface_done t p e ∧
      t.iface_datas = s.iface_datas ∧ t.gcp_data = some g1 ∧
      ((e.isSome = true ∧ t.log = s.log) ∨
       (g1.success = true ∧ ∃ h i route, t.log = s.log ++ [Action.route_store h i route])) := by
  cases he : r.error with
  | some x =>
    refine ⟨s, g, r.error, ?_, rfl, hg, Or.inl ⟨by rw [he]; rfl, rfl⟩⟩
    unfold _get_config_fip_cb
    simp only [hd, hg, err_cond]
    simp only [he, Option.isSome_some, ↓reduceIte]
  | none =>
    cases hs : r.success with
    | false =>
      refine ⟨s, g,
        some (nm_utils_error_new "error in server response while fetching forwarded ip"),
        ?_, rfl, hg, Or.inl ⟨rfl, rfl⟩⟩
      unfold _get_config_fip_cb
      simp only [hd, hg, err_cond]
      simp only [he, hs, Option.isSome_none, Bool.false_eq_true, ↓reduceIte, Bool.not_false]
    | true =>
      cases hv : nm_utils_ipaddr_valid AF_INET (c_str r.response) with
      | false =>
        refine ⟨s, g, some (nm_utils_error_new "forwarded-ip is not a valid ip address"),
          ?_, rfl, hg, Or.inl ⟨rfl, rfl⟩⟩
        unfold _get_config_fip_cb
        simp only [hd, hg, err_cond]
        simp only [he, hs, hv, Option.isSome_none, Bool.false_eq_true,
          ↓reduceIte, Bool.not_false, Bool.not_true]
      | true =>
        exact ⟨_, _, _, fip_cb_valid_eq s g p r d hw cfg arr hg hd hhw hcfg harr he hs hv,
          rfl, rfl, Or.inr ⟨rfl, _, _, _, rfl⟩⟩

theorem guard_fip_cb (s : State) (g : GCPData) (p : Nat) (r : GetResult)
    (d : GCPIfaceData) (hw : List Char) (cfg : NMCSProviderGetConfigIfaceData)
    (arr : NMIPRouteArr) (hg : s.gcp_data = some g) (hd : s.iface_data p = some d)
    (hhw : d.iface_get_config = some hw)
    (hcfg : g_hash_table_lookup s.result_dict hw = some cfg)
    (harr : cfg.iproutes_arr = some arr) :
    ∃ acts, (_get_config_fip_cb s p r).log = s.log ++ acts ∧
      (Action.maybe_task_return none ∈ acts →
        (∃ h i route, acts.head? = some (Action.route_store h i route)) ∧
        (∀ x, Action.task_return_error x ∉ acts) ∧
        (∀ g', (_get_config_fip_cb s p r).gcp_data = some g' → g'.success = true)) := by
  obtain ⟨t, g1, e, heq, hifs, hg1, hcase⟩ :=
    fip_cb_done_store s g p r d hw cfg arr hg hd hhw hcfg harr
  have hdt : t.iface_data p = some d := by
    unfold State.iface_data at hd ⊢
    rw [hifs]
    exact hd
  rw [heq, iface_done_eq t g1 p e d hg1 hdt]
  rcases hcase with ⟨he, hl⟩ | ⟨hsucc, h, i, route, hl⟩
  · obtain ⟨x, rfl⟩ := Option.isSome_iff_exists.mp he
    split
    · refine ⟨Action.fips_pending_dec p d.n_fips_pending ::
          Action.ifaces_pending_dec p g1.n_ifaces_pending ::
          Action.maybe_task_return (some x) :: gate_return g1.dec t.result_dict (some x),
        by simp only [hl], fun hm => absurd hm ?_⟩
      simp only [List.mem_cons, Action.maybe_task_return.injEq, reduceCtorEq, false_or]
      exact gate_return_no_call _ _ _
    · exact ⟨[Action.fips_pending_dec p d.n_fips_pending], by simp only [hl],
        fun hm => absurd hm (by simp)⟩
  · split
    · refine ⟨Action.route_store h i route :: Action.fips_pending_dec p d.n_fips_pending ::
          Action.ifaces_pending_dec p g1.n_ifaces_pending :: Action.maybe_task_return e ::
          gate_return g1.dec t.result_dict e, by simp only [hl]; simp, fun _ => ⟨?_, ?_, ?_⟩⟩
      · exact ⟨h, i, route, rfl⟩
      · intro x hx
        simp only [List.mem_cons, reduceCtorEq, false_or] at hx
        unfold gate_return at hx
        simp only [GCPData.dec, hsucc, ↓reduceIte] at hx
        split at hx <;> simp at hx
      · intro g' hg'
        simp only at hg'
        rw [(gate_job_some _ _ _ hg').2]
        exact hsucc
    · exact ⟨[Action.route_store h i route, Action.fips_pending_dec p d.n_fips_pending],
        by simp only [hl]; simp, fun hm => absurd hm (by simp)⟩

theorem inv_error_some (s : State) (h : Inv s) :
    ∀ x, Action.task_return_error x ∈ s.log → ∃ e, x = some e ∧ has_store s.log = false := by
  intro x hx
  have hfin : Action.task_return_error x ∈ finals s.log :=
    List.mem_filter.mpr ⟨hx, rfl⟩
  rcases h with ⟨d, c, hs⟩ | ⟨g, _, hrun⟩ | hdone
  · subst hs
    simp [get_config, nm_http_client_poll_get] at hx
  · rw [hrun.log_ok.no_final] at hfin
    simp at hfin
  · rcases hdone.returned with ⟨hf, _⟩ | ⟨e, hf, hst, _⟩
    · rw [hf] at hfin
      simp at hfin
    · rw [hf] at hfin
      simp only [List.mem_singleton, Action.task_return_error.injEq] at hfin
      exact ⟨e, hfin, hst⟩

theorem inv_success (s : State) (h : Inv s) (g : GCPData) (hg : s.gcp_data = some g) :
    g.success = true ↔ has_store s.log = true := by
  rcases h with ⟨d, c, hs⟩ | ⟨g', hg', hrun⟩ | hdone
  · subst hs
    simp only [get_config, nm_http_client_poll_get, Option.some.injEq] at hg
    subst hg
    simp [get_config, nm_http_client_poll_get, has_store, Action.is_store]
  · rw [hg] at hg'
    simp only [Option.some.injEq] at hg'
    subst hg'
    exact hrun.log_ok.success_iff
  · rw [hdone.freed] at hg
    simp at hg

theorem step_delta (norm : List Char → Option (List Char)) (s : State) (ev : Event)
    (hinv : Inv s) :
    ∃ acts, (step norm s ev).log = s.log ++ acts ∧
      (Action.maybe_task_return none ∈ acts →
        (∃ req r, ev = Event.complete req r ∧ req ∈ s.inflight ∧
          req.callback = Callback.fip_cb) ∧
        (∃ h i route, acts.head? = some (Action.route_store h i route)) ∧
        (∀ x, Action.task_return_error x ∉ acts) ∧
        (∀ g', (step norm s ev).gcp_data = some g' → g'.success = true)) := by
  cases ev with
  | cancel => exact ⟨[], by simp [step], fun h => absurd h (by simp)⟩
  | complete req r =>
    by_cases hmem : req ∈ s.inflight
    · obtain ⟨g0, hg0⟩ := gcp_of_inflight s req hinv hmem
      cases hcb : req.callback with
      | net_ifaces_list_cb =>
        rw [step_list norm s req r hmem hcb]
        obtain ⟨acts, h1, h2⟩ := calm_list_cb (s.take req) g0 r hg0
        exact ⟨acts, h1, fun h => absurd h h2⟩
      | iface_cb =>
        obtain ⟨g, hg, hrun⟩ := running_of_pipeline_req s req hinv hmem (by rw [hcb]; decide)
        obtain ⟨d, hd⟩ := (running_take_iface s g req hrun hmem hcb).live
        rw [step_iface norm s req r hmem hcb]
        obtain ⟨acts, h1, h2⟩ := calm_iface_cb norm (s.take req) g req.user_data r d hg hd
        exact ⟨acts, h1, fun h => absurd h h2⟩
      | ips_list_cb =>
        obtain ⟨g, hg, hrun⟩ := running_of_pipeline_req s req hinv hmem (by rw [hcb]; decide)
        obtain ⟨d, hd⟩ := (running_take_ips s g req hrun hmem hcb).1.live
        rw [step_ips_list norm s req r hmem hcb]
        obtain ⟨acts, h1, h2⟩ := calm_ips_list_cb (s.take req) g req.user_data r d hg hd
        exact ⟨acts, h1, fun h => absurd h h2⟩
      | fip_cb =>
        obtain ⟨g, hg, hrun⟩ := running_of_pipeline_req s req hinv hmem (by rw [hcb]; decide)
        obtain ⟨d, hw, cfg, arr, hd, hhw, hcfg, harr, _⟩ :=
          (running_take_fip s g req hrun hmem hcb).fip
        rw [step_fip norm s req r hmem hcb]
        obtain ⟨acts, h1, h2⟩ :=
          guard_fip_cb (s.take req) g req.user_data r d hw cfg arr hg hd hhw hcfg harr
        exact ⟨acts, h1, fun h => ⟨⟨req, r, rfl, hmem, hcb⟩, h2 h⟩⟩
    · rw [step_not_mem norm s req r hmem]
      exact ⟨[], by simp, fun h => absurd h (by simp)⟩

/-- C20: in every state that a run of get_config reaches, an error that the task
was returned with is not NULL (and no route had been stored, so the success flag
was unset); a step calls the finalize check without an error only if it is the
completion of an outstanding forwarded-IP GET that has stored a route first, in
which case the step returns no error and leaves the success flag set; and a
success flag that is set stays set. -/
theorem finalize_error_present (norm : List Char → Option (List Char))
    (result_dict : ResultDict) (events : List Event) (ev : Event) (s s' : State)
    (hs : s = run norm (get_config result_dict) events) (hs' : s' = step norm s ev) :
    (∀ x, Action.task_return_error x ∈ s'.log →
      ∃ e, x = some e ∧ has_store s'.log = false) ∧
    (∃ acts, s'.log = s.log ++ acts ∧
      (Action.maybe_task_return none ∈ acts →
        (∃ req r, ev = Event.complete req r ∧ req ∈ s.inflight ∧
          req.callback = Callback.fip_cb) ∧
        (∃ h i route, acts.head? = some (Action.route_store h i route)) ∧
        (∀ x, Action.task_return_error x ∉ acts) ∧
        (∀ g', s'.gcp_data = some g' → g'.success = true))) ∧
    (∀ g g', s.gcp_data = some g → g.success = true → s'.gcp_data = some g' →
      g'.success = true) := by
  have hinv : Inv s := by
    rw [hs]
    exact run_inv norm _ events (inv_get_config result_dict)
  have hinv' : Inv s' := by
    rw [hs']
    exact step_inv norm s ev hinv
  have hdelta := step_delta norm s ev hinv
  rw [← hs'] at hdelta
  refine ⟨inv_error_some s' hinv', hdelta, ?_⟩
  intro g g' hg hsucc hg'
  obtain ⟨acts, hl, _⟩ := hdelta
  rw [inv_success s' hinv' g' hg', hl]
  have := (inv_success s hinv g hg).mp hsucc
  unfold has_store at this ⊢
  rw [List.any_append, this]
  rfl

theorem finalize_error_present_witness :
    Action.task_return_error (some timeout_error) ∈
      (step demo_normalize (run demo_normalize (get_config demo_dict) [])
        (Event.complete list_req (get_error timeout_error))).log ∧
    ∃ e, some timeout_error = some e ∧
      has_store (step demo_normalize (run demo_normalize (get_config demo_dict) [])
        (Event.complete list_req (get_error timeout_error))).log = false :=
  ⟨by decide,
   (finalize_error_present demo_normalize demo_dict []
      (Event.complete list_req (get_error timeout_error)) _ _ rfl rfl).1 _ (by decide)⟩

end NMCSGcp
